import Mathlib

/-!
Verification development for the pusoy (Chinese poker) engine.

The definitions below are a shallow embedding of the Python sources
(`card.py`, `player.py`, `poker.py`): playing cards, the hand classifier
(`analyze_hand` and the `has_*` detectors), the hand comparators
(`match_hands`, `match_front_middle`), the extraction helpers
(`extract_*`), the two arrangement searches (`find_best_poker_play`,
`find_balanced_poker_play`), the validity check (`is_valid_hand`) and the
scoring pass (`update_player_scores`).

Python conventions mapped to Lean:
* lists are `List`, mutation is explicit state passing;
* Python `int` is `ℤ` (indices are `ℕ`), Python `float` division used for
  the descriptive percentile/probability statistics is exact `ℚ` division
  (the statistics are never compared against each other in the code, so
  exact rationals are a faithful model);
* `sorted(xs, key = k)` is Mathlib's stable `List.insertionSort` with the
  relation `k a ≤ k b`;
* out-of-range list reads and other runtime errors are modelled with
  `Option` where the embedded code can actually reach them.
-/

namespace Pusoy

/-- from card.py CARD_SUIT: Spades 0, Clubs 1, Hearts 2, Diamonds 3, Joker 4. -/
def SUIT_SPADES : ℕ := 0
def SUIT_CLUBS : ℕ := 1
def SUIT_HEARTS : ℕ := 2
def SUIT_DIAMONDS : ℕ := 3
def SUIT_JOKER : ℕ := 4

/-- A playing card as constructed by `Card.__init__(card_suit, card_value)`:
only the suit and the value are free; every other attribute is derived. -/
structure Card where
  suit : ℕ
  value : ℤ
deriving DecidableEq, Repr

instance : Inhabited Card := ⟨⟨SUIT_JOKER, 0⟩⟩

/-- `self.altvalue = 14 if card_value == 1 else card_value`. -/
def Card.altvalue (c : Card) : ℤ := if c.value = 1 then 14 else c.value

/-- `Card.joker()` returns `Card(CARD_SUIT['Joker'], 0)`. -/
def Card.joker : Card := ⟨SUIT_JOKER, 0⟩

/-- Read a card at an index of a list; all embedded reads are in range, the
default only makes the function total. -/
def cardAt (l : List Card) (i : ℕ) : Card := l.getD i Card.joker

/-- `sorted(hand, key=lambda card: card.value)` (stable). -/
def sort_hand_by_value (hand : List Card) : List Card :=
  List.insertionSort (fun a b => a.value ≤ b.value) hand

/-- `sorted(hand, key=lambda card: card.altvalue)` (stable). -/
def sort_hand_by_alt_value (hand : List Card) : List Card :=
  List.insertionSort (fun a b => a.altvalue ≤ b.altvalue) hand

/-- `sorted(hand, key=lambda card: (card.suit, card.altvalue))` (stable). -/
def sort_hand_by_suit (hand : List Card) : List Card :=
  List.insertionSort
    (fun a b => a.suit < b.suit ∨ (a.suit = b.suit ∧ a.altvalue ≤ b.altvalue)) hand

/-- Rank of the lowercase suit name in alphabetical string order, as used by
`card_id = f"{self.suit_name()}-{card_value:02d}"`: clubs < diamonds <
hearts < joker < spades (any unknown suit integer also prints as "joker"). -/
def suit_name_rank (s : ℕ) : ℕ :=
  if s = SUIT_CLUBS then 0
  else if s = SUIT_DIAMONDS then 1
  else if s = SUIT_HEARTS then 2
  else if s = SUIT_SPADES then 4
  else 3

/-- `sorted(hand, key=lambda card: card.card_id)`: the `card_id` string
compares as the suit name alphabetically, then the zero-padded two-digit
value numerically (stable). -/
def sort_hand_by_card_id (hand : List Card) : List Card :=
  List.insertionSort
    (fun a b => suit_name_rank a.suit < suit_name_rank b.suit ∨
      (suit_name_rank a.suit = suit_name_rank b.suit ∧ a.value ≤ b.value)) hand

-- Hand type constants from poker.py.
def HIGH_TRIPLE : ℕ := 1
def PAIR_TRIPLE : ℕ := 2
def FLUSH_TRIPLE : ℕ := 3
def STRAIGHT_TRIPLE : ℕ := 4
def THREE_TRIPLE : ℕ := 5
def STRAIGHT_FLUSH_TRIPLE : ℕ := 6
def ROYAL_FLUSH_TRIPLE : ℕ := 7
def HIGH_CARD : ℕ := 8
def ONE_PAIR : ℕ := 9
def TWO_PAIR : ℕ := 10
def THREE_OF_A_KIND : ℕ := 11
def STRAIGHT : ℕ := 12
def FLUSH : ℕ := 13
def FULL_HOUSE : ℕ := 14
def FOUR_OF_A_KIND : ℕ := 15
def STRAIGHT_FLUSH : ℕ := 16
def ROYAL_FLUSH : ℕ := 17

def LEFT_HAND_WINS : ℤ := 1
def RIGHT_HAND_WINS : ℤ := -1
def HANDS_ARE_EQUAL : ℤ := 0

def CARDS_ON_HAND : ℕ := 13
def MIN_CARDS_IN_HAND : ℕ := 5

/-- `PokerHandInfo.__init__`: hand_type `None` is modelled as `0`, which no
detector ever assigns, so `hand_type = 0` means "no detection". -/
structure PokerHandInfo where
  hand_type : ℕ := 0
  hands_beaten : ℤ := 0
  probability : ℚ := 0
  percentile : ℚ := 0
  frequency : ℚ := 0
  values : List ℤ := [0, 0, 0, 0, 0]
deriving DecidableEq, Repr

/-- The element-by-element loop body of `match_hands`: compare
`values[i..i+k-1]` left to right, first difference decides. -/
def cmp_values (v w : List ℤ) : ℕ → ℕ → ℤ
  | _, 0 => HANDS_ARE_EQUAL
  | i, k + 1 =>
    if v.getD i 0 > w.getD i 0 then LEFT_HAND_WINS
    else if v.getD i 0 < w.getD i 0 then RIGHT_HAND_WINS
    else cmp_values v w (i + 1) k

/-- `Poker.match_hands(hand1, hand2)`: hand types first, then the five
values left to right. -/
def match_hands (hand1 hand2 : PokerHandInfo) : ℤ :=
  if hand1.hand_type > hand2.hand_type then LEFT_HAND_WINS
  else if hand1.hand_type < hand2.hand_type then RIGHT_HAND_WINS
  else cmp_values hand1.values hand2.values 0 5

/-- `Poker.match_front_middle(hand1, hand2)`: the cross-hierarchy
comparison of a 3-card front against a 5-card middle.  The
"Impossible case detected!" prints return `HANDS_ARE_EQUAL`. -/
def match_front_middle (hand1 hand2 : PokerHandInfo) : ℤ :=
  if hand1.hand_type = HIGH_TRIPLE then
    if hand2.hand_type = HIGH_CARD then cmp_values hand1.values hand2.values 0 5
    else RIGHT_HAND_WINS
  else if hand1.hand_type = PAIR_TRIPLE then
    if hand2.hand_type = ONE_PAIR then
      if hand1.values.getD 0 0 > hand2.values.getD 0 0 then LEFT_HAND_WINS
      else if hand1.values.getD 0 0 < hand2.values.getD 0 0 then RIGHT_HAND_WINS
      else if hand1.values.getD 1 0 > hand2.values.getD 1 0 then LEFT_HAND_WINS
      else if hand1.values.getD 1 0 < hand2.values.getD 1 0 then RIGHT_HAND_WINS
      else RIGHT_HAND_WINS
    else if hand2.hand_type < ONE_PAIR then LEFT_HAND_WINS
    else RIGHT_HAND_WINS
  else if hand1.hand_type = THREE_TRIPLE then
    if hand2.hand_type = THREE_OF_A_KIND then
      if hand1.values.getD 0 0 > hand2.values.getD 0 0 then LEFT_HAND_WINS
      else if hand1.values.getD 0 0 < hand2.values.getD 0 0 then RIGHT_HAND_WINS
      else HANDS_ARE_EQUAL
    else if hand2.hand_type < THREE_OF_A_KIND then LEFT_HAND_WINS
    else RIGHT_HAND_WINS
  else HANDS_ARE_EQUAL

/-- Spec-side comparison, written from the spec's words for the refinement
claim C1: "compare hand_type first (higher wins); on equal hand_type,
compare values tuples element-by-element, first difference decides; if all
equal, Equal".  The first differing index of the five values. -/
def first_diff_index (v w : List ℤ) : Option ℕ :=
  (List.range 5).find? (fun i => decide (v.getD i 0 ≠ w.getD i 0))

/-- Spec-side comparison for claim C1 (see `first_diff_index`). -/
def spec_compare (a b : PokerHandInfo) : ℤ :=
  if a.hand_type > b.hand_type then LEFT_HAND_WINS
  else if a.hand_type < b.hand_type then RIGHT_HAND_WINS
  else
    match first_diff_index a.values b.values with
    | none => HANDS_ARE_EQUAL
    | some i =>
      if a.values.getD i 0 > b.values.getD i 0 then LEFT_HAND_WINS else RIGHT_HAND_WINS

lemma cmp_values_eq_find (v w : List ℤ) :
    ∀ (k i : ℕ), cmp_values v w i k =
      match (List.range' i k).find? (fun j => decide (v.getD j 0 ≠ w.getD j 0)) with
      | none => HANDS_ARE_EQUAL
      | some j =>
        if v.getD j 0 > w.getD j 0 then LEFT_HAND_WINS else RIGHT_HAND_WINS := by
  intro k
  induction k with
  | zero => intro i; simp [cmp_values, List.range']
  | succ n ih =>
    intro i
    rw [List.range'_succ]
    rcases lt_trichotomy (v.getD i 0) (w.getD i 0) with h | h | h
    · have hf : List.find? (fun j => decide (v.getD j 0 ≠ w.getD j 0))
          (i :: List.range' (i + 1) n) = some i := by
        apply List.find?_cons_of_pos
        exact decide_eq_true (ne_of_lt h)
      rw [hf]
      simp only [cmp_values]
      rw [if_neg (by omega), if_pos h, if_neg (by omega)]
    · have hf : List.find? (fun j => decide (v.getD j 0 ≠ w.getD j 0))
          (i :: List.range' (i + 1) n) =
          List.find? (fun j => decide (v.getD j 0 ≠ w.getD j 0))
            (List.range' (i + 1) n) := by
        apply List.find?_cons_of_neg
        exact fun hc => (of_decide_eq_true hc) h
      rw [hf]
      simp only [cmp_values]
      rw [if_neg (by omega), if_neg (by omega)]
      exact ih (i + 1)
    · have hf : List.find? (fun j => decide (v.getD j 0 ≠ w.getD j 0))
          (i :: List.range' (i + 1) n) = some i := by
        apply List.find?_cons_of_pos
        exact decide_eq_true (ne_of_gt h)
      rw [hf]
      simp only [cmp_values]
      rw [if_pos h, if_pos h]

/-- C1: for all hand descriptors `a` and `b`, `match_hands` returns Left
exactly when `a.hand_type > b.hand_type` regardless of values, Right when
`a.hand_type < b.hand_type`, and on equal hand types compares the five
values element-by-element with the first difference deciding, Equal only
when all five agree — that is, `match_hands` coincides with the comparison
written directly from the spec's words. -/
theorem claim_C1_match_hands_follows_spec (a b : PokerHandInfo) :
    match_hands a b = spec_compare a b := by
  unfold match_hands spec_compare
  rcases lt_trichotomy a.hand_type b.hand_type with h | h | h
  · rw [if_neg (by omega), if_pos h, if_neg (by omega), if_pos h]
  · rw [if_neg (by omega), if_neg (by omega), if_neg (by omega), if_neg (by omega)]
    rw [cmp_values_eq_find]
    have : List.range 5 = List.range' 0 5 := by
      rw [List.range_eq_range']
    rw [first_diff_index, this]
  · rw [if_pos h, if_pos h]

lemma cmp_values_antisymm (v w : List ℤ) :
    ∀ (k i : ℕ), cmp_values v w i k = -cmp_values w v i k := by
  intro k
  induction k with
  | zero => intro i; simp [cmp_values, HANDS_ARE_EQUAL]
  | succ n ih =>
    intro i
    simp only [cmp_values]
    rcases lt_trichotomy (v.getD i 0) (w.getD i 0) with h | h | h
    · rw [if_neg (by omega), if_pos h, if_pos h]
      simp [LEFT_HAND_WINS, RIGHT_HAND_WINS]
    · rw [if_neg (by omega), if_neg (by omega), if_neg (by omega), if_neg (by omega)]
      exact ih (i + 1)
    · rw [if_pos h, if_neg (by omega), if_pos h]
      simp [LEFT_HAND_WINS, RIGHT_HAND_WINS]

lemma cmp_values_trans (v w u : List ℤ) :
    ∀ (k i : ℕ), cmp_values v w i k = LEFT_HAND_WINS →
      cmp_values w u i k = LEFT_HAND_WINS → cmp_values v u i k = LEFT_HAND_WINS := by
  intro k
  induction k with
  | zero => intro i h; simp [cmp_values, HANDS_ARE_EQUAL, LEFT_HAND_WINS] at h
  | succ n ih =>
    intro i h1 h2
    simp only [cmp_values] at h1 h2 ⊢
    rcases lt_trichotomy (v.getD i 0) (w.getD i 0) with hvw | hvw | hvw
    · rw [if_neg (by omega), if_pos hvw] at h1
      simp [LEFT_HAND_WINS, RIGHT_HAND_WINS] at h1
    · rcases lt_trichotomy (w.getD i 0) (u.getD i 0) with hwu | hwu | hwu
      · rw [if_neg (by omega), if_pos hwu] at h2
        simp [LEFT_HAND_WINS, RIGHT_HAND_WINS] at h2
      · rw [if_neg (by omega), if_neg (by omega)] at h1 h2
        rw [if_neg (by omega), if_neg (by omega)]
        exact ih (i + 1) h1 h2
      · rw [if_pos (by omega)]
    · rcases lt_trichotomy (w.getD i 0) (u.getD i 0) with hwu | hwu | hwu
      · rw [if_neg (by omega), if_pos hwu] at h2
        simp [LEFT_HAND_WINS, RIGHT_HAND_WINS] at h2
      · rw [if_pos (by omega)]
      · rw [if_pos (by omega)]

/-- C8: `match_hands` is antisymmetric (swapping the arguments negates the
result, so Left swaps with Right and Equal stays Equal) and Left-transitive
(`a` beats `b` and `b` beats `c` imply `a` beats `c`). -/
theorem claim_C8_match_hands_antisymm_trans (a b c : PokerHandInfo) :
    match_hands a b = -match_hands b a ∧
      (match_hands a b = LEFT_HAND_WINS → match_hands b c = LEFT_HAND_WINS →
        match_hands a c = LEFT_HAND_WINS) := by
  constructor
  · unfold match_hands
    rcases lt_trichotomy a.hand_type b.hand_type with h | h | h
    · rw [if_neg (by omega), if_pos h, if_pos h]
      simp [LEFT_HAND_WINS, RIGHT_HAND_WINS]
    · rw [if_neg (by omega), if_neg (by omega), if_neg (by omega), if_neg (by omega)]
      exact cmp_values_antisymm _ _ 5 0
    · rw [if_pos h, if_neg (by omega), if_pos h]
      simp [LEFT_HAND_WINS, RIGHT_HAND_WINS]
  · intro h1 h2
    unfold match_hands at h1 h2 ⊢
    rcases lt_trichotomy a.hand_type b.hand_type with hab | hab | hab
    · rw [if_neg (by omega), if_pos hab] at h1
      simp [LEFT_HAND_WINS, RIGHT_HAND_WINS] at h1
    · rcases lt_trichotomy b.hand_type c.hand_type with hbc | hbc | hbc
      · rw [if_neg (by omega), if_pos hbc] at h2
        simp [LEFT_HAND_WINS, RIGHT_HAND_WINS] at h2
      · rw [if_neg (by omega), if_neg (by omega)] at h1 h2
        rw [if_neg (by omega), if_neg (by omega)]
        exact cmp_values_trans _ _ _ 5 0 h1 h2
      · rw [if_pos (by omega)]
    · rcases lt_trichotomy b.hand_type c.hand_type with hbc | hbc | hbc
      · rw [if_neg (by omega), if_pos hbc] at h2
        simp [LEFT_HAND_WINS, RIGHT_HAND_WINS] at h2
      · rw [if_pos (by omega)]
      · rw [if_pos (by omega)]

/-- Concrete descriptor samples used by the C8 witness: two straights and a
one-pair descriptor. -/
def sampleInfoA : PokerHandInfo := { hand_type := 12, values := [13, 0, 0, 0, 0] }

/-- See `sampleInfoA`. -/
def sampleInfoB : PokerHandInfo := { hand_type := 12, values := [9, 0, 0, 0, 0] }

/-- See `sampleInfoA`. -/
def sampleInfoC : PokerHandInfo := { hand_type := 9, values := [14, 13, 12, 10, 0] }

/-- C8 witness: antisymmetry and Left-transitivity instantiated at concrete
descriptors. -/
theorem claim_C8_witness :
    match_hands sampleInfoA sampleInfoB = -match_hands sampleInfoB sampleInfoA ∧
    match_hands sampleInfoA sampleInfoB = LEFT_HAND_WINS ∧
    match_hands sampleInfoB sampleInfoC = LEFT_HAND_WINS ∧
    match_hands sampleInfoA sampleInfoC = LEFT_HAND_WINS := by
  have h1 : match_hands sampleInfoA sampleInfoB = LEFT_HAND_WINS := by decide
  have h2 : match_hands sampleInfoB sampleInfoC = LEFT_HAND_WINS := by decide
  exact ⟨(claim_C8_match_hands_antisymm_trans sampleInfoA sampleInfoB sampleInfoC).1,
    h1, h2,
    (claim_C8_match_hands_antisymm_trans sampleInfoA sampleInfoB sampleInfoC).2 h1 h2⟩

/-! Constants imported by `poker.py` from `poker_stat` (that module is not
part of the sources at hand).  They feed only the descriptive
`hands_beaten` / `percentile` / `frequency` / `probability` statistics,
which the spec explicitly calls "descriptive statistics only, not used by
the comparator", so their concrete values decide no claim. -/

/-- Modelled from the spec: `poker_stat` constant (missing module),
descriptive statistic only. -/
def ALL_POKER_HANDS : ℤ := 2598960

/-- Modelled from the spec: `poker_stat` constant (missing module). -/
def ALL_TRIPLES : ℤ := 22100

/-- Modelled from the spec: `poker_stat` constant (missing module). -/
def ROYAL_FLUSH_HANDS : ℤ := 4

/-- Modelled from the spec: `poker_stat` constant (missing module). -/
def ROYAL_FLUSH_BEATS : ℤ := 2598956

/-- Modelled from the spec: `poker_stat` constant (missing module). -/
def ROYAL_FLUSH_PROBABILITY : ℚ := (ROYAL_FLUSH_HANDS : ℚ) / (ALL_POKER_HANDS : ℚ)

/-- Modelled from the spec: `poker_stat` constant (missing module). -/
def STRAIGHT_FLUSH_HANDS : ℤ := 36

/-- Modelled from the spec: `poker_stat` constant (missing module). -/
def STRAIGHT_FLUSH_BEATS : ℤ := 2598920

/-- Modelled from the spec: `poker_stat` constant (missing module). -/
def STRAIGHT_FLUSH_PROBABILITY : ℚ := (STRAIGHT_FLUSH_HANDS : ℚ) / (ALL_POKER_HANDS : ℚ)

/-- Modelled from the spec: `poker_stat` constant (missing module). -/
def FOUR_OF_A_KIND_HANDS : ℤ := 624

/-- Modelled from the spec: `poker_stat` constant (missing module). -/
def FOUR_OF_A_KIND_BEATS : ℤ := 2598296

/-- Modelled from the spec: `poker_stat` constant (missing module). -/
def FOUR_OF_A_KIND_PROBABILITY : ℚ := (FOUR_OF_A_KIND_HANDS : ℚ) / (ALL_POKER_HANDS : ℚ)

/-- Modelled from the spec: `poker_stat` constant (missing module). -/
def FULL_HOUSE_HANDS : ℤ := 3744

/-- Modelled from the spec: `poker_stat` constant (missing module). -/
def FULL_HOUSE_BEATS : ℤ := 2594552

/-- Modelled from the spec: `poker_stat` constant (missing module). -/
def FULL_HOUSE_PROBABILITY : ℚ := (FULL_HOUSE_HANDS : ℚ) / (ALL_POKER_HANDS : ℚ)

/-- Modelled from the spec: `poker_stat` constant (missing module). -/
def FLUSH_HANDS : ℤ := 5108

/-- Modelled from the spec: `poker_stat` constant (missing module). -/
def FLUSH_BEATS : ℤ := 2589444

/-- Modelled from the spec: `poker_stat` constant (missing module). -/
def FLUSH_PROBABILITY : ℚ := (FLUSH_HANDS : ℚ) / (ALL_POKER_HANDS : ℚ)

/-- Modelled from the spec: `poker_stat` constant (missing module). -/
def STRAIGHT_HANDS : ℤ := 10200

/-- Modelled from the spec: `poker_stat` constant (missing module). -/
def STRAIGHT_BEATS : ℤ := 2579244

/-- Modelled from the spec: `poker_stat` constant (missing module). -/
def STRAIGHT_PROBABILITY : ℚ := (STRAIGHT_HANDS : ℚ) / (ALL_POKER_HANDS : ℚ)

/-- Modelled from the spec: `poker_stat` constant (missing module). -/
def THREE_OF_A_KIND_HANDS : ℤ := 54912

/-- Modelled from the spec: `poker_stat` constant (missing module). -/
def THREE_OF_A_KIND_BEATS : ℤ := 2524332

/-- Modelled from the spec: `poker_stat` constant (missing module). -/
def THREE_OF_A_KIND_PROBABILITY : ℚ := (THREE_OF_A_KIND_HANDS : ℚ) / (ALL_POKER_HANDS : ℚ)

/-- Modelled from the spec: `poker_stat` constant (missing module). -/
def TWO_PAIR_HANDS : ℤ := 123552

/-- Modelled from the spec: `poker_stat` constant (missing module). -/
def TWO_PAIR_BEATS : ℤ := 2400780

/-- Modelled from the spec: `poker_stat` constant (missing module). -/
def TWO_PAIR_PROBABILITY : ℚ := (TWO_PAIR_HANDS : ℚ) / (ALL_POKER_HANDS : ℚ)

/-- Modelled from the spec: `poker_stat` constant (missing module). -/
def ONE_PAIR_HANDS : ℤ := 1098240

/-- Modelled from the spec: `poker_stat` constant (missing module). -/
def ONE_PAIR_BEATS : ℤ := 1302540

/-- Modelled from the spec: `poker_stat` constant (missing module). -/
def ONE_PAIR_PROBABILITY : ℚ := (ONE_PAIR_HANDS : ℚ) / (ALL_POKER_HANDS : ℚ)

/-- Modelled from the spec: `poker_stat` constant (missing module). -/
def HIGH_CARD_HANDS : ℤ := 1302540

/-- Modelled from the spec: `poker_stat` constant (missing module). -/
def HIGH_CARD_PROBABILITY : ℚ := (HIGH_CARD_HANDS : ℚ) / (ALL_POKER_HANDS : ℚ)

/-- Modelled from the spec: `poker_stat` constant (missing module). -/
def HIGH_TRIPLES : ℤ := 16436

/-- Modelled from the spec: `poker_stat` constant (missing module). -/
def HIGH_TRIPLE_PROBABILITY : ℚ := (HIGH_TRIPLES : ℚ) / (ALL_TRIPLES : ℚ)

/-- Modelled from the spec: `poker_stat` constant (missing module). -/
def PAIR_TRIPLES : ℤ := 3744

/-- Modelled from the spec: `poker_stat` constant (missing module). -/
def PAIR_BEATS : ℤ := 16436

/-- Modelled from the spec: `poker_stat` constant (missing module). -/
def PAIR_PROBABILITY : ℚ := (PAIR_TRIPLES : ℚ) / (ALL_TRIPLES : ℚ)

/-- Modelled from the spec: `poker_stat` constant (missing module). -/
def THREE_OF_A_KIND_TRIPLES : ℤ := 52

/-- Modelled from the spec: `poker_stat` constant (missing module). -/
def THREE_OF_A_KIND_TRIPLE_BEATS : ℤ := 20180

/-- Modelled from the spec: `poker_stat` constant (missing module). -/
def THREE_OF_A_KIND_TRIPLE_PROB : ℚ := (THREE_OF_A_KIND_TRIPLES : ℚ) / (ALL_TRIPLES : ℚ)

/-- `Poker.combination(n, k)`: binomial coefficient by the iterative
product, with Python floor division. -/
def combination (n : ℤ) (k : ℕ) : ℤ :=
  if n < (k : ℤ) then 0
  else
    ((List.range k).foldl
      (fun rn d => (Int.fdiv (rn.1 * rn.2) ((d : ℤ) + 1), rn.2 - 1)) ((1 : ℤ), n)).1

/-- `Poker.has_royal_flush(hand)`.  The `len(hand) == 3` branch of the
source is unreachable: the function returns the empty info for any hand
shorter than `MIN_CARDS_IN_HAND = 5` first, so only the 5-card check is
embedded. -/
def has_royal_flush (hand : List Card) : PokerHandInfo :=
  if hand.length < MIN_CARDS_IN_HAND then {}
  else
    let s := sort_hand_by_alt_value hand
    let card1 := cardAt s 0
    let card2 := cardAt s 1
    let card3 := cardAt s 2
    let card4 := cardAt s 3
    let card5 := cardAt s 4
    if card2.altvalue - card1.altvalue = 1 ∧ card2.suit = card1.suit ∧
        card3.altvalue - card2.altvalue = 1 ∧ card3.suit = card2.suit ∧
        card4.altvalue - card3.altvalue = 1 ∧ card4.suit = card3.suit ∧
        card5.altvalue - card4.altvalue = 1 ∧ card5.suit = card4.suit ∧
        card1.altvalue = 10 then
      { hand_type := ROYAL_FLUSH,
        hands_beaten := ROYAL_FLUSH_BEATS,
        percentile := (ROYAL_FLUSH_BEATS : ℚ) / (ALL_POKER_HANDS : ℚ),
        frequency := (ROYAL_FLUSH_HANDS : ℚ),
        probability := ROYAL_FLUSH_PROBABILITY,
        values := [card5.altvalue, 0, 0, 0, 0] }
    else {}

/-- `Poker.has_straight_flush(hand)` (5-card part; the 3-card branch is
unreachable behind the `MIN_CARDS_IN_HAND` guard, as in
`has_royal_flush`). -/
def has_straight_flush (hand : List Card) : PokerHandInfo :=
  if hand.length < MIN_CARDS_IN_HAND then {}
  else
    let s := sort_hand_by_value hand
    let card1 := cardAt s 0
    let card2 := cardAt s 1
    let card3 := cardAt s 2
    let card4 := cardAt s 3
    let card5 := cardAt s 4
    if card2.value - card1.value = 1 ∧ card2.suit = card1.suit ∧
        card3.value - card2.value = 1 ∧ card3.suit = card2.suit ∧
        card4.value - card3.value = 1 ∧ card4.suit = card3.suit ∧
        card5.value - card4.value = 1 ∧ card5.suit = card4.suit then
      { hand_type := STRAIGHT_FLUSH,
        hands_beaten := STRAIGHT_FLUSH_BEATS + 4 * (card5.value - 5),
        percentile := ((STRAIGHT_FLUSH_BEATS + 4 * (card5.value - 5) : ℤ) : ℚ) /
          (ALL_POKER_HANDS : ℚ),
        frequency := (STRAIGHT_FLUSH_HANDS : ℚ),
        probability := STRAIGHT_FLUSH_PROBABILITY,
        values := [card5.value, 0, 0, 0, 0] }
    else {}

/-- `Poker.has_four_of_a_kind(hand)`. -/
def has_four_of_a_kind (hand : List Card) : PokerHandInfo :=
  if hand.length < 5 then {}
  else
    let s := sort_hand_by_alt_value hand
    let card1 := cardAt s 0
    let card2 := cardAt s 1
    let card3 := cardAt s 2
    let card4 := cardAt s 3
    let card5 := cardAt s 4
    if card1.altvalue = card2.altvalue ∧ card2.altvalue = card3.altvalue ∧
        card3.altvalue = card4.altvalue then
      { hand_type := FOUR_OF_A_KIND,
        hands_beaten := FOUR_OF_A_KIND_BEATS + 48 * (card1.altvalue - 2),
        percentile := ((FOUR_OF_A_KIND_BEATS + 48 * (card1.altvalue - 2) : ℤ) : ℚ) /
          (ALL_POKER_HANDS : ℚ),
        frequency := (FOUR_OF_A_KIND_HANDS : ℚ),
        probability := FOUR_OF_A_KIND_PROBABILITY,
        values := [card1.altvalue, 0, 0, 0, 0] }
    else if card2.altvalue = card3.altvalue ∧ card3.altvalue = card4.altvalue ∧
        card4.altvalue = card5.altvalue then
      { hand_type := FOUR_OF_A_KIND,
        hands_beaten := FOUR_OF_A_KIND_BEATS + 48 * (card2.altvalue - 2),
        percentile := ((FOUR_OF_A_KIND_BEATS + 48 * (card2.altvalue - 2) : ℤ) : ℚ) /
          (ALL_POKER_HANDS : ℚ),
        frequency := (FOUR_OF_A_KIND_HANDS : ℚ),
        probability := FOUR_OF_A_KIND_PROBABILITY,
        values := [card2.altvalue, 0, 0, 0, 0] }
    else {}

/-- `Poker.has_full_house(hand)`: both groupings must be real cards, not
the Joker placeholder. -/
def has_full_house (hand : List Card) : PokerHandInfo :=
  if hand.length < 5 then {}
  else
    let s := sort_hand_by_alt_value hand
    let card1 := cardAt s 0
    let card2 := cardAt s 1
    let card3 := cardAt s 2
    let card4 := cardAt s 3
    let card5 := cardAt s 4
    if card1.altvalue = card2.altvalue ∧ card2.altvalue = card3.altvalue ∧
        card4.altvalue = card5.altvalue ∧
        card1.suit ≠ SUIT_JOKER ∧ card4.suit ≠ SUIT_JOKER then
      { hand_type := FULL_HOUSE,
        hands_beaten := FULL_HOUSE_BEATS + 72 * (card1.altvalue - 2),
        percentile := ((FULL_HOUSE_BEATS + 72 * (card1.altvalue - 2) : ℤ) : ℚ) /
          (ALL_POKER_HANDS : ℚ),
        frequency := (FULL_HOUSE_HANDS : ℚ),
        probability := FULL_HOUSE_PROBABILITY,
        values := [card1.altvalue, card4.altvalue, 0, 0, 0] }
    else if card1.altvalue = card2.altvalue ∧
        card3.altvalue = card4.altvalue ∧ card4.altvalue = card5.altvalue ∧
        card1.suit ≠ SUIT_JOKER ∧ card3.suit ≠ SUIT_JOKER then
      { hand_type := FULL_HOUSE,
        hands_beaten := FULL_HOUSE_BEATS + 72 * (card3.altvalue - 2),
        percentile := ((FULL_HOUSE_BEATS + 72 * (card3.altvalue - 2) : ℤ) : ℚ) /
          (ALL_POKER_HANDS : ℚ),
        frequency := (FULL_HOUSE_HANDS : ℚ),
        probability := FULL_HOUSE_PROBABILITY,
        values := [card3.altvalue, card1.altvalue, 0, 0, 0] }
    else {}

/-- `Poker.has_flush(hand)` (5-card part; the 3-card branch is unreachable
behind the `MIN_CARDS_IN_HAND` guard). -/
def has_flush (hand : List Card) : PokerHandInfo :=
  if hand.length < MIN_CARDS_IN_HAND then {}
  else
    let s := sort_hand_by_alt_value hand
    let card1 := cardAt s 0
    let card2 := cardAt s 1
    let card3 := cardAt s 2
    let card4 := cardAt s 3
    let card5 := cardAt s 4
    if card1.suit = card2.suit ∧ card2.suit = card3.suit ∧
        card3.suit = card4.suit ∧ card4.suit = card5.suit then
      let hb := Int.fdiv ((card1.altvalue - 2) * (card2.altvalue - 2) *
        (card3.altvalue - 2) * (card4.altvalue - 2) * (card5.altvalue - 2) * 4) 120 +
        FLUSH_BEATS
      { hand_type := FLUSH,
        hands_beaten := hb,
        percentile := (hb : ℚ) / (ALL_POKER_HANDS : ℚ),
        frequency := (FLUSH_HANDS : ℚ),
        probability := FLUSH_PROBABILITY,
        values := [card5.altvalue, card4.altvalue, card3.altvalue,
          card2.altvalue, card1.altvalue] }
    else {}

/-- `Poker.has_royal_straight(hand)` (5-card part; the 3-card branch is
unreachable behind the `MIN_CARDS_IN_HAND` guard): the ace-high 10-J-Q-K-A
straight check, sorting by the alternate (ace = 14) value. -/
def has_royal_straight (hand : List Card) : PokerHandInfo :=
  if hand.length < MIN_CARDS_IN_HAND then {}
  else
    let s := sort_hand_by_alt_value hand
    let card1 := cardAt s 0
    let card2 := cardAt s 1
    let card3 := cardAt s 2
    let card4 := cardAt s 3
    let card5 := cardAt s 4
    if card2.altvalue - card1.altvalue = 1 ∧
        card3.altvalue - card2.altvalue = 1 ∧
        card4.altvalue - card3.altvalue = 1 ∧
        card5.altvalue - card4.altvalue = 1 ∧
        card1.altvalue = 10 then
      { hand_type := STRAIGHT,
        hands_beaten := STRAIGHT_BEATS + 1020 * (card5.altvalue - 5),
        percentile := ((STRAIGHT_BEATS + 1020 * (card5.altvalue - 5) : ℤ) : ℚ) /
          (ALL_POKER_HANDS : ℚ),
        frequency := (STRAIGHT_HANDS : ℚ),
        probability := STRAIGHT_PROBABILITY,
        values := [card5.altvalue, 0, 0, 0, 0] }
    else {}

/-- `Poker.has_straight(hand)` (5-card part; the 3-card branch is
unreachable behind the `MIN_CARDS_IN_HAND` guard): the general straight
check, sorting by the low-ace value. -/
def has_straight (hand : List Card) : PokerHandInfo :=
  if hand.length < MIN_CARDS_IN_HAND then {}
  else
    let s := sort_hand_by_value hand
    let card1 := cardAt s 0
    let card2 := cardAt s 1
    let card3 := cardAt s 2
    let card4 := cardAt s 3
    let card5 := cardAt s 4
    if card2.value - card1.value = 1 ∧
        card3.value - card2.value = 1 ∧
        card4.value - card3.value = 1 ∧
        card5.value - card4.value = 1 then
      { hand_type := STRAIGHT,
        hands_beaten := STRAIGHT_BEATS + 1020 * (card5.value - 5),
        percentile := ((STRAIGHT_BEATS + 1020 * (card5.value - 5) : ℤ) : ℚ) /
          (ALL_POKER_HANDS : ℚ),
        frequency := (STRAIGHT_HANDS : ℚ),
        probability := STRAIGHT_PROBABILITY,
        values := [card5.value, 0, 0, 0, 0] }
    else {}

/-- `Poker.has_three_of_a_kind(hand)`: the 3/4-card branch yields
`THREE_TRIPLE`, the 5-card branches reject Joker groups. -/
def has_three_of_a_kind (hand : List Card) : PokerHandInfo :=
  if hand.length < 3 then {}
  else
    let s := sort_hand_by_alt_value hand
    let card1 := cardAt s 0
    let card2 := cardAt s 1
    let card3 := cardAt s 2
    if hand.length < 5 then
      -- the Python code keeps `hands_beaten = card1.altvalue` and then tests
      -- `hands_beaten > 0`, so an all-zero-altvalue triple is not detected
      if card1.altvalue = card2.altvalue ∧ card2.altvalue = card3.altvalue ∧
          card1.altvalue > 0 then
        { hand_type := THREE_TRIPLE,
          hands_beaten := THREE_OF_A_KIND_TRIPLE_BEATS + 4 * (card1.altvalue - 2),
          percentile := ((THREE_OF_A_KIND_TRIPLE_BEATS + 4 * (card1.altvalue - 2) : ℤ) : ℚ) /
            (ALL_TRIPLES : ℚ),
          frequency := (THREE_OF_A_KIND_TRIPLES : ℚ),
          probability := THREE_OF_A_KIND_TRIPLE_PROB,
          values := [card1.altvalue, 0, 0, 0, 0] }
      else {}
    else
      let card4 := cardAt s 3
      let card5 := cardAt s 4
      if card1.altvalue = card2.altvalue ∧ card2.altvalue = card3.altvalue ∧
          card1.suit ≠ SUIT_JOKER then
        { hand_type := THREE_OF_A_KIND,
          hands_beaten := THREE_OF_A_KIND_BEATS + 4224 * (card1.altvalue - 2),
          percentile := ((THREE_OF_A_KIND_BEATS + 4224 * (card1.altvalue - 2) : ℤ) : ℚ) /
            (ALL_POKER_HANDS : ℚ),
          frequency := (THREE_OF_A_KIND_HANDS : ℚ),
          probability := THREE_OF_A_KIND_PROBABILITY,
          values := [card1.altvalue, card5.altvalue, card4.altvalue, 0, 0] }
      else if card2.altvalue = card3.altvalue ∧ card3.altvalue = card4.altvalue ∧
          card2.suit ≠ SUIT_JOKER then
        { hand_type := THREE_OF_A_KIND,
          hands_beaten := THREE_OF_A_KIND_BEATS + 4224 * (card2.altvalue - 2),
          percentile := ((THREE_OF_A_KIND_BEATS + 4224 * (card2.altvalue - 2) : ℤ) : ℚ) /
            (ALL_POKER_HANDS : ℚ),
          frequency := (THREE_OF_A_KIND_HANDS : ℚ),
          probability := THREE_OF_A_KIND_PROBABILITY,
          values := [card2.altvalue, card5.altvalue, card1.altvalue, 0, 0] }
      else if card3.altvalue = card4.altvalue ∧ card4.altvalue = card5.altvalue ∧
          card3.suit ≠ SUIT_JOKER then
        { hand_type := THREE_OF_A_KIND,
          hands_beaten := THREE_OF_A_KIND_BEATS + 4224 * (card3.altvalue - 2),
          percentile := ((THREE_OF_A_KIND_BEATS + 4224 * (card3.altvalue - 2) : ℤ) : ℚ) /
            (ALL_POKER_HANDS : ℚ),
          frequency := (THREE_OF_A_KIND_HANDS : ℚ),
          probability := THREE_OF_A_KIND_PROBABILITY,
          values := [card3.altvalue, card2.altvalue, card1.altvalue, 0, 0] }
      else {}

/-- Hands-beaten statistic of `has_two_pair`, shared by its branches. -/
def two_pair_beats_of (v0 v1 v2 : ℤ) : ℤ :=
  if v0 > 3 then
    TWO_PAIR_BEATS + 1584 * (combination (v0 - 2) 2 + v1 - 2) + (v2 - 2)
  else TWO_PAIR_BEATS + v2 - 2

/-- `Poker.has_two_pair(hand)`: both pairs must be real cards, not the
Joker placeholder. -/
def has_two_pair (hand : List Card) : PokerHandInfo :=
  if hand.length < 5 then {}
  else
    let s := sort_hand_by_alt_value hand
    let card1 := cardAt s 0
    let card2 := cardAt s 1
    let card3 := cardAt s 2
    let card4 := cardAt s 3
    let card5 := cardAt s 4
    if card1.altvalue = card2.altvalue ∧ card3.altvalue = card4.altvalue ∧
        card1.suit ≠ SUIT_JOKER ∧ card3.suit ≠ SUIT_JOKER then
      let hb := two_pair_beats_of card3.altvalue card1.altvalue card5.altvalue
      { hand_type := TWO_PAIR,
        hands_beaten := hb,
        percentile := (hb : ℚ) / (ALL_POKER_HANDS : ℚ),
        frequency := (TWO_PAIR_HANDS : ℚ),
        probability := TWO_PAIR_PROBABILITY,
        values := [card3.altvalue, card1.altvalue, card5.altvalue, 0, 0] }
    else if card1.altvalue = card2.altvalue ∧ card4.altvalue = card5.altvalue ∧
        card1.suit ≠ SUIT_JOKER ∧ card4.suit ≠ SUIT_JOKER then
      let hb := two_pair_beats_of card4.altvalue card1.altvalue card3.altvalue
      { hand_type := TWO_PAIR,
        hands_beaten := hb,
        percentile := (hb : ℚ) / (ALL_POKER_HANDS : ℚ),
        frequency := (TWO_PAIR_HANDS : ℚ),
        probability := TWO_PAIR_PROBABILITY,
        values := [card4.altvalue, card1.altvalue, card3.altvalue, 0, 0] }
    else if card2.altvalue = card3.altvalue ∧ card4.altvalue = card5.altvalue ∧
        card2.suit ≠ SUIT_JOKER ∧ card4.suit ≠ SUIT_JOKER then
      let hb := two_pair_beats_of card4.altvalue card2.altvalue card1.altvalue
      { hand_type := TWO_PAIR,
        hands_beaten := hb,
        percentile := (hb : ℚ) / (ALL_POKER_HANDS : ℚ),
        frequency := (TWO_PAIR_HANDS : ℚ),
        probability := TWO_PAIR_PROBABILITY,
        values := [card4.altvalue, card2.altvalue, card1.altvalue, 0, 0] }
    else {}

/-- `Poker.has_one_pair(hand)`: note that unlike `has_two_pair`,
`has_three_of_a_kind` and `has_full_house`, the source has no Joker-suit
guard on the paired cards here, in either the 3-card or the 5-card
branch. -/
def has_one_pair (hand : List Card) : PokerHandInfo :=
  if hand.length < 3 then {}
  else
    let s := sort_hand_by_alt_value hand
    let card1 := cardAt s 0
    let card2 := cardAt s 1
    let card3 := cardAt s 2
    if hand.length = 3 then
      if card1.altvalue = card2.altvalue then
        let hb := PAIR_BEATS + 284 * (card1.altvalue - 2) + 4 * card3.altvalue
        { hand_type := PAIR_TRIPLE,
          hands_beaten := hb,
          percentile := (hb : ℚ) / (ALL_TRIPLES : ℚ),
          frequency := (PAIR_TRIPLES : ℚ),
          probability := PAIR_PROBABILITY,
          values := [card1.altvalue, card3.altvalue, 0, 0, 0] }
      else if card2.altvalue = card3.altvalue then
        let hb := PAIR_BEATS + 284 * (card2.altvalue - 2) + 4 * card1.altvalue
        { hand_type := PAIR_TRIPLE,
          hands_beaten := hb,
          percentile := (hb : ℚ) / (ALL_TRIPLES : ℚ),
          frequency := (PAIR_TRIPLES : ℚ),
          probability := PAIR_PROBABILITY,
          values := [card2.altvalue, card1.altvalue, 0, 0, 0] }
      else {}
    else
      let card4 := cardAt s 3
      let card5 := cardAt s 4
      let mk : List ℤ → PokerHandInfo := fun vs =>
        let hb := ONE_PAIR_BEATS + 84480 * (vs.getD 0 0 - 2) +
          320 * (vs.getD 1 0 - 2) * (vs.getD 2 0 - 2) * (vs.getD 3 0 - 2)
        { hand_type := ONE_PAIR,
          hands_beaten := hb,
          percentile := (hb : ℚ) / (ALL_POKER_HANDS : ℚ),
          frequency := (ONE_PAIR_HANDS : ℚ),
          probability := ONE_PAIR_PROBABILITY,
          values := vs }
      if card1.altvalue = card2.altvalue then
        mk [card1.altvalue, card5.altvalue, card4.altvalue, card3.altvalue, 0]
      else if card2.altvalue = card3.altvalue then
        mk [card2.altvalue, card5.altvalue, card4.altvalue, card1.altvalue, 0]
      else if card3.altvalue = card4.altvalue then
        mk [card3.altvalue, card5.altvalue, card2.altvalue, card1.altvalue, 0]
      else if card4.altvalue = card5.altvalue then
        mk [card4.altvalue, card3.altvalue, card2.altvalue, card1.altvalue, 0]
      else {}

/-- `Poker.has_high_card(hand)`: total fallback, `HIGH_TRIPLE` for 3-card
hands and `HIGH_CARD` otherwise. -/
def has_high_card (hand : List Card) : PokerHandInfo :=
  let s := sort_hand_by_alt_value hand
  let card1 := cardAt s 0
  let card2 := cardAt s 1
  let card3 := cardAt s 2
  if hand.length = 3 then
    let hb := 64 * combination (card3.altvalue - 2) 3
    { hand_type := HIGH_TRIPLE,
      hands_beaten := hb,
      percentile := (hb : ℚ) / (ALL_TRIPLES : ℚ),
      frequency := (HIGH_TRIPLES : ℚ),
      probability := HIGH_TRIPLE_PROBABILITY,
      values := [card3.altvalue, card2.altvalue, card1.altvalue, 0, 0] }
  else
    let card4 := cardAt s 3
    let card5 := cardAt s 4
    let hb := 1020 * (combination (card5.altvalue - 2) 5 - (card5.altvalue - 5))
    { hand_type := HIGH_CARD,
      hands_beaten := hb,
      percentile := (hb : ℚ) / (ALL_POKER_HANDS : ℚ),
      frequency := (HIGH_CARD_HANDS : ℚ),
      probability := HIGH_CARD_PROBABILITY,
      values := [card5.altvalue, card4.altvalue, card3.altvalue,
        card2.altvalue, card1.altvalue] }

/-- `Poker.analyze_hand(hand)`: try each detector from strongest to
weakest and return the first match; `has_high_card` is the fallback. -/
def analyze_hand (hand : List Card) : PokerHandInfo :=
  let i1 := has_royal_flush hand
  if i1.hand_type = ROYAL_FLUSH ∨ i1.hand_type = ROYAL_FLUSH_TRIPLE then i1
  else
    let i2 := has_straight_flush hand
    if i2.hand_type = STRAIGHT_FLUSH ∨ i2.hand_type = STRAIGHT_FLUSH_TRIPLE then i2
    else
      let i3 := has_four_of_a_kind hand
      if i3.hand_type = FOUR_OF_A_KIND then i3
      else
        let i4 := has_full_house hand
        if i4.hand_type = FULL_HOUSE then i4
        else
          let i5 := has_flush hand
          if i5.hand_type = FLUSH ∨ i5.hand_type = FLUSH_TRIPLE then i5
          else
            let i6 := has_royal_straight hand
            if i6.hand_type = STRAIGHT ∨ i6.hand_type = STRAIGHT_TRIPLE then i6
            else
              let i7 := has_straight hand
              if i7.hand_type = STRAIGHT ∨ i7.hand_type = STRAIGHT_TRIPLE then i7
              else
                let i8 := has_three_of_a_kind hand
                if i8.hand_type = THREE_OF_A_KIND ∨ i8.hand_type = THREE_TRIPLE then i8
                else
                  let i9 := has_two_pair hand
                  if i9.hand_type = TWO_PAIR then i9
                  else
                    let i10 := has_one_pair hand
                    if i10.hand_type = ONE_PAIR ∨ i10.hand_type = PAIR_TRIPLE then i10
                    else has_high_card hand

/-- `Poker.is_valid_hand(hand)`: `False` when shorter than 13 cards (the
source checks only `len(hand) < CARDS_ON_HAND`); otherwise classify the
`[0:3]`, `[3:8]` and `[8:13]` slices and require that neither the middle
beats the back nor the front beats the middle. -/
def is_valid_hand (hand : List Card) : Bool :=
  if hand.length < CARDS_ON_HAND then false
  else
    let front_hand_info := analyze_hand (hand.take 3)
    let middle_hand_info := analyze_hand ((hand.drop 3).take 5)
    let back_hand_info := analyze_hand ((hand.drop 8).take 5)
    if match_hands middle_hand_info back_hand_info = LEFT_HAND_WINS then false
    else if match_front_middle front_hand_info middle_hand_info = LEFT_HAND_WINS then false
    else true

/-- Five-card input for C6: two Joker placeholder tokens (equal value 0)
plus three distinct standard cards. -/
def c6_input : List Card := [Card.joker, Card.joker, ⟨SUIT_SPADES, 2⟩, ⟨SUIT_HEARTS, 5⟩, ⟨SUIT_DIAMONDS, 9⟩]

/-- C6: the pair detector does classify two Joker-suit cards of equal value
as a detected pair — `has_one_pair` reports `ONE_PAIR` with group rank
`values[0] = 0` on `c6_input`, and the only altvalue-0 cards there are the
Joker tokens, so the reported pair is the two Jokers.  The sibling
detectors (`has_two_pair`, `has_three_of_a_kind`, `has_full_house`) carry
the Joker-suit guard, `has_one_pair` does not. -/
theorem claim_C6_joker_pair_detected :
    (has_one_pair c6_input).hand_type = ONE_PAIR ∧
    (has_one_pair c6_input).values = [0, 9, 5, 2, 0] ∧
    (∀ c ∈ c6_input, c.altvalue = 0 → c.suit = SUIT_JOKER) ∧
    (∀ c ∈ c6_input, c.suit ≠ SUIT_JOKER → 2 ≤ c.altvalue) := by
  refine ⟨by decide, by decide, ?_, ?_⟩ <;> decide

/-- A 13-card arrangement used as a concrete valid input: hearts 2 to the
high ace, in ascending order (front 2-3-4, middle 5-9 straight flush, back
10-A royal flush). -/
def hearts13 : List Card :=
  [⟨SUIT_HEARTS, 2⟩, ⟨SUIT_HEARTS, 3⟩, ⟨SUIT_HEARTS, 4⟩, ⟨SUIT_HEARTS, 5⟩,
   ⟨SUIT_HEARTS, 6⟩, ⟨SUIT_HEARTS, 7⟩, ⟨SUIT_HEARTS, 8⟩, ⟨SUIT_HEARTS, 9⟩,
   ⟨SUIT_HEARTS, 10⟩, ⟨SUIT_HEARTS, 11⟩, ⟨SUIT_HEARTS, 12⟩, ⟨SUIT_HEARTS, 13⟩,
   ⟨SUIT_HEARTS, 14⟩]

/-- C4 counterexample: a 14-card input on which `is_valid_hand` returns
`true` — the source only rejects inputs shorter than 13
(`len(hand) < CARDS_ON_HAND`), so the claim's "false for every input whose
length is not exactly 13 (including inputs longer than 13)" fails. -/
theorem claim_C4_counterexample :
    (hearts13 ++ ([⟨SUIT_SPADES, 2⟩] : List Card)).length = 14 ∧
    is_valid_hand (hearts13 ++ ([⟨SUIT_SPADES, 2⟩] : List Card)) = true := by
  constructor
  · decide
  · decide

/-- C4 as amended: `is_valid_hand` returns `false` for every input shorter
than 13 cards; for every input of at least 13 cards (not only exactly 13)
it returns `true` iff, on the first 13 cards, comparing the classified
middle against the classified back does not yield Left and comparing the
classified front against the classified middle via the front/middle rule
does not yield Left. -/
theorem claim_C4_is_valid_hand_characterisation (hand : List Card) :
    (hand.length < 13 → is_valid_hand hand = false) ∧
    (13 ≤ hand.length →
      (is_valid_hand hand = true ↔
        match_hands (analyze_hand ((hand.drop 3).take 5))
            (analyze_hand ((hand.drop 8).take 5)) ≠ LEFT_HAND_WINS ∧
          match_front_middle (analyze_hand (hand.take 3))
            (analyze_hand ((hand.drop 3).take 5)) ≠ LEFT_HAND_WINS)) := by
  unfold is_valid_hand
  constructor
  · intro h
    rw [if_pos]
    exact h
  · intro h
    rw [if_neg (by simp only [CARDS_ON_HAND]; omega)]
    constructor
    · intro hv
      by_cases h1 : match_hands (analyze_hand ((hand.drop 3).take 5))
          (analyze_hand ((hand.drop 8).take 5)) = LEFT_HAND_WINS
      · rw [if_pos h1] at hv
        exact absurd hv (by simp)
      · rw [if_neg h1] at hv
        by_cases h2 : match_front_middle (analyze_hand (hand.take 3))
            (analyze_hand ((hand.drop 3).take 5)) = LEFT_HAND_WINS
        · rw [if_pos h2] at hv
          exact absurd hv (by simp)
        · exact ⟨h1, h2⟩
    · intro hv
      rw [if_neg hv.1, if_neg hv.2]

/-- C4 witness: the amended characterisation applied at a 5-card input
(too short, hence invalid) and at the 13-card `hearts13` (where both
comparison conditions hold, hence valid). -/
theorem claim_C4_witness :
    is_valid_hand [⟨SUIT_HEARTS, 2⟩, ⟨SUIT_HEARTS, 3⟩, ⟨SUIT_HEARTS, 4⟩,
      ⟨SUIT_HEARTS, 5⟩, ⟨SUIT_HEARTS, 6⟩] = false ∧
    is_valid_hand hearts13 = true := by
  constructor
  · exact (claim_C4_is_valid_hand_characterisation _).1 (by decide)
  · exact ((claim_C4_is_valid_hand_characterisation hearts13).2 (by decide)).mpr
      ⟨by decide, by decide⟩

/-- A stable sort by an injective-on-the-input key is determined by the
multiset of elements: permuted inputs sort to the same list. -/
lemma insertionSort_key_eq_of_perm (key : Card → ℤ) {l l' : List Card}
    (hp : l.Perm l') (hinj : ∀ a ∈ l, ∀ b ∈ l, key a = key b → a = b) :
    List.insertionSort (fun a b => key a ≤ key b) l =
      List.insertionSort (fun a b => key a ≤ key b) l' := by
  letI : IsTotal Card (fun a b => key a ≤ key b) := ⟨fun a b => le_total (key a) (key b)⟩
  letI : IsTrans Card (fun a b => key a ≤ key b) := ⟨fun a b c hab hbc => le_trans hab hbc⟩
  letI : IsAntisymm Card (fun a b => key a < key b ∨ a = b) := ⟨by
    intro a b hab hba
    rcases hab with h | h
    · rcases hba with h2 | h2
      · exact absurd h2 (not_lt.mpr (le_of_lt h))
      · exact h2.symm
    · exact h⟩
  have hperm : (List.insertionSort (fun a b => key a ≤ key b) l).Perm
      (List.insertionSort (fun a b => key a ≤ key b) l') :=
    (List.perm_insertionSort _ l).trans (hp.trans (List.perm_insertionSort _ l').symm)
  have hink : ∀ x ∈ l, ∀ y ∈ l, key x ≤ key y → (key x < key y ∨ x = y) := by
    intro x hx y hy hle
    rcases lt_or_eq_of_le hle with h | h
    · exact Or.inl h
    · exact Or.inr (hinj x hx y hy h)
  have hs1 : List.Sorted (fun a b => key a < key b ∨ a = b)
      (List.insertionSort (fun a b => key a ≤ key b) l) := by
    refine List.Pairwise.imp_of_mem ?_ (List.sorted_insertionSort _ l)
    intro a b ha hb hr
    exact hink a (by simpa using ha) b (by simpa using hb) hr
  have hs2 : List.Sorted (fun a b => key a < key b ∨ a = b)
      (List.insertionSort (fun a b => key a ≤ key b) l') := by
    refine List.Pairwise.imp_of_mem ?_ (List.sorted_insertionSort _ l')
    intro a b ha hb hr
    exact hink a (hp.mem_iff.mpr (by simpa using ha)) b (hp.mem_iff.mpr (by simpa using hb)) hr
  exact List.eq_of_perm_of_sorted hperm hs1 hs2

/-- `analyze_hand` reads its input only through its length and the two
sorted views used by the detectors. -/
lemma analyze_hand_congr {l l' : List Card} (hlen : l.length = l'.length)
    (hv : sort_hand_by_value l = sort_hand_by_value l')
    (ha : sort_hand_by_alt_value l = sort_hand_by_alt_value l') :
    analyze_hand l = analyze_hand l' := by
  unfold analyze_hand has_royal_flush has_straight_flush has_four_of_a_kind has_full_house
    has_flush has_royal_straight has_straight has_three_of_a_kind has_two_pair has_one_pair
    has_high_card
  rw [hlen, hv, ha]

/-- `has_royal_straight` reads its input only through its length and the
altvalue-sorted view. -/
lemma has_royal_straight_congr {l l' : List Card} (hlen : l.length = l'.length)
    (ha : sort_hand_by_alt_value l = sort_hand_by_alt_value l') :
    has_royal_straight l = has_royal_straight l' := by
  unfold has_royal_straight
  rw [hlen, ha]

/-- `has_straight` reads its input only through its length and the
value-sorted view. -/
lemma has_straight_congr {l l' : List Card} (hlen : l.length = l'.length)
    (hv : sort_hand_by_value l = sort_hand_by_value l') :
    has_straight l = has_straight l' := by
  unfold has_straight
  rw [hlen, hv]

/-- The canonical 10-J-Q-K-A card list with given suits, low-ace rank 1 for
the ace as in the deck. -/
def c9canon (s1 s2 s3 s4 s5 : ℕ) : List Card :=
  [⟨s1, 10⟩, ⟨s2, 11⟩, ⟨s3, 12⟩, ⟨s4, 13⟩, ⟨s5, 1⟩]

/-- C9: every 5-card set forming 10-J-Q-K-A of mixed suits (not all one
suit) is classified by `analyze_hand` as the dedicated ace-high
royal-straight: the result is exactly `has_royal_straight`'s, a `STRAIGHT`
with `values[0] = 14`, while the general `has_straight` check (which sorts
the ace low as 1) does not match the set at all. -/
theorem claim_C9_royal_straight_detection (s1 s2 s3 s4 s5 : ℕ)
    (hyp : ¬(s1 = s2 ∧ s2 = s3 ∧ s3 = s4 ∧ s4 = s5))
    (l : List Card) (hp : l.Perm (c9canon s1 s2 s3 s4 s5)) :
    analyze_hand l = has_royal_straight l ∧
    (analyze_hand l).hand_type = STRAIGHT ∧
    (analyze_hand l).values.getD 0 0 = 14 ∧
    (has_straight l).hand_type = 0 := by
  have hlen : l.length = (c9canon s1 s2 s3 s4 s5).length := hp.length_eq
  have hinjA : ∀ a ∈ l, ∀ b ∈ l, a.altvalue = b.altvalue → a = b := by
    intro a ha b hb h
    have ha2 := hp.subset ha
    have hb2 := hp.subset hb
    simp only [c9canon, List.mem_cons, List.not_mem_nil, or_false] at ha2 hb2
    rcases ha2 with rfl | rfl | rfl | rfl | rfl <;>
      rcases hb2 with rfl | rfl | rfl | rfl | rfl <;>
      simp_all [Card.altvalue]
  have hinjV : ∀ a ∈ l, ∀ b ∈ l, a.value = b.value → a = b := by
    intro a ha b hb h
    have ha2 := hp.subset ha
    have hb2 := hp.subset hb
    simp only [c9canon, List.mem_cons, List.not_mem_nil, or_false] at ha2 hb2
    rcases ha2 with rfl | rfl | rfl | rfl | rfl <;>
      rcases hb2 with rfl | rfl | rfl | rfl | rfl <;>
      simp_all
  have ha : sort_hand_by_alt_value l = sort_hand_by_alt_value (c9canon s1 s2 s3 s4 s5) :=
    insertionSort_key_eq_of_perm (fun c => c.altvalue) hp hinjA
  have hv : sort_hand_by_value l = sort_hand_by_value (c9canon s1 s2 s3 s4 s5) :=
    insertionSort_key_eq_of_perm (fun c => c.value) hp hinjV
  have e1 : analyze_hand l = analyze_hand (c9canon s1 s2 s3 s4 s5) :=
    analyze_hand_congr hlen hv ha
  have e2 : has_royal_straight l = has_royal_straight (c9canon s1 s2 s3 s4 s5) :=
    has_royal_straight_congr hlen ha
  have e3 : has_straight l = has_straight (c9canon s1 s2 s3 s4 s5) :=
    has_straight_congr hlen hv
  have hrf : has_royal_flush (c9canon s1 s2 s3 s4 s5) = {} := by
    unfold has_royal_flush
    rw [if_neg (by simp [c9canon, MIN_CARDS_IN_HAND]), if_neg]
    intro hc
    exact hyp ⟨hc.2.1.symm, hc.2.2.2.1.symm, hc.2.2.2.2.2.1.symm, hc.2.2.2.2.2.2.2.1.symm⟩
  have hfl : has_flush (c9canon s1 s2 s3 s4 s5) = {} := by
    unfold has_flush
    rw [if_neg (by simp [c9canon, MIN_CARDS_IN_HAND]), if_neg]
    intro hc
    exact hyp ⟨hc.1, hc.2.1, hc.2.2.1, hc.2.2.2⟩
  have hcanon : analyze_hand (c9canon s1 s2 s3 s4 s5) =
      has_royal_straight (c9canon s1 s2 s3 s4 s5) := by
    unfold analyze_hand
    rw [hrf, hfl]
    rfl
  refine ⟨by rw [e1, e2, hcanon], ?_, ?_, by rw [e3]; rfl⟩
  · rw [e1, hcanon]
    rfl
  · rw [e1, hcanon]
    rfl

/-- C9 witness: 10♠ J♣ Q♥ K♦ A♠ presented in descending order. -/
theorem claim_C9_witness :
    (analyze_hand [⟨SUIT_SPADES, 1⟩, ⟨SUIT_DIAMONDS, 13⟩, ⟨SUIT_HEARTS, 12⟩,
      ⟨SUIT_CLUBS, 11⟩, ⟨SUIT_SPADES, 10⟩]).hand_type = STRAIGHT ∧
    (analyze_hand [⟨SUIT_SPADES, 1⟩, ⟨SUIT_DIAMONDS, 13⟩, ⟨SUIT_HEARTS, 12⟩,
      ⟨SUIT_CLUBS, 11⟩, ⟨SUIT_SPADES, 10⟩]).values.getD 0 0 = 14 := by
  have h := claim_C9_royal_straight_detection SUIT_SPADES SUIT_CLUBS SUIT_HEARTS
    SUIT_DIAMONDS SUIT_SPADES (by decide)
    [⟨SUIT_SPADES, 1⟩, ⟨SUIT_DIAMONDS, 13⟩, ⟨SUIT_HEARTS, 12⟩,
      ⟨SUIT_CLUBS, 11⟩, ⟨SUIT_SPADES, 10⟩] (by decide)
  exact ⟨h.2.1, h.2.2.1⟩

/-! The extraction helpers.  Each one mirrors a `Poker.extract_*` static
method: it scans a sorted copy of the hand in the source's exact index
order, and on the first hit removes the matched cards from the hand
(`list.remove`, first occurrence) and appends the 5-slot block (matched
cards plus Joker placeholders) to the arranged buffer.  The return value
is `(found, hand', arranged')`. -/

/-- `range(x, -1, -1)`: `x` down to `0`. -/
def downFrom (x : ℕ) : List ℕ := (List.range (x + 1)).reverse

/-- `range(x, y, -1)`: `x` down to `y + 1` (empty when `x ≤ y`). -/
def downTo (x y : ℕ) : List ℕ := (List.range' (y + 1) (x - y)).reverse

/-- `extract_royal_flush`'s window test at index `i` of the suit-sorted
hand: five consecutive alternate values, all one suit. -/
def rf_window (s : List Card) (i : ℕ) : Bool :=
  let card1 := cardAt s i
  let card2 := cardAt s (i + 1)
  let card3 := cardAt s (i + 2)
  let card4 := cardAt s (i + 3)
  let card5 := cardAt s (i + 4)
  decide (card1.altvalue + 1 = card2.altvalue ∧ card2.altvalue + 1 = card3.altvalue ∧
    card3.altvalue + 1 = card4.altvalue ∧ card4.altvalue + 1 = card5.altvalue ∧
    card1.suit = card2.suit ∧ card2.suit = card3.suit ∧
    card3.suit = card4.suit ∧ card4.suit = card5.suit)

/-- Remove the five cards of window `i` of `s` from `hand` in the source's
order (`card5` first) and append them to `arranged` as
`[card5, card4, card3, card2, card1]`. -/
def extract_window5 (s : List Card) (i : ℕ) (hand arranged : List Card) :
    Bool × List Card × List Card :=
  let card1 := cardAt s i
  let card2 := cardAt s (i + 1)
  let card3 := cardAt s (i + 2)
  let card4 := cardAt s (i + 3)
  let card5 := cardAt s (i + 4)
  (true,
    ((((hand.erase card5).erase card4).erase card3).erase card2).erase card1,
    arranged ++ [card5, card4, card3, card2, card1])

/-- `Poker.extract_royal_flush(hand, arranged)`: first ascending window of
five suit-sorted cards with consecutive alternate values in one suit. -/
def extract_royal_flush (hand arranged : List Card) : Bool × List Card × List Card :=
  if hand.length < 5 then (false, hand, arranged)
  else
    let s := sort_hand_by_suit hand
    match (List.range (s.length - 4)).find? (rf_window s) with
    | some i => extract_window5 s i hand arranged
    | none => (false, hand, arranged)

/-- `extract_straight_flush`'s window test at index `i` of the
card-id-sorted hand: five consecutive values, all one suit. -/
def sf_window (s : List Card) (i : ℕ) : Bool :=
  let card1 := cardAt s i
  let card2 := cardAt s (i + 1)
  let card3 := cardAt s (i + 2)
  let card4 := cardAt s (i + 3)
  let card5 := cardAt s (i + 4)
  decide (card1.value + 1 = card2.value ∧ card2.value + 1 = card3.value ∧
    card3.value + 1 = card4.value ∧ card4.value + 1 = card5.value ∧
    card1.suit = card2.suit ∧ card2.suit = card3.suit ∧
    card3.suit = card4.suit ∧ card4.suit = card5.suit)

/-- `Poker.extract_straight_flush(hand, arranged)`. -/
def extract_straight_flush (hand arranged : List Card) : Bool × List Card × List Card :=
  if hand.length < 5 then (false, hand, arranged)
  else
    let s := sort_hand_by_card_id hand
    match (List.range (s.length - 4)).find? (sf_window s) with
    | some i => extract_window5 s i hand arranged
    | none => (false, hand, arranged)

/-- `extract_four_of_a_kind`'s window test: four equal values at positions
`i..i+3` of the altvalue-sorted hand. -/
def fk_window (s : List Card) (i : ℕ) : Bool :=
  decide ((cardAt s i).value = (cardAt s (i + 1)).value ∧
    (cardAt s (i + 1)).value = (cardAt s (i + 2)).value ∧
    (cardAt s (i + 2)).value = (cardAt s (i + 3)).value)

/-- `Poker.extract_four_of_a_kind(hand, arranged)`: scans from the top of
the altvalue-sorted hand; the block is `[joker, card4, card3, card2,
card1]`. -/
def extract_four_of_a_kind (hand arranged : List Card) : Bool × List Card × List Card :=
  if hand.length < 5 then (false, hand, arranged)
  else
    let s := sort_hand_by_alt_value hand
    match (downFrom (s.length - 4)).find? (fk_window s) with
    | some i =>
      let card1 := cardAt s i
      let card2 := cardAt s (i + 1)
      let card3 := cardAt s (i + 2)
      let card4 := cardAt s (i + 3)
      (true,
        (((hand.erase card4).erase card3).erase card2).erase card1,
        arranged ++ [Card.joker, card4, card3, card2, card1])
    | none => (false, hand, arranged)

/-- Triple test of `extract_full_house` at index `i` (equal altvalues at
`i..i+2`). -/
def fh_triple (s : List Card) (i : ℕ) : Bool :=
  decide ((cardAt s i).altvalue = (cardAt s (i + 1)).altvalue ∧
    (cardAt s (i + 1)).altvalue = (cardAt s (i + 2)).altvalue)

/-- Pair test of `extract_full_house` at index `j` (equal altvalues at
`j, j+1`). -/
def fh_pair (s : List Card) (j : ℕ) : Bool :=
  decide ((cardAt s j).altvalue = (cardAt s (j + 1)).altvalue)

/-- `Poker.extract_full_house(hand, arranged)`: highest triple (descending
scan) paired with the lowest disjoint pair (ascending scan). -/
def extract_full_house (hand arranged : List Card) : Bool × List Card × List Card :=
  if hand.length < 5 then (false, hand, arranged)
  else
    let s := sort_hand_by_alt_value hand
    match (downFrom (s.length - 3)).findSome? (fun i =>
      if fh_triple s i then
        ((List.range (s.length - 1)).find? (fun j =>
          decide (j > i + 2 ∨ j + 1 < i) && decide (j < s.length - 1) &&
            fh_pair s j)).map (fun j => (i, j))
      else none) with
    | some (i, j) =>
      let card1 := cardAt s i
      let card2 := cardAt s (i + 1)
      let card3 := cardAt s (i + 2)
      let card4 := cardAt s j
      let card5 := cardAt s (j + 1)
      (true,
        ((((hand.erase card5).erase card4).erase card3).erase card2).erase card1,
        arranged ++ [card5, card4, card3, card2, card1])
    | none => (false, hand, arranged)

/-- Flush window test: one suit across positions `i..i+4` of the
suit-sorted hand. -/
def fl_window (s : List Card) (i : ℕ) : Bool :=
  decide ((cardAt s i).suit = (cardAt s (i + 1)).suit ∧
    (cardAt s (i + 1)).suit = (cardAt s (i + 2)).suit ∧
    (cardAt s (i + 2)).suit = (cardAt s (i + 3)).suit ∧
    (cardAt s (i + 3)).suit = (cardAt s (i + 4)).suit)

/-- `Poker.extract_flush(hand, arranged)`: finds the highest-index flush
window; if a second, lower flush window exists it keeps whichever has the
higher top card. -/
def extract_flush (hand arranged : List Card) : Bool × List Card × List Card :=
  if hand.length < 5 then (false, hand, arranged)
  else
    let s := sort_hand_by_suit hand
    match (downFrom (s.length - 5)).find? (fl_window s) with
    | some i =>
      if i > 4 then
        match (downFrom (i - 5)).find? (fl_window s) with
        | some j =>
          if (cardAt s (i + 4)).altvalue ≥ (cardAt s (j + 4)).altvalue then
            extract_window5 s i hand arranged
          else extract_window5 s j hand arranged
        | none => extract_window5 s i hand arranged
      else extract_window5 s i hand arranged
    | none => (false, hand, arranged)

/-- The index tuples scanned by `extract_straight`'s five nested descending
loops, in scan order. -/
def straight_tuples (n : ℕ) : List (ℕ × ℕ × ℕ × ℕ × ℕ) :=
  (downFrom (n - 5)).flatMap (fun i =>
    (downTo (n - 4) i).flatMap (fun j =>
      (downTo (n - 3) j).flatMap (fun k =>
        (downTo (n - 2) k).flatMap (fun m =>
          (downTo (n - 1) m).map (fun nn => (i, j, k, m, nn))))))

/-- Straight test of `extract_straight` on an index tuple: consecutive
values at the five chosen positions of the value-sorted hand (with the
source's redundant bound check on the last index). -/
def st_tuple_ok (s : List Card) : ℕ × ℕ × ℕ × ℕ × ℕ → Bool :=
  fun t =>
    decide (t.2.2.2.2 < s.length) &&
    decide ((cardAt s t.1).value + 1 = (cardAt s t.2.1).value ∧
      (cardAt s t.2.1).value + 1 = (cardAt s t.2.2.1).value ∧
      (cardAt s t.2.2.1).value + 1 = (cardAt s t.2.2.2.1).value ∧
      (cardAt s t.2.2.2.1).value + 1 = (cardAt s t.2.2.2.2).value)

/-- `Poker.extract_straight(hand, arranged)`. -/
def extract_straight (hand arranged : List Card) : Bool × List Card × List Card :=
  if hand.length < 5 then (false, hand, arranged)
  else
    let s := sort_hand_by_value hand
    match (straight_tuples s.length).find? (st_tuple_ok s) with
    | some (i, j, k, m, nn) =>
      let card1 := cardAt s i
      let card2 := cardAt s j
      let card3 := cardAt s k
      let card4 := cardAt s m
      let card5 := cardAt s nn
      (true,
        ((((hand.erase card5).erase card4).erase card3).erase card2).erase card1,
        arranged ++ [card5, card4, card3, card2, card1])
    | none => (false, hand, arranged)

/-- Triple test of `extract_three_of_a_kind` (equal values at `i..i+2`). -/
def tk_window (s : List Card) (i : ℕ) : Bool :=
  decide ((cardAt s i).value = (cardAt s (i + 1)).value ∧
    (cardAt s (i + 1)).value = (cardAt s (i + 2)).value)

/-- `Poker.extract_three_of_a_kind(hand, arranged)`: the block is
`[joker, joker, card3, card2, card1]`. -/
def extract_three_of_a_kind (hand arranged : List Card) : Bool × List Card × List Card :=
  if hand.length < 5 then (false, hand, arranged)
  else
    let s := sort_hand_by_alt_value hand
    match (downFrom (s.length - 3)).find? (tk_window s) with
    | some i =>
      let card1 := cardAt s i
      let card2 := cardAt s (i + 1)
      let card3 := cardAt s (i + 2)
      (true,
        ((hand.erase card3).erase card2).erase card1,
        arranged ++ [Card.joker, Card.joker, card3, card2, card1])
    | none => (false, hand, arranged)

/-- Pair test of `extract_two_pair` / `extract_one_pair` (equal values at
`i, i+1` of the altvalue-sorted hand). -/
def pr_window (s : List Card) (i : ℕ) : Bool :=
  decide ((cardAt s i).value = (cardAt s (i + 1)).value)

/-- `Poker.extract_two_pair(hand, arranged)`: highest pair (descending
scan) and lowest disjoint pair (ascending scan); the block is
`[joker, hi, hi, lo, lo]`. -/
def extract_two_pair (hand arranged : List Card) : Bool × List Card × List Card :=
  if hand.length < 5 then (false, hand, arranged)
  else
    let s := sort_hand_by_alt_value hand
    match (downFrom (s.length - 2)).findSome? (fun i =>
      if pr_window s i then
        ((List.range (s.length - 2)).find? (fun j =>
          decide (j > i + 1 ∨ j + 1 < i) && decide (j < s.length - 1) &&
            pr_window s j)).map (fun j => (i, j))
      else none) with
    | some (i, j) =>
      let card1 := cardAt s i
      let card2 := cardAt s (i + 1)
      let card3 := cardAt s j
      let card4 := cardAt s (j + 1)
      (true,
        ((((hand.erase card1).erase card2).erase card3).erase card4),
        arranged ++ [Card.joker, card1, card2, card3, card4])
    | none => (false, hand, arranged)

/-- `Poker.extract_one_pair(hand, arranged)`: the highest pair; the block
is `[joker, joker, joker, card2, card1]`. -/
def extract_one_pair (hand arranged : List Card) : Bool × List Card × List Card :=
  if hand.length < 5 then (false, hand, arranged)
  else
    let s := sort_hand_by_alt_value hand
    match (downFrom (s.length - 2)).find? (pr_window s) with
    | some i =>
      let card1 := cardAt s i
      let card2 := cardAt s (i + 1)
      (true,
        (hand.erase card2).erase card1,
        arranged ++ [Card.joker, Card.joker, Card.joker, card2, card1])
    | none => (false, hand, arranged)

/-- `Poker.extract_poker_hand(hand_type, hand, arranged)`: dispatch on the
hand type; anything at or below `HIGH_CARD` returns `True` without
touching the buffers. -/
def extract_poker_hand (hand_type : ℕ) (hand arranged : List Card) :
    Bool × List Card × List Card :=
  if hand_type = ROYAL_FLUSH then extract_royal_flush hand arranged
  else if hand_type = STRAIGHT_FLUSH then extract_straight_flush hand arranged
  else if hand_type = FOUR_OF_A_KIND then extract_four_of_a_kind hand arranged
  else if hand_type = FULL_HOUSE then extract_full_house hand arranged
  else if hand_type = FLUSH then extract_flush hand arranged
  else if hand_type = STRAIGHT then extract_straight hand arranged
  else if hand_type = THREE_OF_A_KIND then extract_three_of_a_kind hand arranged
  else if hand_type = TWO_PAIR then extract_two_pair hand arranged
  else if hand_type = ONE_PAIR then extract_one_pair hand arranged
  else (true, hand, arranged)

/-- The inner `while index < 2 and hand_type_index > HIGH_CARD` loop of
`find_best_poker_play`: try to extract at the current level, record the
level in `temp[index]` on success, and step the level down.  Arguments:
current `index`, current `hand_type_index` (the recursion variable), the
`temp_hand_type` pair, the working hand and the accumulation buffer. -/
def inner_scan : ℕ → ℕ → ℕ × ℕ → List Card → List Card → (ℕ × ℕ) × List Card × List Card
  | _, 0, temp, mh, ah => (temp, mh, ah)
  | idx, hti + 1, temp, mh, ah =>
    if idx < 2 ∧ hti + 1 > HIGH_CARD then
      let r := extract_poker_hand (hti + 1) mh ah
      if r.1 then
        inner_scan (idx + 1) hti
          (if idx = 0 then (hti + 1, temp.2) else (temp.1, hti + 1)) r.2.1 r.2.2
      else inner_scan idx hti temp r.2.1 r.2.2
    else (temp, mh, ah)

/-- One pass of `find_best_poker_play`'s `for i in range(start_from,
HIGH_CARD, -1)` loop over the remaining levels.  State: `hand_type` pair,
`temp_hand_type` pair (NOT reset between iterations, as in the source),
`best_hand`, and the (aliased, mutated-on-selection) `hand` and `arranged`
buffers. -/
def fb_loop : List ℕ → (ℕ × ℕ) → (ℕ × ℕ) → ℕ → List Card → List Card →
    (ℕ × ℕ) × (ℕ × ℕ) × ℕ × List Card × List Card
  | [], ht, temp, best, hand, arranged => (ht, temp, best, hand, arranged)
  | i :: rest, ht, temp, best, hand, arranged =>
    let mh := sort_hand_by_value hand
    let r := inner_scan 0 i temp mh []
    let temp2 := r.1
    let mh2 := r.2.1
    let ah2 := r.2.2
    if temp2.1 > HIGH_CARD ∨ temp2.2 > HIGH_CARD then
      if temp2.1 > ht.1 then
        fb_loop rest (temp2.1, temp2.2) temp2 temp2.1 mh2 ah2
      else fb_loop rest ht temp2 best hand arranged
    else if temp2.1 > HIGH_CARD then
      -- unreachable `elif` of the source, kept for fidelity
      if temp2.1 > ht.1 ∧ ht.2 = HIGH_CARD then
        fb_loop rest (temp2.1, temp2.2) temp2 temp2.1 mh2 ah2
      else fb_loop rest ht temp2 best hand arranged
    else fb_loop rest ht temp2 best hand arranged

/-- The joker-replacement loop of `find_best_poker_play`: each Joker slot
of the arranged buffer takes the current head of the hand (`hand.pop(0)`);
`none` models the `IndexError` Python would raise if the hand ran out. -/
def fillJokers : List Card → List Card → Option (List Card × List Card)
  | [], h => some ([], h)
  | c :: rest, h =>
    if c.suit = SUIT_JOKER then
      match h with
      | [] => none
      | x :: hs => (fillJokers rest hs).map (fun p => (x :: p.1, p.2))
    else (fillJokers rest h).map (fun p => (c :: p.1, p.2))

/-- `hand[0], hand[-1] = hand[-1], hand[0]`. -/
def swap_first_last : List Card → List Card
  | [] => []
  | a :: rest =>
    match rest.getLast? with
    | none => [a]
    | some b => b :: (rest.dropLast ++ [a])

/-- `Poker.find_best_poker_play(hand, arranged, start_from)`: the greedy
arranger.  Returns `(best_hand, final arranged buffer, final hand buffer)`;
the final hand buffer is `[]` (`hand.clear()`).  `none` models the
`IndexError` of the joker-replacement loop when leftover cards run out. -/
def find_best_poker_play (hand arranged : List Card) (start_from : ℕ) :
    Option (ℕ × List Card × List Card) :=
  let r := fb_loop (downTo start_from HIGH_CARD) (HIGH_CARD, HIGH_CARD)
    (HIGH_CARD, HIGH_CARD) HIGH_CARD hand arranged
  let best := r.2.2.1
  let hand1 := r.2.2.2.1
  let arranged1 := r.2.2.2.2
  match fillJokers arranged1 hand1 with
  | none => none
  | some (arranged2, hand2) =>
    let hand3 :=
      if hand2.length > 0 ∧ (cardAt hand2 0).altvalue ≠ 14 then swap_first_last hand2
      else hand2
    some (best, (arranged2 ++ hand3).reverse, [])

/-- The candidate-collection loop of `find_balanced_poker_play`: repeatedly
run the greedy arranger with a decreasing ceiling `i`, keep validated
candidates whose achieved type is new, and stop when nothing above
`HIGH_CARD` is found.  The fuel argument only forces termination; it never
runs out when started at `i + 1` (the ceiling strictly decreases). -/
def fbal_loop (hand : List Card) : ℕ → ℕ → List (ℕ × List Card) → ℕ →
    Option (List (ℕ × List Card))
  | 0, _, _, _ => none
  | fuel + 1, i, plays, current_best =>
    if i > HIGH_CARD then
      match find_best_poker_play hand [] i with
      | none => none
      | some (best, arr, _) =>
        if ¬ (is_valid_hand arr = true) then fbal_loop hand fuel (best - 1) plays current_best
        else if best > HIGH_CARD ∧ best ≠ current_best then
          fbal_loop hand fuel (best - 1) (plays ++ [(best, arr)]) best
        else some plays
    else some plays

/-- Python list indexing with the negative-index wrap-around; `none` models
`IndexError`. -/
def pythonGet {α : Type} (l : List α) (i : ℤ) : Option α :=
  if 0 ≤ i then l.get? i.toNat
  else if 0 ≤ (l.length : ℤ) + i then l.get? ((l.length : ℤ) + i).toNat
  else none

/-- One step of the candidate-evaluation loop of
`find_balanced_poker_play`: keep the first index with the maximal weighted
score `(3 front + 5 middle + 5 back) / 13`. -/
def eval_step (st : ℤ × ℚ × ℕ) (p : ℕ × (ℕ × List Card)) : ℤ × ℚ × ℕ :=
  let front_info := analyze_hand (p.2.2.take 3)
  let middle_info := analyze_hand ((p.2.2.drop 3).take 5)
  let back_info := analyze_hand ((p.2.2.drop 8).take 5)
  let current_score : ℚ :=
    (3 * (front_info.hand_type : ℚ) + 5 * (middle_info.hand_type : ℚ) +
      5 * (back_info.hand_type : ℚ)) / 13
  if current_score > st.2.1 then ((p.1 : ℤ), current_score, p.2.1) else st

/-- The candidate-evaluation fold of `find_balanced_poker_play` over the
enumerated plays, starting from `(best_play, best_score, best_hand) =
(-1, 0, HIGH_CARD)`. -/
def eval_plays (plays : List (ℕ × List Card)) : ℤ × ℚ × ℕ :=
  plays.enum.foldl eval_step ((-1 : ℤ), (0 : ℚ), HIGH_CARD)

/-- `Poker.find_balanced_poker_play(hand, arranged)`: collect validated
greedy candidates under a descending ceiling, score them, and write the
best one into the output buffer (`arranged.extend(...)` on an initially
empty buffer).  `none` models the `IndexError` raised by
`poker_plays[best_play]` when the candidate list is empty (and the
propagated failures of the greedy arranger). -/
def find_balanced_poker_play (hand : List Card) : Option (ℕ × List Card) :=
  match fbal_loop hand 18 ROYAL_FLUSH [] HIGH_CARD with
  | none => none
  | some plays =>
    let e := eval_plays plays
    match pythonGet plays e.1 with
    | none => none
    | some p => some (e.2.2, p.2)

/-- Thirteen distinct standard cards on which every greedy candidate fails
`is_valid_hand`, so `find_balanced_poker_play`'s candidate list stays
empty: clubs A,2,3,4,5,6,K, diamonds 8,9,10,11,12, and the 7 of hearts. -/
def c5_input : List Card :=
  [⟨SUIT_CLUBS, 1⟩, ⟨SUIT_CLUBS, 2⟩, ⟨SUIT_CLUBS, 3⟩, ⟨SUIT_CLUBS, 4⟩,
   ⟨SUIT_CLUBS, 5⟩, ⟨SUIT_CLUBS, 6⟩, ⟨SUIT_CLUBS, 13⟩,
   ⟨SUIT_DIAMONDS, 8⟩, ⟨SUIT_DIAMONDS, 9⟩, ⟨SUIT_DIAMONDS, 10⟩,
   ⟨SUIT_DIAMONDS, 11⟩, ⟨SUIT_DIAMONDS, 12⟩,
   ⟨SUIT_HEARTS, 7⟩]

/-- C5: on `c5_input` the candidate-collection loop of
`find_balanced_poker_play` terminates with the empty candidate list (every
greedy candidate fails `is_valid_hand`, and the final ceiling yields only
`HIGH_CARD`), and the function then evaluates `poker_plays[best_play]`
with `best_play = -1` on that empty list — the modelled `IndexError`
(`none`), not a defined result. -/
theorem claim_C5_empty_candidates_indexerror :
    c5_input.length = 13 ∧ c5_input.Nodup ∧
    fbal_loop c5_input 18 ROYAL_FLUSH [] HIGH_CARD = some [] ∧
    find_balanced_poker_play c5_input = none := by
  refine ⟨by decide, by decide, by decide, by decide⟩

/-- The fields of `Player` (player.py) touched by
`Poker.update_player_scores`. -/
structure PlayerState where
  player_id : ℕ
  arranged_cards : List Card
  score : ℤ := 0
  best_hand : ℚ := 0
  hand_score : List ℤ := [0, 0, 0]
  raw_scores : List (List ℤ) := [[0, 0, 0], [0, 0, 0], [0, 0, 0], [0, 0, 0]]
deriving Repr

/-- The row slice `arranged_cards[from_index:to_index]` for row `k`
(0 = front `[0:3]`, 1 = middle `[3:8]`, 2 = back `[8:13]`). -/
def row_slice (cards : List Card) (k : ℕ) : List Card :=
  (cards.take (if k = 0 then 3 else if k = 1 then 8 else 13)).drop
    (if k = 0 then 0 else if k = 1 then 3 else 8)

/-- One `k` iteration of `update_player_scores`'s inner row loop: compare
the two classified row sub-hands, adjust the local `hand_scores` and the
player's score by the signed result, record the back percentile at
`k = 2`, and store the raw result at `raw_scores[j][k]`. -/
def score_step (player : PlayerState) (j : ℕ) (opponent : PlayerState)
    (st : List ℤ × PlayerState) (k : ℕ) : List ℤ × PlayerState :=
  let player_hand_info := analyze_hand (row_slice player.arranged_cards k)
  let opponent_hand_info := analyze_hand (row_slice opponent.arranged_cards k)
  let result := match_hands player_hand_info opponent_hand_info
  let st2 :=
    if result = 1 then
      (st.1.set k (st.1.getD k 0 + 1), { st.2 with score := st.2.score + 1 })
    else if result = -1 then
      (st.1.set k (st.1.getD k 0 - 1), { st.2 with score := st.2.score - 1 })
    else st
  let p3 :=
    if k = 2 then { st2.2 with best_hand := player_hand_info.percentile } else st2.2
  (st2.1,
    { p3 with raw_scores := p3.raw_scores.set j ((p3.raw_scores.getD j []).set k result) })

/-- The per-player body of `Poker.update_player_scores`: reset the score,
hand scores and raw matrix, loop over the (enumerated) players skipping
the same `player_id`, and finally store the local `hand_scores`. -/
def update_one_player (players : List PlayerState) (player : PlayerState) : PlayerState :=
  let reset : PlayerState :=
    { player with
        score := 0
        hand_score := [0, 0, 0]
        raw_scores := [[0, 0, 0], [0, 0, 0], [0, 0, 0], [0, 0, 0]] }
  let res := players.enum.foldl (fun st jp =>
    if player.player_id ≠ jp.2.player_id then
      [0, 1, 2].foldl (score_step player jp.1 jp.2) st
    else st) (([0, 0, 0] : List ℤ), reset)
  { res.2 with hand_score := res.1 }

/-- `Poker.update_player_scores()`: each player is scored against the
others; only each player's own record is mutated, and the opponents'
arranged cards are never modified, so the pass is a map over the
original list. -/
def update_player_scores (players : List PlayerState) : List PlayerState :=
  players.map (update_one_player players)


/-- Every comparison outcome of the element-wise value scan is 1, -1 or 0. -/
lemma cmp_values_mem (v w : List ℤ) :
    ∀ (k i : ℕ), cmp_values v w i k = 1 ∨ cmp_values v w i k = -1 ∨ cmp_values v w i k = 0 := by
  intro k
  induction k with
  | zero => intro i; right; right; rfl
  | succ n ih =>
    intro i
    simp only [cmp_values]
    rcases lt_trichotomy (v.getD i 0) (w.getD i 0) with h | h | h
    · rw [if_neg (by omega), if_pos h]
      right; left; rfl
    · rw [if_neg (by omega), if_neg (by omega)]
      exact ih (i + 1)
    · rw [if_pos h]
      left; rfl

/-- Every outcome of `match_hands` is 1 (left wins), -1 (right wins) or 0. -/
lemma match_hands_mem (a b : PokerHandInfo) :
    match_hands a b = 1 ∨ match_hands a b = -1 ∨ match_hands a b = 0 := by
  unfold match_hands
  rcases lt_trichotomy a.hand_type b.hand_type with h | h | h
  · rw [if_neg (by omega), if_pos h]; right; left; rfl
  · rw [if_neg (by omega), if_neg (by omega)]
    exact cmp_values_mem _ _ 5 0
  · rw [if_pos h]; left; rfl

/-- Setting index `k` of a list to its current (defaulted) value is a no-op. -/
lemma set_getD_self (l : List ℤ) : ∀ k, l.set k (l[k]?.getD 0) = l := by
  induction l with
  | nil => intro k; rfl
  | cons x xs ih =>
    intro k
    cases k with
    | zero => simp
    | succ n =>
      show x :: xs.set n ((x :: xs)[n + 1]?.getD 0) = x :: xs
      rw [List.getElem?_cons_succ, ih n]

/-- Normal form of one inner-loop iteration of `update_player_scores`: the
running row tally and every touched field are updated by the signed
`match_hands` outcome, whichever of the three branches was taken. -/
lemma score_step_eq (player : PlayerState) (j : ℕ) (opponent : PlayerState)
    (hs : List ℤ) (p : PlayerState) (k : ℕ) :
    score_step player j opponent (hs, p) k =
      (hs.set k (hs.getD k 0 +
        match_hands (analyze_hand (row_slice player.arranged_cards k))
          (analyze_hand (row_slice opponent.arranged_cards k))),
       { player_id := p.player_id
         arranged_cards := p.arranged_cards
         score := p.score +
           match_hands (analyze_hand (row_slice player.arranged_cards k))
             (analyze_hand (row_slice opponent.arranged_cards k))
         best_hand := if k = 2 then
             (analyze_hand (row_slice player.arranged_cards k)).percentile
           else p.best_hand
         hand_score := p.hand_score
         raw_scores := p.raw_scores.set j ((p.raw_scores.getD j []).set k
           (match_hands (analyze_hand (row_slice player.arranged_cards k))
             (analyze_hand (row_slice opponent.arranged_cards k)))) }) := by
  by_cases hk : k = 2
  · subst hk
    rcases match_hands_mem (analyze_hand (row_slice player.arranged_cards 2))
        (analyze_hand (row_slice opponent.arranged_cards 2)) with h | h | h <;>
      simp [score_step, h, set_getD_self, sub_eq_add_neg]
  · rcases match_hands_mem (analyze_hand (row_slice player.arranged_cards k))
        (analyze_hand (row_slice opponent.arranged_cards k)) with h | h | h <;>
      simp [score_step, h, hk, set_getD_self, sub_eq_add_neg]

instance : Inhabited PlayerState := ⟨{ player_id := 0, arranged_cards := [] }⟩

/-- The signed result of comparing player `i` row `k` against player `j`
row `k`, straight from the classified sub-hands. -/
def row_result (players : List PlayerState) (i j k : ℕ) : ℤ :=
  match_hands (analyze_hand (row_slice ((players.getD i default).arranged_cards) k))
    (analyze_hand (row_slice ((players.getD j default).arranged_cards) k))

/-- The record of player `i` after the scoring pass over four players. -/
def scored_player (a b c d : PlayerState) (i : ℕ) : PlayerState :=
  (update_player_scores [a, b, c, d]).getD i default

/-- C7: after `update_player_scores` runs on four players, each player's
total score is the sum of the three per-row hand scores, each per-row hand
score is the sum over the three opponents of that row's signed comparison
result, every opponent-row raw_scores entry equals that signed result and
lies in -1, 0 or 1, the self row of raw_scores stays all zero, and the
best_hand tiebreak is the back sub-hand's percentile. -/
theorem claim_C7_update_player_scores (a b c d : PlayerState) (ha : a.player_id = 0) (hb : b.player_id = 1)
    (hc : c.player_id = 2) (hd : d.player_id = 3) :
    ∀ i, i < 4 →
      (scored_player a b c d i).score =
          (scored_player a b c d i).hand_score.getD 0 0 +
          (scored_player a b c d i).hand_score.getD 1 0 +
          (scored_player a b c d i).hand_score.getD 2 0 ∧
      (∀ k, k < 3 → (scored_player a b c d i).hand_score.getD k 0 =
          ((((List.range 4).filter (fun j => decide (j ≠ i))).map
            (fun j => row_result [a, b, c, d] i j k)).sum)) ∧
      (∀ j, j < 4 → ∀ k, k < 3 → j ≠ i →
          (((scored_player a b c d i).raw_scores.getD j []).getD k 0 =
            row_result [a, b, c, d] i j k ∧
          (((scored_player a b c d i).raw_scores.getD j []).getD k 0 = 1 ∨
           ((scored_player a b c d i).raw_scores.getD j []).getD k 0 = -1 ∨
           ((scored_player a b c d i).raw_scores.getD j []).getD k 0 = 0))) ∧
      (scored_player a b c d i).raw_scores.getD i [] = ([0, 0, 0] : List ℤ) ∧
      (scored_player a b c d i).best_hand =
        (analyze_hand (row_slice (scored_player a b c d i).arranged_cards 2)).percentile := by
  intro i hi
  interval_cases i <;>
    refine ⟨?_, fun k hk => ?_, fun j hj k hk hne => ?_, ?_, ?_⟩ <;>
      simp only [scored_player, update_player_scores, List.map, update_one_player, List.enum,
        List.enumFrom, List.foldl_cons, List.foldl_nil, ha, hb, hc, hd] <;>
      norm_num <;>
      simp only [score_step_eq] <;>
      norm_num [row_result] <;>
      first
      | ring1
      | rfl
      | (interval_cases k <;> norm_num <;> (first | ring1 | rfl))
      | (interval_cases j <;> interval_cases k <;> norm_num <;>
          (first
          | exact absurd rfl hne
          | exact match_hands_mem _ _))

/-- Witness player for C7: id 0 holding clubs 2..14. -/
def c7p0 : PlayerState :=
  { player_id := 0
    arranged_cards := (List.range 13).map (fun n => ⟨SUIT_CLUBS, (n : ℤ) + 2⟩) }

/-- Witness player for C7: id 1 holding diamonds 2..14. -/
def c7p1 : PlayerState :=
  { player_id := 1
    arranged_cards := (List.range 13).map (fun n => ⟨SUIT_DIAMONDS, (n : ℤ) + 2⟩) }

/-- Witness player for C7: id 2 holding spades 2..14. -/
def c7p2 : PlayerState :=
  { player_id := 2
    arranged_cards := (List.range 13).map (fun n => ⟨SUIT_SPADES, (n : ℤ) + 2⟩) }

/-- Witness player for C7: id 3 holding hearts 2..14. -/
def c7p3 : PlayerState :=
  { player_id := 3
    arranged_cards := hearts13 }

/-- Witness for C7: the scoring invariants hold concretely for player 0 of
four concrete players. -/
theorem claim_C7_witness :
    (scored_player c7p0 c7p1 c7p2 c7p3 0).score =
        (scored_player c7p0 c7p1 c7p2 c7p3 0).hand_score.getD 0 0 +
        (scored_player c7p0 c7p1 c7p2 c7p3 0).hand_score.getD 1 0 +
        (scored_player c7p0 c7p1 c7p2 c7p3 0).hand_score.getD 2 0 ∧
    (scored_player c7p0 c7p1 c7p2 c7p3 0).raw_scores.getD 0 [] = ([0, 0, 0] : List ℤ) ∧
    (((scored_player c7p0 c7p1 c7p2 c7p3 0).raw_scores.getD 1 []).getD 0 0 = 1 ∨
     ((scored_player c7p0 c7p1 c7p2 c7p3 0).raw_scores.getD 1 []).getD 0 0 = -1 ∨
     ((scored_player c7p0 c7p1 c7p2 c7p3 0).raw_scores.getD 1 []).getD 0 0 = 0) := by
  have h := claim_C7_update_player_scores c7p0 c7p1 c7p2 c7p3 rfl rfl rfl rfl 0 (by decide)
  exact ⟨h.1, h.2.2.2.1, (h.2.2.1 1 (by decide) 0 (by decide) (by decide)).2⟩


/-- A step result whose found flag is false and which is not an untouched
failure result cannot exist, given the two-outcome shape of an extractor. -/
lemma extract_fail_of_fst_false {p : Bool × List Card × List Card}
    {hand arranged : List Card}
    (alt : p.1 = true ∨ p = (false, hand, arranged)) (h : p.1 = false) :
    p = (false, hand, arranged) := by
  rcases alt with ht | he
  · rw [ht] at h
    exact absurd h (by simp)
  · exact he

/-- Either `extract_royal_flush` reports success, or it returns the buffers
untouched. -/
lemma extract_royal_flush_alt (hand arranged : List Card) :
    (extract_royal_flush hand arranged).1 = true ∨
      extract_royal_flush hand arranged = (false, hand, arranged) := by
  unfold extract_royal_flush
  dsimp only
  repeat' split
  all_goals first | exact Or.inr rfl | exact Or.inl rfl

/-- Either `extract_straight_flush` reports success, or it returns the
buffers untouched. -/
lemma extract_straight_flush_alt (hand arranged : List Card) :
    (extract_straight_flush hand arranged).1 = true ∨
      extract_straight_flush hand arranged = (false, hand, arranged) := by
  unfold extract_straight_flush
  dsimp only
  repeat' split
  all_goals first | exact Or.inr rfl | exact Or.inl rfl

/-- Either `extract_four_of_a_kind` reports success, or it returns the
buffers untouched. -/
lemma extract_four_of_a_kind_alt (hand arranged : List Card) :
    (extract_four_of_a_kind hand arranged).1 = true ∨
      extract_four_of_a_kind hand arranged = (false, hand, arranged) := by
  unfold extract_four_of_a_kind
  dsimp only
  repeat' split
  all_goals first | exact Or.inr rfl | exact Or.inl rfl

/-- Either `extract_full_house` reports success, or it returns the buffers
untouched. -/
lemma extract_full_house_alt (hand arranged : List Card) :
    (extract_full_house hand arranged).1 = true ∨
      extract_full_house hand arranged = (false, hand, arranged) := by
  unfold extract_full_house
  dsimp only
  repeat' split
  all_goals first | exact Or.inr rfl | exact Or.inl rfl

/-- Either `extract_flush` reports success, or it returns the buffers
untouched. -/
lemma extract_flush_alt (hand arranged : List Card) :
    (extract_flush hand arranged).1 = true ∨
      extract_flush hand arranged = (false, hand, arranged) := by
  unfold extract_flush
  dsimp only
  repeat' split
  all_goals first | exact Or.inr rfl | exact Or.inl rfl

/-- Either `extract_straight` reports success, or it returns the buffers
untouched. -/
lemma extract_straight_alt (hand arranged : List Card) :
    (extract_straight hand arranged).1 = true ∨
      extract_straight hand arranged = (false, hand, arranged) := by
  unfold extract_straight
  dsimp only
  repeat' split
  all_goals first | exact Or.inr rfl | exact Or.inl rfl

/-- Either `extract_three_of_a_kind` reports success, or it returns the
buffers untouched. -/
lemma extract_three_of_a_kind_alt (hand arranged : List Card) :
    (extract_three_of_a_kind hand arranged).1 = true ∨
      extract_three_of_a_kind hand arranged = (false, hand, arranged) := by
  unfold extract_three_of_a_kind
  dsimp only
  repeat' split
  all_goals first | exact Or.inr rfl | exact Or.inl rfl

/-- Either `extract_two_pair` reports success, or it returns the buffers
untouched. -/
lemma extract_two_pair_alt (hand arranged : List Card) :
    (extract_two_pair hand arranged).1 = true ∨
      extract_two_pair hand arranged = (false, hand, arranged) := by
  unfold extract_two_pair
  dsimp only
  repeat' split
  all_goals first | exact Or.inr rfl | exact Or.inl rfl

/-- Either `extract_one_pair` reports success, or it returns the buffers
untouched. -/
lemma extract_one_pair_alt (hand arranged : List Card) :
    (extract_one_pair hand arranged).1 = true ∨
      extract_one_pair hand arranged = (false, hand, arranged) := by
  unfold extract_one_pair
  dsimp only
  repeat' split
  all_goals first | exact Or.inr rfl | exact Or.inl rfl

/-- C10: each of the nine extraction helpers dispatched by
`extract_poker_hand` is atomic on failure: whenever its found flag is
false, the hand buffer and the arranged buffer are exactly as they were
before the call. -/
theorem claim_C10_extract_atomic_on_failure :
    ∀ hand arranged : List Card,
      ((extract_royal_flush hand arranged).1 = false →
        extract_royal_flush hand arranged = (false, hand, arranged)) ∧
      ((extract_straight_flush hand arranged).1 = false →
        extract_straight_flush hand arranged = (false, hand, arranged)) ∧
      ((extract_four_of_a_kind hand arranged).1 = false →
        extract_four_of_a_kind hand arranged = (false, hand, arranged)) ∧
      ((extract_full_house hand arranged).1 = false →
        extract_full_house hand arranged = (false, hand, arranged)) ∧
      ((extract_flush hand arranged).1 = false →
        extract_flush hand arranged = (false, hand, arranged)) ∧
      ((extract_straight hand arranged).1 = false →
        extract_straight hand arranged = (false, hand, arranged)) ∧
      ((extract_three_of_a_kind hand arranged).1 = false →
        extract_three_of_a_kind hand arranged = (false, hand, arranged)) ∧
      ((extract_two_pair hand arranged).1 = false →
        extract_two_pair hand arranged = (false, hand, arranged)) ∧
      ((extract_one_pair hand arranged).1 = false →
        extract_one_pair hand arranged = (false, hand, arranged)) := by
  intro hand arranged
  exact ⟨extract_fail_of_fst_false (extract_royal_flush_alt hand arranged),
    extract_fail_of_fst_false (extract_straight_flush_alt hand arranged),
    extract_fail_of_fst_false (extract_four_of_a_kind_alt hand arranged),
    extract_fail_of_fst_false (extract_full_house_alt hand arranged),
    extract_fail_of_fst_false (extract_flush_alt hand arranged),
    extract_fail_of_fst_false (extract_straight_alt hand arranged),
    extract_fail_of_fst_false (extract_three_of_a_kind_alt hand arranged),
    extract_fail_of_fst_false (extract_two_pair_alt hand arranged),
    extract_fail_of_fst_false (extract_one_pair_alt hand arranged)⟩

/-- Witness hand for C10: five patternless cards (no pair, no straight, no
flush), on which every extractor fails. -/
def c10_hand : List Card :=
  [⟨SUIT_CLUBS, 2⟩, ⟨SUIT_DIAMONDS, 5⟩, ⟨SUIT_HEARTS, 7⟩,
   ⟨SUIT_SPADES, 9⟩, ⟨SUIT_CLUBS, 11⟩]

/-- Witness for C10: on the concrete patternless hand every extractor
reports failure and leaves both buffers exactly as given. -/
theorem claim_C10_witness :
    extract_royal_flush c10_hand [] = (false, c10_hand, []) ∧
    extract_straight_flush c10_hand [] = (false, c10_hand, []) ∧
    extract_four_of_a_kind c10_hand [] = (false, c10_hand, []) ∧
    extract_full_house c10_hand [] = (false, c10_hand, []) ∧
    extract_flush c10_hand [] = (false, c10_hand, []) ∧
    extract_straight c10_hand [] = (false, c10_hand, []) ∧
    extract_three_of_a_kind c10_hand [] = (false, c10_hand, []) ∧
    extract_two_pair c10_hand [] = (false, c10_hand, []) ∧
    extract_one_pair c10_hand [] = (false, c10_hand, []) := by
  have h := claim_C10_extract_atomic_on_failure c10_hand []
  exact ⟨h.1 (by decide), h.2.1 (by decide), h.2.2.1 (by decide),
    h.2.2.2.1 (by decide), h.2.2.2.2.1 (by decide), h.2.2.2.2.2.1 (by decide),
    h.2.2.2.2.2.2.1 (by decide), h.2.2.2.2.2.2.2.1 (by decide),
    h.2.2.2.2.2.2.2.2 (by decide)⟩


/-- Every hand classification carries a positive hand type: each detector
branch of `analyze_hand` is guarded by its own hand-type equation, and the
`has_high_card` fallback returns `HIGH_TRIPLE` or `HIGH_CARD`. -/
lemma analyze_hand_type_pos (hand : List Card) : 1 ≤ (analyze_hand hand).hand_type := by
  unfold analyze_hand
  dsimp only
  repeat' split
  all_goals try (rename_i h; rcases h with h | h <;> rw [h] <;> decide)
  all_goals try (rename_i h; rw [h]; decide)
  unfold has_high_card
  dsimp only
  split <;> first
    | exact (by decide : 1 ≤ HIGH_TRIPLE)
    | exact (by decide : 1 ≤ HIGH_CARD)

/-- The weighted candidate score is strictly positive: all three sub-hand
types are at least 1. -/
lemma eval_score_pos (cards : List Card) :
    (0 : ℚ) < (3 * ((analyze_hand (cards.take 3)).hand_type : ℚ) +
      5 * ((analyze_hand ((cards.drop 3).take 5)).hand_type : ℚ) +
      5 * ((analyze_hand ((cards.drop 8).take 5)).hand_type : ℚ)) / 13 := by
  have h1 := analyze_hand_type_pos (cards.take 3)
  have h2 := analyze_hand_type_pos ((cards.drop 3).take 5)
  have h3 := analyze_hand_type_pos ((cards.drop 8).take 5)
  have q1 : (1 : ℚ) ≤ ((analyze_hand (cards.take 3)).hand_type : ℚ) := by exact_mod_cast h1
  have q2 : (1 : ℚ) ≤ ((analyze_hand ((cards.drop 3).take 5)).hand_type : ℚ) := by
    exact_mod_cast h2
  have q3 : (1 : ℚ) ≤ ((analyze_hand ((cards.drop 8).take 5)).hand_type : ℚ) := by
    exact_mod_cast h3
  have hnum : (0 : ℚ) < 3 * ((analyze_hand (cards.take 3)).hand_type : ℚ) +
      5 * ((analyze_hand ((cards.drop 3).take 5)).hand_type : ℚ) +
      5 * ((analyze_hand ((cards.drop 8).take 5)).hand_type : ℚ) := by linarith
  exact div_pos hnum (by norm_num)

/-- One evaluation step keeps the chosen index within bounds: from a state
whose index is in `[0, k)`, the state after element `k` has index in
`[0, k + 1)`. -/
lemma eval_step_bounds (st : ℤ × ℚ × ℕ) (k : ℕ) (p : ℕ × List Card)
    (h0 : 0 ≤ st.1) (hk : st.1 < (k : ℤ)) :
    0 ≤ (eval_step st (k, p)).1 ∧ (eval_step st (k, p)).1 < (k : ℤ) + 1 := by
  unfold eval_step
  dsimp only
  split
  · exact ⟨Int.ofNat_nonneg k, by omega⟩
  · exact ⟨h0, by omega⟩

/-- The evaluation fold keeps the chosen index within bounds. -/
lemma eval_fold_bounds (l : List (ℕ × List Card)) :
    ∀ (k : ℕ) (st : ℤ × ℚ × ℕ), 0 ≤ st.1 → st.1 < (k : ℤ) →
      0 ≤ ((List.enumFrom k l).foldl eval_step st).1 ∧
      ((List.enumFrom k l).foldl eval_step st).1 < (k : ℤ) + l.length := by
  induction l with
  | nil =>
    intro k st h0 hk
    simpa using ⟨h0, hk⟩
  | cons p t ih =>
    intro k st h0 hk
    rw [List.enumFrom_cons, List.foldl_cons]
    obtain ⟨h1, h2⟩ := eval_step_bounds st k p h0 hk
    obtain ⟨h3, h4⟩ := ih (k + 1) (eval_step st (k, p)) h1 (by push_cast; omega)
    refine ⟨h3, ?_⟩
    rw [List.length_cons]
    push_cast at h4 ⊢
    omega

/-- On a nonempty candidate list the evaluation loop picks an index inside
the list: the first candidate's positive score beats the initial score 0,
so `best_play` leaves its sentinel value `-1`. -/
lemma eval_plays_bounds (plays : List (ℕ × List Card)) (hne : plays ≠ []) :
    0 ≤ (eval_plays plays).1 ∧ (eval_plays plays).1 < (plays.length : ℤ) := by
  cases plays with
  | nil => exact absurd rfl hne
  | cons p t =>
    unfold eval_plays
    rw [List.enum_cons, List.foldl_cons]
    have hb : 0 ≤ (eval_step ((-1 : ℤ), (0 : ℚ), HIGH_CARD) (0, p)).1 ∧
        (eval_step ((-1 : ℤ), (0 : ℚ), HIGH_CARD) (0, p)).1 < ((1 : ℕ) : ℤ) := by
      unfold eval_step
      dsimp only
      rw [if_pos (eval_score_pos p.2)]
      norm_num
    obtain ⟨h1, h2⟩ := eval_fold_bounds t 1 _ hb.1 hb.2
    refine ⟨h1, ?_⟩
    rw [List.length_cons]
    push_cast at h2 ⊢
    omega

/-- A Python index in `[0, len)` hits a list member. -/
lemma pythonGet_mem {α : Type} (l : List α) (i : ℤ) (h0 : 0 ≤ i)
    (hl : i < (l.length : ℤ)) :
    ∃ a, pythonGet l i = some a ∧ a ∈ l := by
  unfold pythonGet
  rw [if_pos h0]
  have hlt : i.toNat < l.length := by omega
  exact ⟨l.get ⟨i.toNat, hlt⟩, List.get?_eq_get hlt, List.get_mem l i.toNat hlt⟩

/-- Every candidate stored by the collection loop of
`find_balanced_poker_play` passed `is_valid_hand` at the moment it was
appended. -/
lemma fbal_loop_valid (hand : List Card) : ∀ (fuel i cb : ℕ)
    (acc plays : List (ℕ × List Card)),
    (∀ p ∈ acc, is_valid_hand p.2 = true) →
    fbal_loop hand fuel i acc cb = some plays →
    ∀ p ∈ plays, is_valid_hand p.2 = true := by
  intro fuel
  induction fuel with
  | zero =>
    intro i cb acc plays _ h
    exact absurd h (by simp [fbal_loop])
  | succ n ih =>
    intro i cb acc plays hacc h
    rw [fbal_loop] at h
    split at h
    · split at h
      · exact absurd h (by simp)
      · split at h
        · exact ih _ _ _ _ hacc h
        · split at h
          · refine ih _ _ _ _ ?_ h
            intro p hp
            rcases List.mem_append.mp hp with h1 | h2
            · exact hacc p h1
            · rename_i _ hvalid _
              rw [List.mem_singleton.mp h2]
              exact not_not.mp hvalid
          · obtain rfl : acc = plays := Option.some.inj h
            exact hacc
    · obtain rfl : acc = plays := Option.some.inj h
      exact hacc

/-- C3: whenever the collection loop of `find_balanced_poker_play` accepts
at least one candidate, the function succeeds and the arrangement it
returns satisfies `is_valid_hand`. -/
theorem claim_C3_balanced_play_is_valid (hand : List Card)
    (plays : List (ℕ × List Card))
    (hloop : fbal_loop hand 18 ROYAL_FLUSH [] HIGH_CARD = some plays)
    (hne : plays ≠ []) :
    ∃ bh arr, find_balanced_poker_play hand = some (bh, arr) ∧
      is_valid_hand arr = true := by
  have hvalid : ∀ p ∈ plays, is_valid_hand p.2 = true :=
    fbal_loop_valid hand 18 ROYAL_FLUSH HIGH_CARD [] plays (by simp) hloop
  obtain ⟨hb0, hb1⟩ := eval_plays_bounds plays hne
  obtain ⟨p, hp, hmem⟩ := pythonGet_mem plays (eval_plays plays).1 hb0 hb1
  refine ⟨(eval_plays plays).2.2, p.2, ?_, hvalid p hmem⟩
  unfold find_balanced_poker_play
  rw [hloop]
  dsimp only
  rw [hp]

/-- The candidate list collected on the all-hearts hand; nonempty, so C3
applies to it. -/
def c3_plays : List (ℕ × List Card) :=
  (fbal_loop hearts13 18 ROYAL_FLUSH [] HIGH_CARD).getD []

/-- Witness for C3: on the all-hearts hand the collection loop accepts
candidates, and the returned arrangement is valid. -/
theorem claim_C3_witness :
    (fbal_loop hearts13 18 ROYAL_FLUSH [] HIGH_CARD = some c3_plays ∧
      c3_plays ≠ []) ∧
    (∃ bh arr, find_balanced_poker_play hearts13 = some (bh, arr) ∧
      is_valid_hand arr = true) :=
  ⟨⟨by decide, by decide⟩,
    claim_C3_balanced_play_is_valid hearts13 c3_plays (by decide) (by decide)⟩


/-- A real (non-placeholder) playing card: one of the four deck suits,
face value 1..13. -/
def StandardCard (c : Card) : Prop :=
  c.suit < 4 ∧ 1 ≤ c.value ∧ c.value ≤ 13

instance (c : Card) : Decidable (StandardCard c) := by
  unfold StandardCard
  infer_instance

/-- The non-Joker entries of a buffer. -/
def realPart (l : List Card) : List Card :=
  l.filter (fun c => c.suit != SUIT_JOKER)

/-- The number of Joker placeholder entries of a buffer. -/
def jokerCount (l : List Card) : ℕ :=
  l.countP (fun c => c.suit == SUIT_JOKER)

lemma realPart_length_add_jokerCount (l : List Card) :
    (realPart l).length + jokerCount l = l.length := by
  induction l with
  | nil => rfl
  | cons c t ih =>
    by_cases h : c.suit = SUIT_JOKER <;>
      simp [realPart, jokerCount, List.countP_cons, h] at ih ⊢ <;> omega

lemma realPart_append (l₁ l₂ : List Card) :
    realPart (l₁ ++ l₂) = realPart l₁ ++ realPart l₂ := by
  simp [realPart]

lemma realPart_eq_self {l : List Card} (h : ∀ c ∈ l, c.suit ≠ SUIT_JOKER) :
    realPart l = l := by
  induction l with
  | nil => rfl
  | cons c t ih =>
    have hc := h c (by simp)
    simp only [realPart, List.filter_cons]
    rw [if_pos (by simpa using hc)]
    rw [show List.filter (fun c => c.suit != SUIT_JOKER) t = realPart t from rfl,
      ih (fun d hd => h d (by simp [hd]))]

/-- Two standard cards with equal alternate values have equal values. -/
lemma std_value_eq_of_altvalue {c d : Card} (hc : StandardCard c)
    (hd : StandardCard d) (h : c.altvalue = d.altvalue) : c.value = d.value := by
  obtain ⟨-, hc1, hc2⟩ := hc
  obtain ⟨-, hd1, hd2⟩ := hd
  unfold Card.altvalue at h
  split at h <;> split at h <;> omega

/-- A standard card is determined by its suit and its alternate value. -/
lemma std_card_eq_of_suit_altvalue {c d : Card} (hc : StandardCard c)
    (hd : StandardCard d) (hs : c.suit = d.suit) (ha : c.altvalue = d.altvalue) :
    c = d := by
  obtain ⟨s, v⟩ := c
  obtain ⟨s', v'⟩ := d
  have := std_value_eq_of_altvalue hc hd ha
  simp_all

/-- In a list sorted by an integer key, the entries whose key equals a fixed
value form a contiguous infix. -/
lemma sorted_filter_infix (key : Card → ℤ) (v : ℤ) :
    ∀ (l : List Card), l.Sorted (fun a b => key a ≤ key b) →
      ∃ pre post, l = pre ++ l.filter (fun c => key c == v) ++ post ∧
        (∀ c ∈ pre, key c ≠ v) ∧ (∀ c ∈ post, key c ≠ v) := by
  intro l
  induction l with
  | nil => exact fun _ => ⟨[], [], rfl, by simp, by simp⟩
  | cons c t ih =>
    intro hs
    rw [List.sorted_cons] at hs
    obtain ⟨hle, hst⟩ := hs
    obtain ⟨pre, post, heq, hpre, hpost⟩ := ih hst
    by_cases hc : key c = v
    · cases hf : t.filter (fun d => key d == v) with
      | nil =>
        have ht : t = pre ++ post := by
          have := heq
          rw [hf] at this
          simpa using this
        refine ⟨[], pre ++ post, ?_, by simp, ?_⟩
        · simp only [List.filter_cons]
          rw [if_pos (by simpa using hc), hf]
          simpa using ht
        · intro d hd
          rcases List.mem_append.mp hd with h | h
          · exact hpre d h
          · exact hpost d h
      | cons f fs =>
        have hfv : key f = v := by
          have hm : f ∈ t.filter (fun d => key d == v) := by rw [hf]; simp
          simpa using List.of_mem_filter hm
        have hpre_nil : pre = [] := by
          cases hp : pre with
          | nil => rfl
          | cons p ps =>
            exfalso
            have hpv : key p ≠ v := hpre p (by simp [hp])
            have hpm : p ∈ t := by rw [heq, hp]; simp
            have hge : key c ≤ key p := hle p hpm
            have hpf : key p ≤ key f := by
              rw [hf, hp] at heq
              have hd : t = p :: (ps ++ (f :: fs) ++ post) := by simpa using heq
              rw [hd, List.sorted_cons] at hst
              exact hst.1 f (by simp)
            omega
        refine ⟨[], post, ?_, by simp, hpost⟩
        simp only [List.filter_cons]
        rw [if_pos (by simpa using hc)]
        have : t = t.filter (fun d => key d == v) ++ post := by
          rw [hpre_nil] at heq
          simpa using heq
        simp only [List.nil_append, List.cons_append]
        exact congrArg (List.cons c) this
    · refine ⟨c :: pre, post, ?_, ?_, hpost⟩
      · simp only [List.filter_cons]
        rw [if_neg (by simpa using hc)]
        simp only [List.cons_append]
        exact congrArg (List.cons c) heq
      · intro d hd
        rcases List.mem_cons.mp hd with rfl | hd
        · exact hc
        · exact hpre d hd


/-- Nodup descends along sub-permutations. -/
lemma subperm_nodup {α : Type} {l l₂ : List α} (h : List.Subperm l l₂)
    (h₂ : l₂.Nodup) : l.Nodup := by
  obtain ⟨l', hp, hs⟩ := h
  exact hp.nodup_iff.mp (hs.nodup h₂)

lemma cardAt_eq_get (l : List Card) (i : ℕ) (h : i < l.length) :
    cardAt l i = l.get ⟨i, h⟩ := by
  simp [cardAt, List.getD_eq_getElem?_getD, List.getElem?_eq_getElem h]

lemma cardAt_mem (l : List Card) (i : ℕ) (h : i < l.length) :
    cardAt l i ∈ l := by
  rw [cardAt_eq_get l i h]
  exact l.get_mem i h

lemma mem_downFrom (x i : ℕ) : i ∈ downFrom x ↔ i ≤ x := by
  simp [downFrom, List.mem_range]
  omega

lemma mem_downTo (x y i : ℕ) : i ∈ downTo x y ↔ y < i ∧ i ≤ x := by
  simp [downTo, List.mem_range'_1]
  omega

/-- A block of indices all carrying key `v`: the sorted list decomposes as
`pre ++ filter ++ post`, so the filtered entries sit at the consecutive
positions starting at `pre.length`. -/
lemma sorted_key_run (key : Card → ℤ) (v : ℤ) (l : List Card)
    (hs : l.Sorted (fun a b => key a ≤ key b)) :
    ∃ i, i + l.countP (fun c => key c == v) ≤ l.length ∧
      ∀ t, t < l.countP (fun c => key c == v) → key (cardAt l (i + t)) = v := by
  obtain ⟨pre, post, heq, -, -⟩ := sorted_filter_infix key v l hs
  have hcnt : l.countP (fun c => key c == v) =
      (l.filter (fun c => key c == v)).length := l.countP_eq_length_filter _
  have hlen := congrArg List.length heq
  simp only [List.length_append] at hlen
  refine ⟨pre.length, by omega, ?_⟩
  intro t ht
  rw [hcnt] at ht
  have hgd : cardAt l (pre.length + t) =
      (l.filter (fun c => key c == v)).getD t Card.joker := by
    unfold cardAt
    conv_lhs => rw [heq]
    rw [List.append_assoc, List.getD_append_right _ _ _ _ (by omega)]
    have h2 : pre.length + t - pre.length = t := by omega
    rw [h2, List.getD_append _ _ _ _ ht]
  rw [hgd, List.getD_eq_getElem?_getD, List.getElem?_eq_getElem ht]
  have hmem := (l.filter (fun c => key c == v)).get_mem t ht
  simpa using List.of_mem_filter hmem

/-- Distinct positions carrying a property give a lower bound on `countP`. -/
lemma length_le_countP_of_get (l : List Card) (hnd : l.Nodup) (p : Card → Bool)
    (idxs : List (Fin l.length)) (hidx : idxs.Nodup)
    (hp : ∀ i ∈ idxs, p (l.get i)) : idxs.length ≤ l.countP p := by
  have hinj : Function.Injective l.get := List.nodup_iff_injective_get.mp hnd
  have hmapnd : (idxs.map l.get).Nodup := hidx.map hinj
  have hsub : idxs.map l.get ⊆ l.filter p := by
    intro x hx
    obtain ⟨i, hi, rfl⟩ := List.mem_map.mp hx
    exact List.mem_filter.mpr ⟨l.get_mem i.1 i.2, hp i hi⟩
  have := (hmapnd.subperm hsub).length_le
  rw [l.countP_eq_length_filter]
  simpa using this


/-- Number of cards of face value `v` in a hand. -/
def countValue (hand : List Card) (v : ℤ) : ℕ :=
  hand.countP (fun c => c.value == v)

/-- Number of cards of alternate value `a` in a hand. -/
def countAltValue (hand : List Card) (a : ℤ) : ℕ :=
  hand.countP (fun c => c.altvalue == a)

/-- Number of cards of suit `s` in a hand. -/
def countSuit (hand : List Card) (s : ℕ) : ℕ :=
  hand.countP (fun c => c.suit == s)

/-- Order-free content of a one-pair extraction: some value occurs twice. -/
def hasPairP (hand : List Card) : Bool :=
  hand.any (fun c => decide (2 ≤ countValue hand c.value))

/-- Order-free content of a two-pair extraction: two different paired
values, or four of one value. -/
def hasTwoPairP (hand : List Card) : Bool :=
  hand.any (fun c => decide (2 ≤ countValue hand c.value) &&
    hand.any (fun d => d.value != c.value && decide (2 ≤ countValue hand d.value))) ||
  hand.any (fun c => decide (4 ≤ countValue hand c.value))

/-- Order-free content of a three-of-a-kind extraction. -/
def hasThreeKindP (hand : List Card) : Bool :=
  hand.any (fun c => decide (3 ≤ countValue hand c.value))

/-- Order-free content of a four-of-a-kind extraction. -/
def hasFourKindP (hand : List Card) : Bool :=
  hand.any (fun c => decide (4 ≤ countValue hand c.value))

/-- Order-free content of a full-house extraction: an alternate value with
three cards next to a different one with two, or five of one alternate
value (impossible for distinct standard cards). -/
def hasFullHouseP (hand : List Card) : Bool :=
  hand.any (fun c => decide (3 ≤ countAltValue hand c.altvalue) &&
    (hand.any (fun d => d.altvalue != c.altvalue &&
        decide (2 ≤ countAltValue hand d.altvalue)) ||
      decide (5 ≤ countAltValue hand c.altvalue)))

/-- Order-free content of a flush extraction: five cards of one suit. -/
def hasFlushP (hand : List Card) : Bool :=
  hand.any (fun c => decide (5 ≤ countSuit hand c.suit))

/-- Order-free content of a straight extraction: five consecutive face
values. -/
def hasStraightP (hand : List Card) : Bool :=
  hand.any (fun c => (List.range 5).all (fun t =>
    hand.any (fun d => d.value == c.value + t)))

/-- Order-free content of a royal-flush extraction: a one-suit run of five
consecutive alternate values. -/
def hasAltRunP (hand : List Card) : Bool :=
  hand.any (fun c => (List.range 5).all (fun t =>
    hand.any (fun d => d.suit == c.suit && d.altvalue == c.altvalue + t)))

/-- Order-free content of a straight-flush extraction: a one-suit run of
five consecutive face values. -/
def hasValueRunP (hand : List Card) : Bool :=
  hand.any (fun c => (List.range 5).all (fun t =>
    hand.any (fun d => d.suit == c.suit && d.value == c.value + t)))

lemma countValue_mono {S T : List Card} (h : List.Subperm S T) (v : ℤ) :
    countValue S v ≤ countValue T v := List.Subperm.countP_le _ h

lemma countAltValue_mono {S T : List Card} (h : List.Subperm S T) (a : ℤ) :
    countAltValue S a ≤ countAltValue T a := List.Subperm.countP_le _ h

lemma countSuit_mono {S T : List Card} (h : List.Subperm S T) (s : ℕ) :
    countSuit S s ≤ countSuit T s := List.Subperm.countP_le _ h

lemma hasPairP_mono {S T : List Card} (h : List.Subperm S T)
    (hp : hasPairP S = true) : hasPairP T = true := by
  rw [hasPairP, List.any_eq_true] at hp ⊢
  obtain ⟨c, hc, hcnt⟩ := hp
  exact ⟨c, h.subset hc, by
    simp only [decide_eq_true_eq] at hcnt ⊢
    exact le_trans hcnt (countValue_mono h _)⟩

lemma hasTwoPairP_mono {S T : List Card} (h : List.Subperm S T)
    (hp : hasTwoPairP S = true) : hasTwoPairP T = true := by
  rw [hasTwoPairP, Bool.or_eq_true] at hp ⊢
  rcases hp with hp | hp
  · left
    rw [List.any_eq_true] at hp ⊢
    obtain ⟨c, hc, hcnt⟩ := hp
    rw [Bool.and_eq_true] at hcnt
    obtain ⟨h1, h2⟩ := hcnt
    rw [List.any_eq_true] at h2
    obtain ⟨d, hd, h3⟩ := h2
    rw [Bool.and_eq_true] at h3
    refine ⟨c, h.subset hc, ?_⟩
    rw [Bool.and_eq_true]
    refine ⟨?_, ?_⟩
    · simp only [decide_eq_true_eq] at h1 ⊢
      exact le_trans h1 (countValue_mono h _)
    · rw [List.any_eq_true]
      refine ⟨d, h.subset hd, ?_⟩
      rw [Bool.and_eq_true]
      refine ⟨h3.1, ?_⟩
      have := h3.2
      simp only [decide_eq_true_eq] at this ⊢
      exact le_trans this (countValue_mono h _)
  · right
    rw [List.any_eq_true] at hp ⊢
    obtain ⟨c, hc, hcnt⟩ := hp
    refine ⟨c, h.subset hc, ?_⟩
    simp only [decide_eq_true_eq] at hcnt ⊢
    exact le_trans hcnt (countValue_mono h _)

lemma hasThreeKindP_mono {S T : List Card} (h : List.Subperm S T)
    (hp : hasThreeKindP S = true) : hasThreeKindP T = true := by
  rw [hasThreeKindP, List.any_eq_true] at hp ⊢
  obtain ⟨c, hc, hcnt⟩ := hp
  refine ⟨c, h.subset hc, ?_⟩
  simp only [decide_eq_true_eq] at hcnt ⊢
  exact le_trans hcnt (countValue_mono h _)

lemma hasFourKindP_mono {S T : List Card} (h : List.Subperm S T)
    (hp : hasFourKindP S = true) : hasFourKindP T = true := by
  rw [hasFourKindP, List.any_eq_true] at hp ⊢
  obtain ⟨c, hc, hcnt⟩ := hp
  refine ⟨c, h.subset hc, ?_⟩
  simp only [decide_eq_true_eq] at hcnt ⊢
  exact le_trans hcnt (countValue_mono h _)

lemma hasFullHouseP_mono {S T : List Card} (h : List.Subperm S T)
    (hp : hasFullHouseP S = true) : hasFullHouseP T = true := by
  rw [hasFullHouseP, List.any_eq_true] at hp ⊢
  obtain ⟨c, hc, hcnt⟩ := hp
  rw [Bool.and_eq_true] at hcnt
  obtain ⟨h1, h2⟩ := hcnt
  refine ⟨c, h.subset hc, ?_⟩
  rw [Bool.and_eq_true]
  refine ⟨?_, ?_⟩
  · simp only [decide_eq_true_eq] at h1 ⊢
    exact le_trans h1 (countAltValue_mono h _)
  · rw [Bool.or_eq_true] at h2 ⊢
    rcases h2 with h2 | h2
    · left
      rw [List.any_eq_true] at h2 ⊢
      obtain ⟨d, hd, h3⟩ := h2
      rw [Bool.and_eq_true] at h3
      refine ⟨d, h.subset hd, ?_⟩
      rw [Bool.and_eq_true]
      refine ⟨h3.1, ?_⟩
      have := h3.2
      simp only [decide_eq_true_eq] at this ⊢
      exact le_trans this (countAltValue_mono h _)
    · right
      simp only [decide_eq_true_eq] at h2 ⊢
      exact le_trans h2 (countAltValue_mono h _)

lemma hasFlushP_mono {S T : List Card} (h : List.Subperm S T)
    (hp : hasFlushP S = true) : hasFlushP T = true := by
  rw [hasFlushP, List.any_eq_true] at hp ⊢
  obtain ⟨c, hc, hcnt⟩ := hp
  refine ⟨c, h.subset hc, ?_⟩
  simp only [decide_eq_true_eq] at hcnt ⊢
  exact le_trans hcnt (countSuit_mono h _)

lemma hasStraightP_mono {S T : List Card} (h : List.Subperm S T)
    (hp : hasStraightP S = true) : hasStraightP T = true := by
  rw [hasStraightP, List.any_eq_true] at hp ⊢
  obtain ⟨c, hc, hall⟩ := hp
  refine ⟨c, h.subset hc, ?_⟩
  rw [List.all_eq_true] at hall ⊢
  intro t ht
  have := hall t ht
  rw [List.any_eq_true] at this ⊢
  obtain ⟨d, hd, hdv⟩ := this
  exact ⟨d, h.subset hd, hdv⟩

lemma hasAltRunP_mono {S T : List Card} (h : List.Subperm S T)
    (hp : hasAltRunP S = true) : hasAltRunP T = true := by
  rw [hasAltRunP, List.any_eq_true] at hp ⊢
  obtain ⟨c, hc, hall⟩ := hp
  refine ⟨c, h.subset hc, ?_⟩
  rw [List.all_eq_true] at hall ⊢
  intro t ht
  have := hall t ht
  rw [List.any_eq_true] at this ⊢
  obtain ⟨d, hd, hdv⟩ := this
  exact ⟨d, h.subset hd, hdv⟩

lemma hasValueRunP_mono {S T : List Card} (h : List.Subperm S T)
    (hp : hasValueRunP S = true) : hasValueRunP T = true := by
  rw [hasValueRunP, List.any_eq_true] at hp ⊢
  obtain ⟨c, hc, hall⟩ := hp
  refine ⟨c, h.subset hc, ?_⟩
  rw [List.all_eq_true] at hall ⊢
  intro t ht
  have := hall t ht
  rw [List.any_eq_true] at this ⊢
  obtain ⟨d, hd, hdv⟩ := this
  exact ⟨d, h.subset hd, hdv⟩

lemma sort_by_value_sorted (hand : List Card) :
    (sort_hand_by_value hand).Sorted (fun a b => a.value ≤ b.value) := by
  unfold sort_hand_by_value
  letI : IsTotal Card (fun a b => a.value ≤ b.value) := ⟨fun a b => le_total _ _⟩
  letI : IsTrans Card (fun a b => a.value ≤ b.value) :=
    ⟨fun a b c h1 h2 => le_trans h1 h2⟩
  exact List.sorted_insertionSort _ _

lemma sort_by_value_perm (hand : List Card) :
    List.Perm (sort_hand_by_value hand) hand := List.perm_insertionSort _ _

lemma sort_by_alt_sorted (hand : List Card) :
    (sort_hand_by_alt_value hand).Sorted (fun a b => a.altvalue ≤ b.altvalue) := by
  unfold sort_hand_by_alt_value
  letI : IsTotal Card (fun a b => a.altvalue ≤ b.altvalue) := ⟨fun a b => le_total _ _⟩
  letI : IsTrans Card (fun a b => a.altvalue ≤ b.altvalue) :=
    ⟨fun a b c h1 h2 => le_trans h1 h2⟩
  exact List.sorted_insertionSort _ _

lemma sort_by_alt_perm (hand : List Card) :
    List.Perm (sort_hand_by_alt_value hand) hand := List.perm_insertionSort _ _

lemma sort_by_suit_sorted (hand : List Card) :
    (sort_hand_by_suit hand).Sorted
      (fun a b => a.suit < b.suit ∨ (a.suit = b.suit ∧ a.altvalue ≤ b.altvalue)) := by
  unfold sort_hand_by_suit
  letI : IsTotal Card
      (fun a b => a.suit < b.suit ∨ (a.suit = b.suit ∧ a.altvalue ≤ b.altvalue)) := by
    constructor
    intro a b
    rcases Nat.lt_trichotomy a.suit b.suit with h | h | h
    · exact Or.inl (Or.inl h)
    · rcases le_total a.altvalue b.altvalue with h2 | h2
      · exact Or.inl (Or.inr ⟨h, h2⟩)
      · exact Or.inr (Or.inr ⟨h.symm, h2⟩)
    · exact Or.inr (Or.inl h)
  letI : IsTrans Card
      (fun a b => a.suit < b.suit ∨ (a.suit = b.suit ∧ a.altvalue ≤ b.altvalue)) := by
    constructor
    intro a b c h1 h2
    rcases h1 with h1 | ⟨h1, h1v⟩ <;> rcases h2 with h2 | ⟨h2, h2v⟩
    · exact Or.inl (lt_trans h1 h2)
    · exact Or.inl (by omega)
    · exact Or.inl (by omega)
    · exact Or.inr ⟨by omega, le_trans h1v h2v⟩
  exact List.sorted_insertionSort _ _

lemma sort_by_suit_perm (hand : List Card) :
    List.Perm (sort_hand_by_suit hand) hand := List.perm_insertionSort _ _

lemma sort_by_card_id_sorted (hand : List Card) :
    (sort_hand_by_card_id hand).Sorted
      (fun a b => suit_name_rank a.suit < suit_name_rank b.suit ∨
        (suit_name_rank a.suit = suit_name_rank b.suit ∧ a.value ≤ b.value)) := by
  unfold sort_hand_by_card_id
  letI : IsTotal Card
      (fun a b => suit_name_rank a.suit < suit_name_rank b.suit ∨
        (suit_name_rank a.suit = suit_name_rank b.suit ∧ a.value ≤ b.value)) := by
    constructor
    intro a b
    rcases Nat.lt_trichotomy (suit_name_rank a.suit) (suit_name_rank b.suit) with h | h | h
    · exact Or.inl (Or.inl h)
    · rcases le_total a.value b.value with h2 | h2
      · exact Or.inl (Or.inr ⟨h, h2⟩)
      · exact Or.inr (Or.inr ⟨h.symm, h2⟩)
    · exact Or.inr (Or.inl h)
  letI : IsTrans Card
      (fun a b => suit_name_rank a.suit < suit_name_rank b.suit ∨
        (suit_name_rank a.suit = suit_name_rank b.suit ∧ a.value ≤ b.value)) := by
    constructor
    intro a b c h1 h2
    rcases h1 with h1 | ⟨h1, h1v⟩ <;> rcases h2 with h2 | ⟨h2, h2v⟩
    · exact Or.inl (lt_trans h1 h2)
    · exact Or.inl (by omega)
    · exact Or.inl (by omega)
    · exact Or.inr ⟨by omega, le_trans h1v h2v⟩
  exact List.sorted_insertionSort _ _

lemma sort_by_card_id_perm (hand : List Card) :
    List.Perm (sort_hand_by_card_id hand) hand := List.perm_insertionSort _ _


lemma sort_by_alt_length (hand : List Card) :
    (sort_hand_by_alt_value hand).length = hand.length :=
  (sort_by_alt_perm hand).length_eq

/-- The alternate value a standard card of value `v` carries. -/
def altOf (v : ℤ) : ℤ := if v = 1 then 14 else v

lemma std_altvalue_eq_altOf {c : Card} (v : ℤ) (hv : c.value = v) :
    c.altvalue = altOf v := by
  rw [Card.altvalue, altOf, hv]

lemma std_value_eq_of_altOf {c : Card} {v : ℤ} (hc : StandardCard c)
    (h1 : 1 ≤ v) (h13 : v ≤ 13) (ha : c.altvalue = altOf v) : c.value = v := by
  obtain ⟨-, hc1, hc2⟩ := hc
  rw [Card.altvalue, altOf] at ha
  split at ha <;> split at ha <;> omega

/-- Count by face value equals count by the matching alternate value, on
standard cards. -/
lemma countValue_eq_countAltValue {hand : List Card}
    (hstd : ∀ c ∈ hand, StandardCard c) {v : ℤ} (h1 : 1 ≤ v) (h13 : v ≤ 13) :
    countValue hand v = countAltValue hand (altOf v) := by
  unfold countValue countAltValue
  refine List.countP_congr ?_
  intro c hc
  constructor
  · intro h
    simp only [beq_iff_eq] at h ⊢
    exact std_altvalue_eq_altOf v h
  · intro h
    simp only [beq_iff_eq] at h ⊢
    exact std_value_eq_of_altOf (hstd c hc) h1 h13 h

/-- Window soundness workhorse for the pair and kind extractors: in a hand
with `n` cards of value `v`, the alternate-value-sorted copy has `n`
consecutive positions all of value `v`. -/
lemma alt_sorted_value_run (hand : List Card)
    (hstd : ∀ c ∈ hand, StandardCard c) {v : ℤ} (h1 : 1 ≤ v) (h13 : v ≤ 13) :
    ∃ i, i + countValue hand v ≤ hand.length ∧
      ∀ t, t < countValue hand v →
        (cardAt (sort_hand_by_alt_value hand) (i + t)).value = v := by
  have hperm := sort_by_alt_perm hand
  have hstd' : ∀ c ∈ sort_hand_by_alt_value hand, StandardCard c :=
    fun c hc => hstd c (hperm.subset hc)
  obtain ⟨i, hle, hrun⟩ := sorted_key_run Card.altvalue (altOf v)
    (sort_hand_by_alt_value hand) (sort_by_alt_sorted hand)
  have hcnt : (sort_hand_by_alt_value hand).countP (fun c => c.altvalue == altOf v) =
      countValue hand v := by
    rw [show (sort_hand_by_alt_value hand).countP (fun c => c.altvalue == altOf v) =
        countAltValue (sort_hand_by_alt_value hand) (altOf v) from rfl]
    rw [show countAltValue (sort_hand_by_alt_value hand) (altOf v) =
        countAltValue hand (altOf v) from hperm.countP_eq _]
    exact (countValue_eq_countAltValue hstd h1 h13).symm
  rw [hcnt] at hle hrun
  rw [sort_by_alt_length] at hle
  refine ⟨i, hle, ?_⟩
  intro t ht
  have halt := hrun t ht
  have hmem : cardAt (sort_hand_by_alt_value hand) (i + t) ∈ sort_hand_by_alt_value hand := by
    apply cardAt_mem
    rw [sort_by_alt_length]
    omega
  exact std_value_eq_of_altOf (hstd' _ hmem) h1 h13 halt

/-- `extract_one_pair` finds a pair exactly on hands of five or more cards
holding two cards of one value. -/
lemma extract_one_pair_found_iff (hand arranged : List Card) (hnd : hand.Nodup)
    (hstd : ∀ c ∈ hand, StandardCard c) :
    (extract_one_pair hand arranged).1 = true ↔
      5 ≤ hand.length ∧ hasPairP hand = true := by
  unfold extract_one_pair
  by_cases hlen : hand.length < 5
  · rw [if_pos hlen]
    constructor
    · intro h
      exact absurd h (by simp)
    · intro hq
      exact absurd hq.1 (by omega)
  · rw [if_neg hlen]
    dsimp only
    have hperm := sort_by_alt_perm hand
    have hnd' : (sort_hand_by_alt_value hand).Nodup := hperm.nodup_iff.mpr hnd
    constructor
    · intro h
      cases hfind : (downFrom ((sort_hand_by_alt_value hand).length - 2)).find?
          (pr_window (sort_hand_by_alt_value hand)) with
      | none => rw [hfind] at h; simp at h
      | some i =>
        refine ⟨by omega, ?_⟩
        have hwin := List.find?_some hfind
        have hmem := List.mem_of_find?_eq_some hfind
        rw [mem_downFrom] at hmem
        have hlen' : (sort_hand_by_alt_value hand).length = hand.length :=
          sort_by_alt_length hand
        have hi1 : i + 1 < (sort_hand_by_alt_value hand).length := by omega
        have hi0 : i < (sort_hand_by_alt_value hand).length := by omega
        rw [pr_window, decide_eq_true_eq] at hwin
        rw [cardAt_eq_get _ _ hi0, cardAt_eq_get _ _ hi1] at hwin
        simp only [List.get_eq_getElem] at hwin
        rw [hasPairP, List.any_eq_true]
        refine ⟨(sort_hand_by_alt_value hand).get ⟨i, hi0⟩,
          hperm.subset ((sort_hand_by_alt_value hand).get_mem _ _), ?_⟩
        rw [decide_eq_true_eq]
        have hcnt : countValue hand ((sort_hand_by_alt_value hand).get ⟨i, hi0⟩).value =
            countValue (sort_hand_by_alt_value hand)
              ((sort_hand_by_alt_value hand).get ⟨i, hi0⟩).value :=
          (hperm.countP_eq _).symm
        rw [hcnt]
        have := length_le_countP_of_get (sort_hand_by_alt_value hand) hnd'
          (fun c => c.value == ((sort_hand_by_alt_value hand).get ⟨i, hi0⟩).value)
          [⟨i, hi0⟩, ⟨i + 1, hi1⟩] (by simp) ?_
        · simpa using this
        · intro j hj
          rcases List.mem_cons.mp hj with rfl | hj
          · simp
          · rcases List.mem_cons.mp hj with rfl | hj
            · simp [hwin]
            · simp at hj
    · rintro ⟨h5, hp⟩
      rw [hasPairP, List.any_eq_true] at hp
      obtain ⟨c, hc, hcnt⟩ := hp
      rw [decide_eq_true_eq] at hcnt
      obtain ⟨-, hv1, hv13⟩ := hstd c hc
      obtain ⟨i, hle, hrun⟩ := alt_sorted_value_run hand hstd hv1 hv13
      have hw : pr_window (sort_hand_by_alt_value hand) i = true := by
        rw [pr_window, decide_eq_true_eq]
        have h0 := hrun 0 (by omega)
        have h1 := hrun 1 (by omega)
        rw [Nat.add_zero] at h0
        rw [h0, h1]
      have hfind : ((downFrom ((sort_hand_by_alt_value hand).length - 2)).find?
          (pr_window (sort_hand_by_alt_value hand))).isSome := by
        rw [List.find?_isSome]
        refine ⟨i, ?_, hw⟩
        rw [mem_downFrom, sort_by_alt_length]
        omega
      obtain ⟨j, hj⟩ := Option.isSome_iff_exists.mp hfind
      rw [hj]


/-- `extract_three_of_a_kind` finds a triple exactly on hands of five or
more cards holding three cards of one value. -/
lemma extract_three_of_a_kind_found_iff (hand arranged : List Card)
    (hnd : hand.Nodup) (hstd : ∀ c ∈ hand, StandardCard c) :
    (extract_three_of_a_kind hand arranged).1 = true ↔
      5 ≤ hand.length ∧ hasThreeKindP hand = true := by
  unfold extract_three_of_a_kind
  by_cases hlen : hand.length < 5
  · rw [if_pos hlen]
    constructor
    · intro h
      exact absurd h (by simp)
    · intro hq
      exact absurd hq.1 (by omega)
  · rw [if_neg hlen]
    dsimp only
    have hperm := sort_by_alt_perm hand
    have hnd' : (sort_hand_by_alt_value hand).Nodup := hperm.nodup_iff.mpr hnd
    constructor
    · intro h
      cases hfind : (downFrom ((sort_hand_by_alt_value hand).length - 3)).find?
          (tk_window (sort_hand_by_alt_value hand)) with
      | none => rw [hfind] at h; simp at h
      | some i =>
        refine ⟨by omega, ?_⟩
        have hwin := List.find?_some hfind
        have hmem := List.mem_of_find?_eq_some hfind
        rw [mem_downFrom] at hmem
        have hlen' : (sort_hand_by_alt_value hand).length = hand.length :=
          sort_by_alt_length hand
        have hi2 : i + 2 < (sort_hand_by_alt_value hand).length := by omega
        have hi1 : i + 1 < (sort_hand_by_alt_value hand).length := by omega
        have hi0 : i < (sort_hand_by_alt_value hand).length := by omega
        rw [tk_window, decide_eq_true_eq] at hwin
        rw [cardAt_eq_get _ _ hi0, cardAt_eq_get _ _ hi1, cardAt_eq_get _ _ hi2] at hwin
        simp only [List.get_eq_getElem] at hwin
        rw [hasThreeKindP, List.any_eq_true]
        refine ⟨(sort_hand_by_alt_value hand).get ⟨i, hi0⟩,
          hperm.subset ((sort_hand_by_alt_value hand).get_mem _ _), ?_⟩
        rw [decide_eq_true_eq]
        have hcnt : countValue hand ((sort_hand_by_alt_value hand).get ⟨i, hi0⟩).value =
            countValue (sort_hand_by_alt_value hand)
              ((sort_hand_by_alt_value hand).get ⟨i, hi0⟩).value :=
          (hperm.countP_eq _).symm
        rw [hcnt]
        have := length_le_countP_of_get (sort_hand_by_alt_value hand) hnd'
          (fun c => c.value == ((sort_hand_by_alt_value hand).get ⟨i, hi0⟩).value)
          [⟨i, hi0⟩, ⟨i + 1, hi1⟩, ⟨i + 2, hi2⟩] (by simp) ?_
        · simpa using this
        · intro j hj
          rcases List.mem_cons.mp hj with rfl | hj
          · simp
          · rcases List.mem_cons.mp hj with rfl | hj
            · simp [hwin.1]
            · rcases List.mem_cons.mp hj with rfl | hj
              · simp [hwin.1, hwin.2]
              · simp at hj
    · rintro ⟨h5, hp⟩
      rw [hasThreeKindP, List.any_eq_true] at hp
      obtain ⟨c, hc, hcnt⟩ := hp
      rw [decide_eq_true_eq] at hcnt
      obtain ⟨-, hv1, hv13⟩ := hstd c hc
      obtain ⟨i, hle, hrun⟩ := alt_sorted_value_run hand hstd hv1 hv13
      have hw : tk_window (sort_hand_by_alt_value hand) i = true := by
        rw [tk_window, decide_eq_true_eq]
        have h0 := hrun 0 (by omega)
        have h1 := hrun 1 (by omega)
        have h2 := hrun 2 (by omega)
        rw [Nat.add_zero] at h0
        rw [h0, h1, h2]
        exact ⟨rfl, rfl⟩
      have hfind : ((downFrom ((sort_hand_by_alt_value hand).length - 3)).find?
          (tk_window (sort_hand_by_alt_value hand))).isSome := by
        rw [List.find?_isSome]
        refine ⟨i, ?_, hw⟩
        rw [mem_downFrom, sort_by_alt_length]
        omega
      obtain ⟨j, hj⟩ := Option.isSome_iff_exists.mp hfind
      rw [hj]

/-- `extract_four_of_a_kind` finds a quad exactly on hands of five or more
cards holding four cards of one value. -/
lemma extract_four_of_a_kind_found_iff (hand arranged : List Card)
    (hnd : hand.Nodup) (hstd : ∀ c ∈ hand, StandardCard c) :
    (extract_four_of_a_kind hand arranged).1 = true ↔
      5 ≤ hand.length ∧ hasFourKindP hand = true := by
  unfold extract_four_of_a_kind
  by_cases hlen : hand.length < 5
  · rw [if_pos hlen]
    constructor
    · intro h
      exact absurd h (by simp)
    · intro hq
      exact absurd hq.1 (by omega)
  · rw [if_neg hlen]
    dsimp only
    have hperm := sort_by_alt_perm hand
    have hnd' : (sort_hand_by_alt_value hand).Nodup := hperm.nodup_iff.mpr hnd
    constructor
    · intro h
      cases hfind : (downFrom ((sort_hand_by_alt_value hand).length - 4)).find?
          (fk_window (sort_hand_by_alt_value hand)) with
      | none => rw [hfind] at h; simp at h
      | some i =>
        refine ⟨by omega, ?_⟩
        have hwin := List.find?_some hfind
        have hmem := List.mem_of_find?_eq_some hfind
        rw [mem_downFrom] at hmem
        have hlen' : (sort_hand_by_alt_value hand).length = hand.length :=
          sort_by_alt_length hand
        have hi3 : i + 3 < (sort_hand_by_alt_value hand).length := by omega
        have hi2 : i + 2 < (sort_hand_by_alt_value hand).length := by omega
        have hi1 : i + 1 < (sort_hand_by_alt_value hand).length := by omega
        have hi0 : i < (sort_hand_by_alt_value hand).length := by omega
        rw [fk_window, decide_eq_true_eq] at hwin
        rw [cardAt_eq_get _ _ hi0, cardAt_eq_get _ _ hi1, cardAt_eq_get _ _ hi2,
          cardAt_eq_get _ _ hi3] at hwin
        simp only [List.get_eq_getElem] at hwin
        rw [hasFourKindP, List.any_eq_true]
        refine ⟨(sort_hand_by_alt_value hand).get ⟨i, hi0⟩,
          hperm.subset ((sort_hand_by_alt_value hand).get_mem _ _), ?_⟩
        rw [decide_eq_true_eq]
        have hcnt : countValue hand ((sort_hand_by_alt_value hand).get ⟨i, hi0⟩).value =
            countValue (sort_hand_by_alt_value hand)
              ((sort_hand_by_alt_value hand).get ⟨i, hi0⟩).value :=
          (hperm.countP_eq _).symm
        rw [hcnt]
        have := length_le_countP_of_get (sort_hand_by_alt_value hand) hnd'
          (fun c => c.value == ((sort_hand_by_alt_value hand).get ⟨i, hi0⟩).value)
          [⟨i, hi0⟩, ⟨i + 1, hi1⟩, ⟨i + 2, hi2⟩, ⟨i + 3, hi3⟩] (by simp) ?_
        · simpa using this
        · intro j hj
          rcases List.mem_cons.mp hj with rfl | hj
          · simp
          · rcases List.mem_cons.mp hj with rfl | hj
            · simp [hwin.1]
            · rcases List.mem_cons.mp hj with rfl | hj
              · simp [hwin.1, hwin.2.1]
              · rcases List.mem_cons.mp hj with rfl | hj
                · simp [hwin.1, hwin.2.1, hwin.2.2]
                · simp at hj
    · rintro ⟨h5, hp⟩
      rw [hasFourKindP, List.any_eq_true] at hp
      obtain ⟨c, hc, hcnt⟩ := hp
      rw [decide_eq_true_eq] at hcnt
      obtain ⟨-, hv1, hv13⟩ := hstd c hc
      obtain ⟨i, hle, hrun⟩ := alt_sorted_value_run hand hstd hv1 hv13
      have hw : fk_window (sort_hand_by_alt_value hand) i = true := by
        rw [fk_window, decide_eq_true_eq]
        have h0 := hrun 0 (by omega)
        have h1 := hrun 1 (by omega)
        have h2 := hrun 2 (by omega)
        have h3 := hrun 3 (by omega)
        rw [Nat.add_zero] at h0
        rw [h0, h1, h2, h3]
        exact ⟨rfl, rfl, rfl⟩
      have hfind : ((downFrom ((sort_hand_by_alt_value hand).length - 4)).find?
          (fk_window (sort_hand_by_alt_value hand))).isSome := by
        rw [List.find?_isSome]
        refine ⟨i, ?_, hw⟩
        rw [mem_downFrom, sort_by_alt_length]
        omega
      obtain ⟨j, hj⟩ := Option.isSome_iff_exists.mp hfind
      rw [hj]


/-- A block of consecutive positions of one alternate value in the
alternate-value-sorted copy. -/
lemma alt_sorted_alt_run (hand : List Card) (a : ℤ) :
    ∃ i, i + countAltValue hand a ≤ hand.length ∧
      ∀ t, t < countAltValue hand a →
        (cardAt (sort_hand_by_alt_value hand) (i + t)).altvalue = a := by
  have hperm := sort_by_alt_perm hand
  obtain ⟨i, hle, hrun⟩ := sorted_key_run Card.altvalue a
    (sort_hand_by_alt_value hand) (sort_by_alt_sorted hand)
  have hcnt : (sort_hand_by_alt_value hand).countP (fun c => c.altvalue == a) =
      countAltValue hand a := hperm.countP_eq _
  rw [hcnt] at hle hrun
  rw [sort_by_alt_length] at hle
  exact ⟨i, hle, hrun⟩

/-- Two key-runs with different keys occupy disjoint index intervals, in
order one way or the other. -/
lemma run_order (s : List Card) (key : Card → ℤ) {ia na ib nb : ℕ} {a b : ℤ}
    (hna : 1 ≤ na) (hnb : 1 ≤ nb)
    (ha : ∀ t, t < na → key (cardAt s (ia + t)) = a)
    (hb : ∀ t, t < nb → key (cardAt s (ib + t)) = b)
    (hab : a ≠ b) : ia + na ≤ ib ∨ ib + nb ≤ ia := by
  by_contra hcon
  push_neg at hcon
  obtain ⟨h1, h2⟩ := hcon
  rcases le_total ia ib with h | h
  · have hx := ha (ib - ia) (by omega)
    have hy := hb 0 (by omega)
    have he : ia + (ib - ia) = ib := by omega
    rw [he] at hx
    rw [Nat.add_zero] at hy
    exact hab (hx.symm.trans hy)
  · have hx := hb (ia - ib) (by omega)
    have hy := ha 0 (by omega)
    have he : ib + (ia - ib) = ia := by omega
    rw [he] at hx
    rw [Nat.add_zero] at hy
    exact hab (hy.symm.trans hx)

/-- Window at the start of a face-value run in the sorted copy. -/
lemma pr_window_of_run {hand : List Card} {v : ℤ} {i cnt : ℕ}
    (hrun : ∀ t, t < cnt → (cardAt (sort_hand_by_alt_value hand) (i + t)).value = v)
    (h2 : 2 ≤ cnt) (off : ℕ) (hoff : off + 2 ≤ cnt) :
    pr_window (sort_hand_by_alt_value hand) (i + off) = true := by
  rw [pr_window, decide_eq_true_eq]
  have h0 := hrun off (by omega)
  have h1 := hrun (off + 1) (by omega)
  have he : i + off + 1 = i + (off + 1) := by omega
  rw [he, h0, h1]

/-- `extract_two_pair` finds two pairs exactly on hands of five or more
cards holding either two different paired values or four of one value. -/
lemma extract_two_pair_found_iff (hand arranged : List Card)
    (hnd : hand.Nodup) (hstd : ∀ c ∈ hand, StandardCard c) :
    (extract_two_pair hand arranged).1 = true ↔
      5 ≤ hand.length ∧ hasTwoPairP hand = true := by
  unfold extract_two_pair
  by_cases hlen : hand.length < 5
  · rw [if_pos hlen]
    constructor
    · intro h
      exact absurd h (by simp)
    · intro hq
      exact absurd hq.1 (by omega)
  · rw [if_neg hlen]
    dsimp only
    have hperm := sort_by_alt_perm hand
    have hnd' : (sort_hand_by_alt_value hand).Nodup := hperm.nodup_iff.mpr hnd
    have hlen' : (sort_hand_by_alt_value hand).length = hand.length :=
      sort_by_alt_length hand
    constructor
    · intro h
      cases hfind : (downFrom ((sort_hand_by_alt_value hand).length - 2)).findSome?
          (fun i => if pr_window (sort_hand_by_alt_value hand) i then
            ((List.range ((sort_hand_by_alt_value hand).length - 2)).find? (fun j =>
              decide (j > i + 1 ∨ j + 1 < i) &&
                decide (j < (sort_hand_by_alt_value hand).length - 1) &&
                pr_window (sort_hand_by_alt_value hand) j)).map (fun j => (i, j))
          else none) with
      | none => rw [hfind] at h; simp at h
      | some p =>
        refine ⟨by omega, ?_⟩
        obtain ⟨i0, hi0mem, hsome⟩ := List.exists_of_findSome?_eq_some hfind
        rw [mem_downFrom] at hi0mem
        split at hsome
        case _ hpri =>
          rw [Option.map_eq_some'] at hsome
          obtain ⟨j0, hj0find, -⟩ := hsome
          have hj0cond := List.find?_some hj0find
          have hj0mem := List.mem_of_find?_eq_some hj0find
          rw [List.mem_range] at hj0mem
          rw [Bool.and_eq_true, Bool.and_eq_true] at hj0cond
          obtain ⟨⟨hdisj, hjlt⟩, hprj⟩ := hj0cond
          rw [decide_eq_true_eq] at hdisj hjlt
          rw [pr_window, decide_eq_true_eq] at hpri hprj
          have hi1 : i0 + 1 < (sort_hand_by_alt_value hand).length := by omega
          have hi0' : i0 < (sort_hand_by_alt_value hand).length := by omega
          have hj1 : j0 + 1 < (sort_hand_by_alt_value hand).length := by omega
          have hj0' : j0 < (sort_hand_by_alt_value hand).length := by omega
          rw [cardAt_eq_get _ _ hi0', cardAt_eq_get _ _ hi1] at hpri
          rw [cardAt_eq_get _ _ hj0', cardAt_eq_get _ _ hj1] at hprj
          simp only [List.get_eq_getElem] at hpri hprj
          by_cases hvv : ((sort_hand_by_alt_value hand).get ⟨i0, hi0'⟩).value =
              ((sort_hand_by_alt_value hand).get ⟨j0, hj0'⟩).value
          · rw [hasTwoPairP, Bool.or_eq_true]
            right
            rw [List.any_eq_true]
            refine ⟨(sort_hand_by_alt_value hand).get ⟨i0, hi0'⟩,
              hperm.subset ((sort_hand_by_alt_value hand).get_mem _ _), ?_⟩
            rw [decide_eq_true_eq]
            rw [show countValue hand ((sort_hand_by_alt_value hand).get ⟨i0, hi0'⟩).value =
                countValue (sort_hand_by_alt_value hand)
                  ((sort_hand_by_alt_value hand).get ⟨i0, hi0'⟩).value
              from (hperm.countP_eq _).symm]
            have := length_le_countP_of_get (sort_hand_by_alt_value hand) hnd'
              (fun c => c.value == ((sort_hand_by_alt_value hand).get ⟨i0, hi0'⟩).value)
              [⟨i0, hi0'⟩, ⟨i0 + 1, hi1⟩, ⟨j0, hj0'⟩, ⟨j0 + 1, hj1⟩]
              (by simp [Fin.ext_iff]; omega) ?_
            · simpa using this
            · intro k hk
              simp only [List.get_eq_getElem] at hvv ⊢
              rcases List.mem_cons.mp hk with rfl | hk
              · simp
              · rcases List.mem_cons.mp hk with rfl | hk
                · simp [hpri]
                · rcases List.mem_cons.mp hk with rfl | hk
                  · simp [hvv]
                  · rcases List.mem_cons.mp hk with rfl | hk
                    · simp [hprj, hvv]
                    · simp at hk
          · rw [hasTwoPairP, Bool.or_eq_true]
            left
            rw [List.any_eq_true]
            refine ⟨(sort_hand_by_alt_value hand).get ⟨i0, hi0'⟩,
              hperm.subset ((sort_hand_by_alt_value hand).get_mem _ _), ?_⟩
            rw [Bool.and_eq_true]
            constructor
            · rw [decide_eq_true_eq]
              rw [show countValue hand ((sort_hand_by_alt_value hand).get ⟨i0, hi0'⟩).value =
                  countValue (sort_hand_by_alt_value hand)
                    ((sort_hand_by_alt_value hand).get ⟨i0, hi0'⟩).value
                from (hperm.countP_eq _).symm]
              have := length_le_countP_of_get (sort_hand_by_alt_value hand) hnd'
                (fun c => c.value == ((sort_hand_by_alt_value hand).get ⟨i0, hi0'⟩).value)
                [⟨i0, hi0'⟩, ⟨i0 + 1, hi1⟩] (by simp) ?_
              · simpa using this
              · intro k hk
                simp only [List.get_eq_getElem] at hpri ⊢
                rcases List.mem_cons.mp hk with rfl | hk
                · simp
                · rcases List.mem_cons.mp hk with rfl | hk
                  · simp [hpri]
                  · simp at hk
            · rw [List.any_eq_true]
              refine ⟨(sort_hand_by_alt_value hand).get ⟨j0, hj0'⟩,
                hperm.subset ((sort_hand_by_alt_value hand).get_mem _ _), ?_⟩
              rw [Bool.and_eq_true]
              constructor
              · rw [bne_iff_ne]
                simp only [List.get_eq_getElem] at hvv ⊢
                exact fun hx => hvv (hx.symm)
              · rw [decide_eq_true_eq]
                rw [show countValue hand ((sort_hand_by_alt_value hand).get ⟨j0, hj0'⟩).value =
                    countValue (sort_hand_by_alt_value hand)
                      ((sort_hand_by_alt_value hand).get ⟨j0, hj0'⟩).value
                  from (hperm.countP_eq _).symm]
                have := length_le_countP_of_get (sort_hand_by_alt_value hand) hnd'
                  (fun c => c.value == ((sort_hand_by_alt_value hand).get ⟨j0, hj0'⟩).value)
                  [⟨j0, hj0'⟩, ⟨j0 + 1, hj1⟩] (by simp) ?_
                · simpa using this
                · intro k hk
                  simp only [List.get_eq_getElem] at hprj ⊢
                  rcases List.mem_cons.mp hk with rfl | hk
                  · simp
                  · rcases List.mem_cons.mp hk with rfl | hk
                    · simp [hprj]
                    · simp at hk
        case _ => exact absurd hsome (by simp)
    · rintro ⟨h5, hp⟩
      have hkey : ∃ istar jstar : ℕ,
          istar ≤ (sort_hand_by_alt_value hand).length - 2 ∧
          jstar < (sort_hand_by_alt_value hand).length - 2 ∧
          (jstar > istar + 1 ∨ jstar + 1 < istar) ∧
          jstar < (sort_hand_by_alt_value hand).length - 1 ∧
          pr_window (sort_hand_by_alt_value hand) istar = true ∧
          pr_window (sort_hand_by_alt_value hand) jstar = true := by
        rw [hasTwoPairP, Bool.or_eq_true] at hp
        rcases hp with hp | hp
        · rw [List.any_eq_true] at hp
          obtain ⟨c, hc, hcc⟩ := hp
          rw [Bool.and_eq_true] at hcc
          obtain ⟨hc2, hdany⟩ := hcc
          rw [decide_eq_true_eq] at hc2
          rw [List.any_eq_true] at hdany
          obtain ⟨d, hd, hdd⟩ := hdany
          rw [Bool.and_eq_true] at hdd
          obtain ⟨hdne, hd2⟩ := hdd
          rw [bne_iff_ne] at hdne
          rw [decide_eq_true_eq] at hd2
          obtain ⟨-, hcv1, hcv13⟩ := hstd c hc
          obtain ⟨-, hdv1, hdv13⟩ := hstd d hd
          obtain ⟨ia, hlea, hruna⟩ := alt_sorted_value_run hand hstd hcv1 hcv13
          obtain ⟨ib, hleb, hrunb⟩ := alt_sorted_value_run hand hstd hdv1 hdv13
          have horder := run_order (sort_hand_by_alt_value hand) Card.value
            (by omega : 1 ≤ countValue hand c.value)
            (by omega : 1 ≤ countValue hand d.value)
            hruna hrunb hdne.symm
          rcases horder with horder | horder
          · refine ⟨ib, ia, ?_, ?_, ?_, ?_, ?_, ?_⟩
            · rw [hlen']; omega
            · rw [hlen']; omega
            · right; omega
            · rw [hlen']; omega
            · have := pr_window_of_run hrunb (by omega) 0 (by omega)
              rw [Nat.add_zero] at this
              exact this
            · have := pr_window_of_run hruna (by omega) 0 (by omega)
              rw [Nat.add_zero] at this
              exact this
          · refine ⟨ia, ib, ?_, ?_, ?_, ?_, ?_, ?_⟩
            · rw [hlen']; omega
            · rw [hlen']; omega
            · right; omega
            · rw [hlen']; omega
            · have := pr_window_of_run hruna (by omega) 0 (by omega)
              rw [Nat.add_zero] at this
              exact this
            · have := pr_window_of_run hrunb (by omega) 0 (by omega)
              rw [Nat.add_zero] at this
              exact this
        · rw [List.any_eq_true] at hp
          obtain ⟨c, hc, hcc⟩ := hp
          rw [decide_eq_true_eq] at hcc
          obtain ⟨-, hcv1, hcv13⟩ := hstd c hc
          obtain ⟨ia, hlea, hruna⟩ := alt_sorted_value_run hand hstd hcv1 hcv13
          refine ⟨ia + 2, ia, ?_, ?_, ?_, ?_, ?_, ?_⟩
          · rw [hlen']; omega
          · rw [hlen']; omega
          · right; omega
          · rw [hlen']; omega
          · exact pr_window_of_run hruna (by omega) 2 (by omega)
          · have := pr_window_of_run hruna (by omega) 0 (by omega)
            rw [Nat.add_zero] at this
            exact this
      obtain ⟨istar, jstar, hiu, hju, hdisj, hjlt, hpi, hpj⟩ := hkey
      have hinner : ((List.range ((sort_hand_by_alt_value hand).length - 2)).find?
          (fun j => decide (j > istar + 1 ∨ j + 1 < istar) &&
            decide (j < (sort_hand_by_alt_value hand).length - 1) &&
            pr_window (sort_hand_by_alt_value hand) j)).isSome := by
        rw [List.find?_isSome]
        refine ⟨jstar, List.mem_range.mpr hju, ?_⟩
        rw [Bool.and_eq_true, Bool.and_eq_true]
        exact ⟨⟨decide_eq_true hdisj, decide_eq_true hjlt⟩, hpj⟩
      obtain ⟨j1, hj1⟩ := Option.isSome_iff_exists.mp hinner
      cases hfind : (downFrom ((sort_hand_by_alt_value hand).length - 2)).findSome?
          (fun i => if pr_window (sort_hand_by_alt_value hand) i then
            ((List.range ((sort_hand_by_alt_value hand).length - 2)).find? (fun j =>
              decide (j > i + 1 ∨ j + 1 < i) &&
                decide (j < (sort_hand_by_alt_value hand).length - 1) &&
                pr_window (sort_hand_by_alt_value hand) j)).map (fun j => (i, j))
          else none) with
      | some p => rfl
      | none =>
        exfalso
        rw [List.findSome?_eq_none_iff] at hfind
        have := hfind istar (by rw [mem_downFrom]; exact hiu)
        rw [if_pos hpi, hj1] at this
        exact absurd this (by simp)


/-- Pair window inside an alternate-value run. -/
lemma fh_pair_of_run {hand : List Card} {a : ℤ} {i cnt : ℕ}
    (hrun : ∀ t, t < cnt → (cardAt (sort_hand_by_alt_value hand) (i + t)).altvalue = a)
    (off : ℕ) (hoff : off + 2 ≤ cnt) :
    fh_pair (sort_hand_by_alt_value hand) (i + off) = true := by
  rw [fh_pair, decide_eq_true_eq]
  have h0 := hrun off (by omega)
  have h1 := hrun (off + 1) (by omega)
  have he : i + off + 1 = i + (off + 1) := by omega
  rw [he, h0, h1]

/-- Triple window inside an alternate-value run. -/
lemma fh_triple_of_run {hand : List Card} {a : ℤ} {i cnt : ℕ}
    (hrun : ∀ t, t < cnt → (cardAt (sort_hand_by_alt_value hand) (i + t)).altvalue = a)
    (off : ℕ) (hoff : off + 3 ≤ cnt) :
    fh_triple (sort_hand_by_alt_value hand) (i + off) = true := by
  rw [fh_triple, decide_eq_true_eq]
  have h0 := hrun off (by omega)
  have h1 := hrun (off + 1) (by omega)
  have h2 := hrun (off + 2) (by omega)
  have he1 : i + off + 1 = i + (off + 1) := by omega
  have he2 : i + off + 2 = i + (off + 2) := by omega
  rw [he1, he2, h0, h1, h2]
  exact ⟨rfl, rfl⟩

/-- `extract_full_house` finds a full house exactly on hands of five or
more cards holding a tripled alternate value along with a different paired
one (five of one alternate value being impossible here). -/
lemma extract_full_house_found_iff (hand arranged : List Card)
    (hnd : hand.Nodup) (hstd : ∀ c ∈ hand, StandardCard c) :
    (extract_full_house hand arranged).1 = true ↔
      5 ≤ hand.length ∧ hasFullHouseP hand = true := by
  unfold extract_full_house
  by_cases hlen : hand.length < 5
  · rw [if_pos hlen]
    constructor
    · intro h
      exact absurd h (by simp)
    · intro hq
      exact absurd hq.1 (by omega)
  · rw [if_neg hlen]
    dsimp only
    have hperm := sort_by_alt_perm hand
    have hnd' : (sort_hand_by_alt_value hand).Nodup := hperm.nodup_iff.mpr hnd
    have hlen' : (sort_hand_by_alt_value hand).length = hand.length :=
      sort_by_alt_length hand
    constructor
    · intro h
      cases hfind : (downFrom ((sort_hand_by_alt_value hand).length - 3)).findSome?
          (fun i => if fh_triple (sort_hand_by_alt_value hand) i then
            ((List.range ((sort_hand_by_alt_value hand).length - 1)).find? (fun j =>
              decide (j > i + 2 ∨ j + 1 < i) &&
                decide (j < (sort_hand_by_alt_value hand).length - 1) &&
                fh_pair (sort_hand_by_alt_value hand) j)).map (fun j => (i, j))
          else none) with
      | none => rw [hfind] at h; simp at h
      | some p =>
        refine ⟨by omega, ?_⟩
        obtain ⟨i0, hi0mem, hsome⟩ := List.exists_of_findSome?_eq_some hfind
        rw [mem_downFrom] at hi0mem
        split at hsome
        case _ hpri =>
          rw [Option.map_eq_some'] at hsome
          obtain ⟨j0, hj0find, -⟩ := hsome
          have hj0cond := List.find?_some hj0find
          rw [Bool.and_eq_true, Bool.and_eq_true] at hj0cond
          obtain ⟨⟨hdisj, hjlt⟩, hprj⟩ := hj0cond
          rw [decide_eq_true_eq] at hdisj hjlt
          rw [fh_triple, decide_eq_true_eq] at hpri
          rw [fh_pair, decide_eq_true_eq] at hprj
          have hi2 : i0 + 2 < (sort_hand_by_alt_value hand).length := by omega
          have hi1 : i0 + 1 < (sort_hand_by_alt_value hand).length := by omega
          have hi0' : i0 < (sort_hand_by_alt_value hand).length := by omega
          have hj1 : j0 + 1 < (sort_hand_by_alt_value hand).length := by omega
          have hj0' : j0 < (sort_hand_by_alt_value hand).length := by omega
          rw [cardAt_eq_get _ _ hi0', cardAt_eq_get _ _ hi1, cardAt_eq_get _ _ hi2] at hpri
          rw [cardAt_eq_get _ _ hj0', cardAt_eq_get _ _ hj1] at hprj
          simp only [List.get_eq_getElem] at hpri hprj
          rw [hasFullHouseP, List.any_eq_true]
          by_cases hvv : ((sort_hand_by_alt_value hand).get ⟨i0, hi0'⟩).altvalue =
              ((sort_hand_by_alt_value hand).get ⟨j0, hj0'⟩).altvalue
          · refine ⟨(sort_hand_by_alt_value hand).get ⟨i0, hi0'⟩,
              hperm.subset ((sort_hand_by_alt_value hand).get_mem _ _), ?_⟩
            rw [Bool.and_eq_true]
            have hc5 : 5 ≤ countAltValue hand
                ((sort_hand_by_alt_value hand).get ⟨i0, hi0'⟩).altvalue := by
              rw [show countAltValue hand ((sort_hand_by_alt_value hand).get ⟨i0, hi0'⟩).altvalue =
                  countAltValue (sort_hand_by_alt_value hand)
                    ((sort_hand_by_alt_value hand).get ⟨i0, hi0'⟩).altvalue
                from (hperm.countP_eq _).symm]
              have := length_le_countP_of_get (sort_hand_by_alt_value hand) hnd'
                (fun c => c.altvalue == ((sort_hand_by_alt_value hand).get ⟨i0, hi0'⟩).altvalue)
                [⟨i0, hi0'⟩, ⟨i0 + 1, hi1⟩, ⟨i0 + 2, hi2⟩, ⟨j0, hj0'⟩, ⟨j0 + 1, hj1⟩]
                (by simp [Fin.ext_iff]; omega) ?_
              · simpa using this
              · intro k hk
                simp only [List.get_eq_getElem] at hvv ⊢
                rcases List.mem_cons.mp hk with rfl | hk
                · simp
                · rcases List.mem_cons.mp hk with rfl | hk
                  · simp [hpri.1]
                  · rcases List.mem_cons.mp hk with rfl | hk
                    · simp [hpri.1, hpri.2]
                    · rcases List.mem_cons.mp hk with rfl | hk
                      · simp [hvv]
                      · rcases List.mem_cons.mp hk with rfl | hk
                        · simp [hprj, hvv]
                        · simp at hk
            refine ⟨by rw [decide_eq_true_eq]; omega, ?_⟩
            rw [Bool.or_eq_true]
            right
            rw [decide_eq_true_eq]
            exact hc5
          · refine ⟨(sort_hand_by_alt_value hand).get ⟨i0, hi0'⟩,
              hperm.subset ((sort_hand_by_alt_value hand).get_mem _ _), ?_⟩
            rw [Bool.and_eq_true]
            constructor
            · rw [decide_eq_true_eq]
              rw [show countAltValue hand ((sort_hand_by_alt_value hand).get ⟨i0, hi0'⟩).altvalue =
                  countAltValue (sort_hand_by_alt_value hand)
                    ((sort_hand_by_alt_value hand).get ⟨i0, hi0'⟩).altvalue
                from (hperm.countP_eq _).symm]
              have := length_le_countP_of_get (sort_hand_by_alt_value hand) hnd'
                (fun c => c.altvalue == ((sort_hand_by_alt_value hand).get ⟨i0, hi0'⟩).altvalue)
                [⟨i0, hi0'⟩, ⟨i0 + 1, hi1⟩, ⟨i0 + 2, hi2⟩] (by simp) ?_
              · simpa using this
              · intro k hk
                simp only [List.get_eq_getElem] at hpri ⊢
                rcases List.mem_cons.mp hk with rfl | hk
                · simp
                · rcases List.mem_cons.mp hk with rfl | hk
                  · simp [hpri.1]
                  · rcases List.mem_cons.mp hk with rfl | hk
                    · simp [hpri.1, hpri.2]
                    · simp at hk
            · rw [Bool.or_eq_true]
              left
              rw [List.any_eq_true]
              refine ⟨(sort_hand_by_alt_value hand).get ⟨j0, hj0'⟩,
                hperm.subset ((sort_hand_by_alt_value hand).get_mem _ _), ?_⟩
              rw [Bool.and_eq_true]
              constructor
              · rw [bne_iff_ne]
                simp only [List.get_eq_getElem] at hvv ⊢
                exact fun hx => hvv (hx.symm)
              · rw [decide_eq_true_eq]
                rw [show countAltValue hand ((sort_hand_by_alt_value hand).get ⟨j0, hj0'⟩).altvalue =
                    countAltValue (sort_hand_by_alt_value hand)
                      ((sort_hand_by_alt_value hand).get ⟨j0, hj0'⟩).altvalue
                  from (hperm.countP_eq _).symm]
                have := length_le_countP_of_get (sort_hand_by_alt_value hand) hnd'
                  (fun c => c.altvalue == ((sort_hand_by_alt_value hand).get ⟨j0, hj0'⟩).altvalue)
                  [⟨j0, hj0'⟩, ⟨j0 + 1, hj1⟩] (by simp) ?_
                · simpa using this
                · intro k hk
                  simp only [List.get_eq_getElem] at hprj ⊢
                  rcases List.mem_cons.mp hk with rfl | hk
                  · simp
                  · rcases List.mem_cons.mp hk with rfl | hk
                    · simp [hprj]
                    · simp at hk
        case _ => exact absurd hsome (by simp)
    · rintro ⟨h5, hp⟩
      have hkey : ∃ istar jstar : ℕ,
          istar ≤ (sort_hand_by_alt_value hand).length - 3 ∧
          jstar < (sort_hand_by_alt_value hand).length - 1 ∧
          (jstar > istar + 2 ∨ jstar + 1 < istar) ∧
          fh_triple (sort_hand_by_alt_value hand) istar = true ∧
          fh_pair (sort_hand_by_alt_value hand) jstar = true := by
        rw [hasFullHouseP, List.any_eq_true] at hp
        obtain ⟨c, hc, hcc⟩ := hp
        rw [Bool.and_eq_true] at hcc
        obtain ⟨hc3, hrest⟩ := hcc
        rw [decide_eq_true_eq] at hc3
        obtain ⟨ia, hlea, hruna⟩ := alt_sorted_alt_run hand c.altvalue
        rw [Bool.or_eq_true] at hrest
        rcases hrest with hdany | hc5
        · rw [List.any_eq_true] at hdany
          obtain ⟨d, hd, hdd⟩ := hdany
          rw [Bool.and_eq_true] at hdd
          obtain ⟨hdne, hd2⟩ := hdd
          rw [bne_iff_ne] at hdne
          rw [decide_eq_true_eq] at hd2
          obtain ⟨ib, hleb, hrunb⟩ := alt_sorted_alt_run hand d.altvalue
          have horder := run_order (sort_hand_by_alt_value hand) Card.altvalue
            (by omega : 1 ≤ countAltValue hand c.altvalue)
            (by omega : 1 ≤ countAltValue hand d.altvalue)
            hruna hrunb (fun hx => hdne (hx.symm))
          rcases horder with horder | horder
          · refine ⟨ia, ib, ?_, ?_, ?_, ?_, ?_⟩
            · rw [hlen']; omega
            · rw [hlen']; omega
            · left; omega
            · have := fh_triple_of_run hruna 0 (by omega)
              rw [Nat.add_zero] at this
              exact this
            · have := fh_pair_of_run hrunb 0 (by omega)
              rw [Nat.add_zero] at this
              exact this
          · refine ⟨ia, ib, ?_, ?_, ?_, ?_, ?_⟩
            · rw [hlen']; omega
            · rw [hlen']; omega
            · right; omega
            · have := fh_triple_of_run hruna 0 (by omega)
              rw [Nat.add_zero] at this
              exact this
            · have := fh_pair_of_run hrunb 0 (by omega)
              rw [Nat.add_zero] at this
              exact this
        · rw [decide_eq_true_eq] at hc5
          refine ⟨ia + 2, ia, ?_, ?_, ?_, ?_, ?_⟩
          · rw [hlen']; omega
          · rw [hlen']; omega
          · right; omega
          · exact fh_triple_of_run hruna 2 (by omega)
          · have := fh_pair_of_run hruna 0 (by omega)
            rw [Nat.add_zero] at this
            exact this
      obtain ⟨istar, jstar, hiu, hju, hdisj, hpi, hpj⟩ := hkey
      have hinner : ((List.range ((sort_hand_by_alt_value hand).length - 1)).find?
          (fun j => decide (j > istar + 2 ∨ j + 1 < istar) &&
            decide (j < (sort_hand_by_alt_value hand).length - 1) &&
            fh_pair (sort_hand_by_alt_value hand) j)).isSome := by
        rw [List.find?_isSome]
        refine ⟨jstar, List.mem_range.mpr hju, ?_⟩
        rw [Bool.and_eq_true, Bool.and_eq_true]
        exact ⟨⟨decide_eq_true hdisj, decide_eq_true hju⟩, hpj⟩
      obtain ⟨j1, hj1⟩ := Option.isSome_iff_exists.mp hinner
      cases hfind : (downFrom ((sort_hand_by_alt_value hand).length - 3)).findSome?
          (fun i => if fh_triple (sort_hand_by_alt_value hand) i then
            ((List.range ((sort_hand_by_alt_value hand).length - 1)).find? (fun j =>
              decide (j > i + 2 ∨ j + 1 < i) &&
                decide (j < (sort_hand_by_alt_value hand).length - 1) &&
                fh_pair (sort_hand_by_alt_value hand) j)).map (fun j => (i, j))
          else none) with
      | some p => rfl
      | none =>
        exfalso
        rw [List.findSome?_eq_none_iff] at hfind
        have := hfind istar (by rw [mem_downFrom]; exact hiu)
        rw [if_pos hpi, hj1] at this
        exact absurd this (by simp)


lemma sort_by_suit_length (hand : List Card) :
    (sort_hand_by_suit hand).length = hand.length :=
  (sort_by_suit_perm hand).length_eq

/-- The suit-and-value sort is in particular sorted by suit alone. -/
lemma sort_by_suit_sorted_suitZ (hand : List Card) :
    (sort_hand_by_suit hand).Sorted
      (fun a b => ((a.suit : ℤ)) ≤ ((b.suit : ℤ))) := by
  refine (sort_by_suit_sorted hand).imp ?_
  intro a b h
  rcases h with h | ⟨h, -⟩
  · exact_mod_cast le_of_lt h
  · exact_mod_cast le_of_eq h

/-- A block of consecutive positions of one suit in the suit-sorted copy. -/
lemma suit_sorted_suit_run (hand : List Card) (s0 : ℕ) :
    ∃ i, i + countSuit hand s0 ≤ hand.length ∧
      ∀ t, t < countSuit hand s0 →
        (cardAt (sort_hand_by_suit hand) (i + t)).suit = s0 := by
  have hperm := sort_by_suit_perm hand
  obtain ⟨i, hle, hrun⟩ := sorted_key_run (fun c => (c.suit : ℤ)) (s0 : ℤ)
    (sort_hand_by_suit hand) (sort_by_suit_sorted_suitZ hand)
  have hcnt : (sort_hand_by_suit hand).countP (fun c => ((c.suit : ℤ)) == ((s0 : ℤ))) =
      countSuit hand s0 := by
    rw [show (sort_hand_by_suit hand).countP (fun c => ((c.suit : ℤ)) == ((s0 : ℤ))) =
        (sort_hand_by_suit hand).countP (fun c => c.suit == s0) from
      List.countP_congr (fun c _ => by simp)]
    exact hperm.countP_eq _
  rw [hcnt] at hle hrun
  rw [sort_by_suit_length] at hle
  refine ⟨i, hle, ?_⟩
  intro t ht
  have := hrun t ht
  exact_mod_cast this

/-- `extract_flush` finds a flush exactly on hands of five or more cards
holding five cards of one suit. -/
lemma extract_flush_found_iff (hand arranged : List Card)
    (hnd : hand.Nodup) (hstd : ∀ c ∈ hand, StandardCard c) :
    (extract_flush hand arranged).1 = true ↔
      5 ≤ hand.length ∧ hasFlushP hand = true := by
  unfold extract_flush
  by_cases hlen : hand.length < 5
  · rw [if_pos hlen]
    constructor
    · intro h
      exact absurd h (by simp)
    · intro hq
      exact absurd hq.1 (by omega)
  · rw [if_neg hlen]
    dsimp only
    have hperm := sort_by_suit_perm hand
    have hnd' : (sort_hand_by_suit hand).Nodup := hperm.nodup_iff.mpr hnd
    have hlen' : (sort_hand_by_suit hand).length = hand.length :=
      sort_by_suit_length hand
    constructor
    · intro h
      cases hfind : (downFrom ((sort_hand_by_suit hand).length - 5)).find?
          (fl_window (sort_hand_by_suit hand)) with
      | none => rw [hfind] at h; simp at h
      | some i =>
        refine ⟨by omega, ?_⟩
        have hwin := List.find?_some hfind
        have hmem := List.mem_of_find?_eq_some hfind
        rw [mem_downFrom] at hmem
        have hi4 : i + 4 < (sort_hand_by_suit hand).length := by omega
        have hi3 : i + 3 < (sort_hand_by_suit hand).length := by omega
        have hi2 : i + 2 < (sort_hand_by_suit hand).length := by omega
        have hi1 : i + 1 < (sort_hand_by_suit hand).length := by omega
        have hi0 : i < (sort_hand_by_suit hand).length := by omega
        rw [fl_window, decide_eq_true_eq] at hwin
        rw [cardAt_eq_get _ _ hi0, cardAt_eq_get _ _ hi1, cardAt_eq_get _ _ hi2,
          cardAt_eq_get _ _ hi3, cardAt_eq_get _ _ hi4] at hwin
        simp only [List.get_eq_getElem] at hwin
        rw [hasFlushP, List.any_eq_true]
        refine ⟨(sort_hand_by_suit hand).get ⟨i, hi0⟩,
          hperm.subset ((sort_hand_by_suit hand).get_mem _ _), ?_⟩
        rw [decide_eq_true_eq]
        rw [show countSuit hand ((sort_hand_by_suit hand).get ⟨i, hi0⟩).suit =
            countSuit (sort_hand_by_suit hand)
              ((sort_hand_by_suit hand).get ⟨i, hi0⟩).suit
          from (hperm.countP_eq _).symm]
        have := length_le_countP_of_get (sort_hand_by_suit hand) hnd'
          (fun c => c.suit == ((sort_hand_by_suit hand).get ⟨i, hi0⟩).suit)
          [⟨i, hi0⟩, ⟨i + 1, hi1⟩, ⟨i + 2, hi2⟩, ⟨i + 3, hi3⟩, ⟨i + 4, hi4⟩]
          (by simp) ?_
        · simpa using this
        · intro k hk
          rcases List.mem_cons.mp hk with rfl | hk
          · simp
          · rcases List.mem_cons.mp hk with rfl | hk
            · simp [hwin.1]
            · rcases List.mem_cons.mp hk with rfl | hk
              · simp [hwin.1, hwin.2.1]
              · rcases List.mem_cons.mp hk with rfl | hk
                · simp [hwin.1, hwin.2.1, hwin.2.2.1]
                · rcases List.mem_cons.mp hk with rfl | hk
                  · simp [hwin.1, hwin.2.1, hwin.2.2.1, hwin.2.2.2]
                  · simp at hk
    · rintro ⟨h5, hp⟩
      rw [hasFlushP, List.any_eq_true] at hp
      obtain ⟨c, hc, hcnt⟩ := hp
      rw [decide_eq_true_eq] at hcnt
      obtain ⟨i, hle, hrun⟩ := suit_sorted_suit_run hand c.suit
      have hw : fl_window (sort_hand_by_suit hand) i = true := by
        rw [fl_window, decide_eq_true_eq]
        have h0 := hrun 0 (by omega)
        have h1 := hrun 1 (by omega)
        have h2 := hrun 2 (by omega)
        have h3 := hrun 3 (by omega)
        have h4 := hrun 4 (by omega)
        rw [Nat.add_zero] at h0
        rw [h0, h1, h2, h3, h4]
        exact ⟨rfl, rfl, rfl, rfl⟩
      have hfind : ((downFrom ((sort_hand_by_suit hand).length - 5)).find?
          (fl_window (sort_hand_by_suit hand))).isSome := by
        rw [List.find?_isSome]
        refine ⟨i, ?_, hw⟩
        rw [mem_downFrom, sort_by_suit_length]
        omega
      obtain ⟨j, hj⟩ := Option.isSome_iff_exists.mp hfind
      rw [hj]
      repeat' split
      all_goals first | rfl | simp_all


lemma sort_by_value_length (hand : List Card) :
    (sort_hand_by_value hand).length = hand.length :=
  (sort_by_value_perm hand).length_eq

/-- In the value-sorted copy a strictly smaller value sits strictly
earlier. -/
lemma sorted_value_pos_lt {hand : List Card}
    {p q : Fin (sort_hand_by_value hand).length}
    (h : ((sort_hand_by_value hand).get p).value <
      ((sort_hand_by_value hand).get q).value) : p < q := by
  by_contra hle
  push_neg at hle
  rcases lt_or_eq_of_le hle with hlt | heq
  · have := List.Sorted.rel_get_of_lt (sort_by_value_sorted hand) hlt
    omega
  · rw [heq] at h
    omega

/-- Membership in the straight scan tuples. -/
lemma mem_straight_tuples {n : ℕ} {i j k m nn : ℕ} :
    (i, j, k, m, nn) ∈ straight_tuples n ↔
      i ≤ n - 5 ∧ i < j ∧ j ≤ n - 4 ∧ j < k ∧ k ≤ n - 3 ∧ k < m ∧ m ≤ n - 2 ∧
        m < nn ∧ nn ≤ n - 1 := by
  simp only [straight_tuples, List.mem_flatMap, List.mem_map, mem_downFrom,
    mem_downTo, Prod.mk.injEq]
  constructor
  · rintro ⟨i', hi', j', hj', k', hk', m', hm', nn', hnn', rfl, rfl, rfl, rfl, rfl⟩
    omega
  · rintro ⟨h1, h2, h3, h4, h5, h6, h7, h8, h9⟩
    exact ⟨i, h1, j, ⟨h2, h3⟩, k, ⟨h4, h5⟩, m, ⟨h6, h7⟩, nn, ⟨h8, h9⟩,
      rfl, rfl, rfl, rfl, rfl⟩

/-- `extract_straight` finds a straight exactly on hands of five or more
cards holding five consecutive face values. -/
lemma extract_straight_found_iff (hand arranged : List Card)
    (hnd : hand.Nodup) (hstd : ∀ c ∈ hand, StandardCard c) :
    (extract_straight hand arranged).1 = true ↔
      5 ≤ hand.length ∧ hasStraightP hand = true := by
  unfold extract_straight
  by_cases hlen : hand.length < 5
  · rw [if_pos hlen]
    constructor
    · intro h
      exact absurd h (by simp)
    · intro hq
      exact absurd hq.1 (by omega)
  · rw [if_neg hlen]
    dsimp only
    have hperm := sort_by_value_perm hand
    have hlen' : (sort_hand_by_value hand).length = hand.length :=
      sort_by_value_length hand
    constructor
    · intro h
      cases hfind : (straight_tuples (sort_hand_by_value hand).length).find?
          (st_tuple_ok (sort_hand_by_value hand)) with
      | none => rw [hfind] at h; simp at h
      | some p =>
        refine ⟨by omega, ?_⟩
        obtain ⟨i, j, k, m, nn⟩ := p
        have hok := List.find?_some hfind
        have hmem := List.mem_of_find?_eq_some hfind
        rw [mem_straight_tuples] at hmem
        rw [st_tuple_ok, Bool.and_eq_true] at hok
        obtain ⟨hnn, hvals⟩ := hok
        rw [decide_eq_true_eq] at hnn hvals
        dsimp only at hnn hvals
        obtain ⟨hv1, hv2, hv3, hv4⟩ := hvals
        have hi : i < (sort_hand_by_value hand).length := by omega
        have hj : j < (sort_hand_by_value hand).length := by omega
        have hk : k < (sort_hand_by_value hand).length := by omega
        have hm : m < (sort_hand_by_value hand).length := by omega
        rw [hasStraightP, List.any_eq_true]
        refine ⟨cardAt (sort_hand_by_value hand) i,
          hperm.subset (cardAt_mem _ _ hi), ?_⟩
        rw [List.all_eq_true]
        intro t ht
        rw [List.mem_range] at ht
        rw [List.any_eq_true]
        interval_cases t
        · exact ⟨cardAt (sort_hand_by_value hand) i, hperm.subset (cardAt_mem _ _ hi),
            by simp⟩
        · exact ⟨cardAt (sort_hand_by_value hand) j, hperm.subset (cardAt_mem _ _ hj),
            by simp; omega⟩
        · exact ⟨cardAt (sort_hand_by_value hand) k, hperm.subset (cardAt_mem _ _ hk),
            by simp; omega⟩
        · exact ⟨cardAt (sort_hand_by_value hand) m, hperm.subset (cardAt_mem _ _ hm),
            by simp; omega⟩
        · exact ⟨cardAt (sort_hand_by_value hand) nn, hperm.subset (cardAt_mem _ _ (by omega)),
            by simp; omega⟩
    · rintro ⟨h5, hp⟩
      rw [hasStraightP, List.any_eq_true] at hp
      obtain ⟨c, hc, hall⟩ := hp
      rw [List.all_eq_true] at hall
      have hwit : ∀ t : ℕ, t < 5 → ∃ pt : Fin (sort_hand_by_value hand).length,
          ((sort_hand_by_value hand).get pt).value = c.value + (t : ℤ) := by
        intro t ht
        have := hall t (List.mem_range.mpr ht)
        rw [List.any_eq_true] at this
        obtain ⟨d, hd, hdv⟩ := this
        rw [beq_iff_eq] at hdv
        have : d ∈ sort_hand_by_value hand := hperm.mem_iff.mpr hd
        obtain ⟨pt, hpt⟩ := List.mem_iff_get.mp this
        exact ⟨pt, by rw [hpt, hdv]⟩
      obtain ⟨p0, hp0⟩ := hwit 0 (by omega)
      obtain ⟨p1, hp1⟩ := hwit 1 (by omega)
      obtain ⟨p2, hp2⟩ := hwit 2 (by omega)
      obtain ⟨p3, hp3⟩ := hwit 3 (by omega)
      obtain ⟨p4, hp4⟩ := hwit 4 (by omega)
      have h01 : p0 < p1 := sorted_value_pos_lt (by omega)
      have h12 : p1 < p2 := sorted_value_pos_lt (by omega)
      have h23 : p2 < p3 := sorted_value_pos_lt (by omega)
      have h34 : p3 < p4 := sorted_value_pos_lt (by omega)
      have hok : st_tuple_ok (sort_hand_by_value hand)
          ((p0 : ℕ), (p1 : ℕ), (p2 : ℕ), (p3 : ℕ), (p4 : ℕ)) = true := by
        rw [st_tuple_ok, Bool.and_eq_true]
        constructor
        · rw [decide_eq_true_eq]
          exact p4.isLt
        · rw [decide_eq_true_eq]
          rw [cardAt_eq_get _ _ p0.isLt, cardAt_eq_get _ _ p1.isLt,
            cardAt_eq_get _ _ p2.isLt, cardAt_eq_get _ _ p3.isLt,
            cardAt_eq_get _ _ p4.isLt]
          refine ⟨?_, ?_, ?_, ?_⟩ <;> simp only [Fin.eta] <;> omega
      have hmem : ((p0 : ℕ), (p1 : ℕ), (p2 : ℕ), (p3 : ℕ), (p4 : ℕ)) ∈
          straight_tuples (sort_hand_by_value hand).length := by
        rw [mem_straight_tuples]
        have := p4.isLt
        have h0 := p0.isLt
        refine ⟨?_, ?_, ?_, ?_, ?_, ?_, ?_, ?_, ?_⟩ <;> omega
      have hfind : ((straight_tuples (sort_hand_by_value hand).length).find?
          (st_tuple_ok (sort_hand_by_value hand))).isSome := by
        rw [List.find?_isSome]
        exact ⟨_, hmem, hok⟩
      obtain ⟨q, hq⟩ := Option.isSome_iff_exists.mp hfind
      rw [hq]


lemma card_eq_of_suit_value {c d : Card} (hs : c.suit = d.suit)
    (hv : c.value = d.value) : c = d := by
  obtain ⟨s, v⟩ := c
  obtain ⟨s', v'⟩ := d
  simp_all

lemma std_suit_ne_joker {c : Card} (h : StandardCard c) : c.suit ≠ SUIT_JOKER := by
  obtain ⟨h1, -⟩ := h
  intro hx
  rw [SUIT_JOKER] at hx
  omega

/-- In the suit-and-altvalue-sorted copy of a standard nodup hand, the
same-suit successor in altvalue of the entry at `p` sits exactly at
`p + 1`. -/
lemma suit_sorted_next {hand : List Card} (hnd : hand.Nodup)
    (hstd : ∀ c ∈ hand, StandardCard c)
    {p : ℕ} (hp : p < (sort_hand_by_suit hand).length) {d : Card}
    (hd : d ∈ sort_hand_by_suit hand)
    (hsuit : d.suit = (cardAt (sort_hand_by_suit hand) p).suit)
    (halt : d.altvalue = (cardAt (sort_hand_by_suit hand) p).altvalue + 1) :
    p + 1 < (sort_hand_by_suit hand).length ∧
      cardAt (sort_hand_by_suit hand) (p + 1) = d := by
  have hsorted := sort_by_suit_sorted hand
  have hperm := sort_by_suit_perm hand
  have hnd' : (sort_hand_by_suit hand).Nodup := hperm.nodup_iff.mpr hnd
  have hstd' : ∀ c ∈ sort_hand_by_suit hand, StandardCard c :=
    fun c hc => hstd c (hperm.subset hc)
  obtain ⟨q, hq⟩ := List.mem_iff_get.mp hd
  rw [cardAt_eq_get _ _ hp] at hsuit halt
  have hpq : p < q.1 := by
    by_contra hle
    push_neg at hle
    rcases lt_or_eq_of_le hle with hlt | heq
    · have hrel := List.Sorted.rel_get_of_lt hsorted
        (show q < (⟨p, hp⟩ : Fin (sort_hand_by_suit hand).length) from hlt)
      rw [hq] at hrel
      rcases hrel with h | ⟨h1, h2⟩
      · omega
      · omega
    · have : (sort_hand_by_suit hand).get q =
          (sort_hand_by_suit hand).get ⟨p, hp⟩ := by
        congr 1
        exact Fin.ext heq
      rw [hq] at this
      rw [this] at halt
      omega
  have hp1 : p + 1 < (sort_hand_by_suit hand).length := by
    have := q.isLt
    omega
  refine ⟨hp1, ?_⟩
  rw [cardAt_eq_get _ _ hp1]
  rcases eq_or_lt_of_le (show p + 1 ≤ q.1 from hpq) with heq | hlt
  · have : (⟨p + 1, hp1⟩ : Fin (sort_hand_by_suit hand).length) = q := Fin.ext heq
    rw [this, hq]
  · have hrel1 := List.Sorted.rel_get_of_lt hsorted
      (show (⟨p, hp⟩ : Fin (sort_hand_by_suit hand).length) < ⟨p + 1, hp1⟩ from
        by exact Nat.lt_succ_self p)
    have hrel2 := List.Sorted.rel_get_of_lt hsorted
      (show (⟨p + 1, hp1⟩ : Fin (sort_hand_by_suit hand).length) < q from hlt)
    rw [hq] at hrel2
    have hesuit : ((sort_hand_by_suit hand).get ⟨p + 1, hp1⟩).suit =
        ((sort_hand_by_suit hand).get ⟨p, hp⟩).suit := by
      rcases hrel1 with h | ⟨h1, -⟩ <;> rcases hrel2 with h' | ⟨h1', -⟩ <;> omega
    have healt_lo : ((sort_hand_by_suit hand).get ⟨p, hp⟩).altvalue ≤
        ((sort_hand_by_suit hand).get ⟨p + 1, hp1⟩).altvalue := by
      rcases hrel1 with h | ⟨-, h2⟩
      · omega
      · exact h2
    have healt_hi : ((sort_hand_by_suit hand).get ⟨p + 1, hp1⟩).altvalue ≤
        d.altvalue := by
      rcases hrel2 with h' | ⟨-, h2'⟩
      · exfalso
        omega
      · exact h2'
    rcases eq_or_lt_of_le healt_lo with healt | healt
    · exfalso
      have : (sort_hand_by_suit hand).get ⟨p + 1, hp1⟩ =
          (sort_hand_by_suit hand).get ⟨p, hp⟩ :=
        std_card_eq_of_suit_altvalue
          (hstd' _ ((sort_hand_by_suit hand).get_mem _ _))
          (hstd' _ ((sort_hand_by_suit hand).get_mem _ _))
          hesuit healt.symm
      have := List.nodup_iff_injective_get.mp hnd' this
      simp only [Fin.mk.injEq] at this
      omega
    · exact std_card_eq_of_suit_altvalue
        (hstd' _ ((sort_hand_by_suit hand).get_mem _ _))
        (hstd' _ (hq ▸ (sort_hand_by_suit hand).get_mem q.1 q.isLt))
        (by omega) (by omega)


/-- `extract_royal_flush` finds its window exactly on hands of five or more
cards holding a one-suit run of five consecutive alternate values. -/
lemma extract_royal_flush_found_iff (hand arranged : List Card)
    (hnd : hand.Nodup) (hstd : ∀ c ∈ hand, StandardCard c) :
    (extract_royal_flush hand arranged).1 = true ↔
      5 ≤ hand.length ∧ hasAltRunP hand = true := by
  unfold extract_royal_flush
  by_cases hlen : hand.length < 5
  · rw [if_pos hlen]
    constructor
    · intro h
      exact absurd h (by simp)
    · intro hq
      exact absurd hq.1 (by omega)
  · rw [if_neg hlen]
    dsimp only
    have hperm := sort_by_suit_perm hand
    have hlen' : (sort_hand_by_suit hand).length = hand.length :=
      sort_by_suit_length hand
    constructor
    · intro h
      cases hfind : (List.range ((sort_hand_by_suit hand).length - 4)).find?
          (rf_window (sort_hand_by_suit hand)) with
      | none => rw [hfind] at h; simp at h
      | some i =>
        refine ⟨by omega, ?_⟩
        have hwin := List.find?_some hfind
        have hmem := List.mem_of_find?_eq_some hfind
        rw [List.mem_range] at hmem
        have hi4 : i + 4 < (sort_hand_by_suit hand).length := by omega
        have hi3 : i + 3 < (sort_hand_by_suit hand).length := by omega
        have hi2 : i + 2 < (sort_hand_by_suit hand).length := by omega
        have hi1 : i + 1 < (sort_hand_by_suit hand).length := by omega
        have hi0 : i < (sort_hand_by_suit hand).length := by omega
        rw [rf_window, decide_eq_true_eq] at hwin
        obtain ⟨ha1, ha2, ha3, ha4, hs1, hs2, hs3, hs4⟩ := hwin
        rw [hasAltRunP, List.any_eq_true]
        refine ⟨cardAt (sort_hand_by_suit hand) i,
          hperm.subset (cardAt_mem _ _ hi0), ?_⟩
        rw [List.all_eq_true]
        intro t ht
        rw [List.mem_range] at ht
        rw [List.any_eq_true]
        interval_cases t
        · exact ⟨cardAt (sort_hand_by_suit hand) i,
            hperm.subset (cardAt_mem _ _ hi0), by simp⟩
        · exact ⟨cardAt (sort_hand_by_suit hand) (i + 1),
            hperm.subset (cardAt_mem _ _ hi1), by simp [hs1.symm]; omega⟩
        · exact ⟨cardAt (sort_hand_by_suit hand) (i + 2),
            hperm.subset (cardAt_mem _ _ hi2),
            by simp [hs1.symm, hs2.symm, hs1.trans hs2 |>.symm]; omega⟩
        · exact ⟨cardAt (sort_hand_by_suit hand) (i + 3),
            hperm.subset (cardAt_mem _ _ hi3),
            by simp [(hs1.trans (hs2.trans hs3)).symm]; omega⟩
        · exact ⟨cardAt (sort_hand_by_suit hand) (i + 4),
            hperm.subset (cardAt_mem _ _ hi4),
            by simp [(hs1.trans (hs2.trans (hs3.trans hs4))).symm]; omega⟩
    · rintro ⟨h5, hp⟩
      rw [hasAltRunP, List.any_eq_true] at hp
      obtain ⟨c, hc, hall⟩ := hp
      rw [List.all_eq_true] at hall
      have hwit : ∀ t : ℕ, t < 5 → ∃ d ∈ sort_hand_by_suit hand,
          d.suit = c.suit ∧ d.altvalue = c.altvalue + (t : ℤ) := by
        intro t ht
        have := hall t (List.mem_range.mpr ht)
        rw [List.any_eq_true] at this
        obtain ⟨d, hd, hdd⟩ := this
        rw [Bool.and_eq_true, beq_iff_eq, beq_iff_eq] at hdd
        exact ⟨d, hperm.mem_iff.mpr hd, hdd.1, hdd.2⟩
      obtain ⟨d0, hd0m, hd0s, hd0a⟩ := hwit 0 (by omega)
      obtain ⟨d1, hd1m, hd1s, hd1a⟩ := hwit 1 (by omega)
      obtain ⟨d2, hd2m, hd2s, hd2a⟩ := hwit 2 (by omega)
      obtain ⟨d3, hd3m, hd3s, hd3a⟩ := hwit 3 (by omega)
      obtain ⟨d4, hd4m, hd4s, hd4a⟩ := hwit 4 (by omega)
      obtain ⟨p0, hp0⟩ := List.mem_iff_get.mp hd0m
      have hq0 : cardAt (sort_hand_by_suit hand) p0.1 = d0 := by
        rw [cardAt_eq_get _ _ p0.isLt, Fin.eta, hp0]
      obtain ⟨hb1, he1⟩ := suit_sorted_next hnd hstd p0.isLt hd1m
        (by rw [hq0, hd1s, hd0s]) (by rw [hq0]; omega)
      obtain ⟨hb2, he2⟩ := suit_sorted_next hnd hstd hb1 hd2m
        (by rw [he1, hd2s, hd1s]) (by rw [he1]; omega)
      obtain ⟨hb3, he3⟩ := suit_sorted_next hnd hstd hb2 hd3m
        (by rw [he2, hd3s, hd2s]) (by rw [he2]; omega)
      obtain ⟨hb4, he4⟩ := suit_sorted_next hnd hstd hb3 hd4m
        (by rw [he3, hd4s, hd3s]) (by rw [he3]; omega)
      have hw : rf_window (sort_hand_by_suit hand) p0.1 = true := by
        rw [rf_window, decide_eq_true_eq]
        have e1 : p0.1 + 1 + 1 = p0.1 + 2 := by omega
        have e2 : p0.1 + 2 + 1 = p0.1 + 3 := by omega
        have e3 : p0.1 + 3 + 1 = p0.1 + 4 := by omega
        rw [hq0]
        rw [he1, e1, he2, e2, he3, e3, he4]
        refine ⟨by omega, by omega, by omega, by omega, ?_, ?_, ?_, ?_⟩
        · rw [hd0s, hd1s]
        · rw [hd1s, hd2s]
        · rw [hd2s, hd3s]
        · rw [hd3s, hd4s]
      have hfind : ((List.range ((sort_hand_by_suit hand).length - 4)).find?
          (rf_window (sort_hand_by_suit hand))).isSome := by
        rw [List.find?_isSome]
        refine ⟨p0.1, ?_, hw⟩
        rw [List.mem_range]
        omega
      obtain ⟨j, hj⟩ := Option.isSome_iff_exists.mp hfind
      rw [hj]
      rfl


lemma suit_name_rank_inj {a b : ℕ} (ha : a < 4) (hb : b < 4)
    (h : suit_name_rank a = suit_name_rank b) : a = b := by
  interval_cases a <;> interval_cases b <;> revert h <;> decide

/-- In the card-id-sorted copy of a standard nodup hand, the same-suit
successor in face value of the entry at `p` sits exactly at `p + 1`. -/
lemma card_id_sorted_next {hand : List Card} (hnd : hand.Nodup)
    (hstd : ∀ c ∈ hand, StandardCard c)
    {p : ℕ} (hp : p < (sort_hand_by_card_id hand).length) {d : Card}
    (hd : d ∈ sort_hand_by_card_id hand)
    (hsuit : d.suit = (cardAt (sort_hand_by_card_id hand) p).suit)
    (hval : d.value = (cardAt (sort_hand_by_card_id hand) p).value + 1) :
    p + 1 < (sort_hand_by_card_id hand).length ∧
      cardAt (sort_hand_by_card_id hand) (p + 1) = d := by
  have hsorted := sort_by_card_id_sorted hand
  have hperm := sort_by_card_id_perm hand
  have hnd' : (sort_hand_by_card_id hand).Nodup := hperm.nodup_iff.mpr hnd
  have hstd' : ∀ c ∈ sort_hand_by_card_id hand, StandardCard c :=
    fun c hc => hstd c (hperm.subset hc)
  obtain ⟨q, hq⟩ := List.mem_iff_get.mp hd
  rw [cardAt_eq_get _ _ hp] at hsuit hval
  have hrank : suit_name_rank d.suit =
      suit_name_rank ((sort_hand_by_card_id hand).get ⟨p, hp⟩).suit := by
    rw [hsuit]
  have hpq : p < q.1 := by
    by_contra hle
    push_neg at hle
    rcases lt_or_eq_of_le hle with hlt | heq
    · have hrel := List.Sorted.rel_get_of_lt hsorted
        (show q < (⟨p, hp⟩ : Fin (sort_hand_by_card_id hand).length) from hlt)
      rw [hq] at hrel
      rcases hrel with h | ⟨h1, h2⟩
      · omega
      · omega
    · have : (sort_hand_by_card_id hand).get q =
          (sort_hand_by_card_id hand).get ⟨p, hp⟩ := by
        congr 1
        exact Fin.ext heq
      rw [hq] at this
      rw [this] at hval
      omega
  have hp1 : p + 1 < (sort_hand_by_card_id hand).length := by
    have := q.isLt
    omega
  refine ⟨hp1, ?_⟩
  rw [cardAt_eq_get _ _ hp1]
  rcases eq_or_lt_of_le (show p + 1 ≤ q.1 from hpq) with heq | hlt
  · have : (⟨p + 1, hp1⟩ : Fin (sort_hand_by_card_id hand).length) = q := Fin.ext heq
    rw [this, hq]
  · have hrel1 := List.Sorted.rel_get_of_lt hsorted
      (show (⟨p, hp⟩ : Fin (sort_hand_by_card_id hand).length) < ⟨p + 1, hp1⟩ from
        by exact Nat.lt_succ_self p)
    have hrel2 := List.Sorted.rel_get_of_lt hsorted
      (show (⟨p + 1, hp1⟩ : Fin (sort_hand_by_card_id hand).length) < q from hlt)
    rw [hq] at hrel2
    have herank : suit_name_rank (((sort_hand_by_card_id hand).get ⟨p + 1, hp1⟩).suit) =
        suit_name_rank (((sort_hand_by_card_id hand).get ⟨p, hp⟩).suit) := by
      rcases hrel1 with h | ⟨h1, -⟩ <;> rcases hrel2 with h' | ⟨h1', -⟩ <;> omega
    have hesuit : ((sort_hand_by_card_id hand).get ⟨p + 1, hp1⟩).suit =
        ((sort_hand_by_card_id hand).get ⟨p, hp⟩).suit := by
      refine suit_name_rank_inj ?_ ?_ herank
      · exact (hstd' _ ((sort_hand_by_card_id hand).get_mem _ _)).1
      · exact (hstd' _ ((sort_hand_by_card_id hand).get_mem _ _)).1
    have hval_lo : ((sort_hand_by_card_id hand).get ⟨p, hp⟩).value ≤
        ((sort_hand_by_card_id hand).get ⟨p + 1, hp1⟩).value := by
      rcases hrel1 with h | ⟨-, h2⟩
      · omega
      · exact h2
    have hval_hi : ((sort_hand_by_card_id hand).get ⟨p + 1, hp1⟩).value ≤
        d.value := by
      rcases hrel2 with h' | ⟨-, h2'⟩
      · exfalso
        have hdr : suit_name_rank (((sort_hand_by_card_id hand).get ⟨p + 1, hp1⟩).suit) =
            suit_name_rank d.suit := by omega
        omega
      · exact h2'
    rcases eq_or_lt_of_le hval_lo with hveq | hvlt
    · exfalso
      have : (sort_hand_by_card_id hand).get ⟨p + 1, hp1⟩ =
          (sort_hand_by_card_id hand).get ⟨p, hp⟩ :=
        card_eq_of_suit_value hesuit hveq.symm
      have := List.nodup_iff_injective_get.mp hnd' this
      simp only [Fin.mk.injEq] at this
      omega
    · refine card_eq_of_suit_value ?_ (by omega)
      rw [hesuit, hsuit.symm]


lemma sort_by_card_id_length (hand : List Card) :
    (sort_hand_by_card_id hand).length = hand.length :=
  (sort_by_card_id_perm hand).length_eq

/-- `extract_straight_flush` finds its window exactly on hands of five or
more cards holding a one-suit run of five consecutive face values. -/
lemma extract_straight_flush_found_iff (hand arranged : List Card)
    (hnd : hand.Nodup) (hstd : ∀ c ∈ hand, StandardCard c) :
    (extract_straight_flush hand arranged).1 = true ↔
      5 ≤ hand.length ∧ hasValueRunP hand = true := by
  unfold extract_straight_flush
  by_cases hlen : hand.length < 5
  · rw [if_pos hlen]
    constructor
    · intro h
      exact absurd h (by simp)
    · intro hq
      exact absurd hq.1 (by omega)
  · rw [if_neg hlen]
    dsimp only
    have hperm := sort_by_card_id_perm hand
    have hlen' : (sort_hand_by_card_id hand).length = hand.length :=
      sort_by_card_id_length hand
    constructor
    · intro h
      cases hfind : (List.range ((sort_hand_by_card_id hand).length - 4)).find?
          (sf_window (sort_hand_by_card_id hand)) with
      | none => rw [hfind] at h; simp at h
      | some i =>
        refine ⟨by omega, ?_⟩
        have hwin := List.find?_some hfind
        have hmem := List.mem_of_find?_eq_some hfind
        rw [List.mem_range] at hmem
        have hi4 : i + 4 < (sort_hand_by_card_id hand).length := by omega
        have hi3 : i + 3 < (sort_hand_by_card_id hand).length := by omega
        have hi2 : i + 2 < (sort_hand_by_card_id hand).length := by omega
        have hi1 : i + 1 < (sort_hand_by_card_id hand).length := by omega
        have hi0 : i < (sort_hand_by_card_id hand).length := by omega
        rw [sf_window, decide_eq_true_eq] at hwin
        obtain ⟨ha1, ha2, ha3, ha4, hs1, hs2, hs3, hs4⟩ := hwin
        rw [hasValueRunP, List.any_eq_true]
        refine ⟨cardAt (sort_hand_by_card_id hand) i,
          hperm.subset (cardAt_mem _ _ hi0), ?_⟩
        rw [List.all_eq_true]
        intro t ht
        rw [List.mem_range] at ht
        rw [List.any_eq_true]
        interval_cases t
        · exact ⟨cardAt (sort_hand_by_card_id hand) i,
            hperm.subset (cardAt_mem _ _ hi0), by simp⟩
        · exact ⟨cardAt (sort_hand_by_card_id hand) (i + 1),
            hperm.subset (cardAt_mem _ _ hi1), by simp [hs1.symm]; omega⟩
        · exact ⟨cardAt (sort_hand_by_card_id hand) (i + 2),
            hperm.subset (cardAt_mem _ _ hi2),
            by simp [(hs1.trans hs2).symm]; omega⟩
        · exact ⟨cardAt (sort_hand_by_card_id hand) (i + 3),
            hperm.subset (cardAt_mem _ _ hi3),
            by simp [(hs1.trans (hs2.trans hs3)).symm]; omega⟩
        · exact ⟨cardAt (sort_hand_by_card_id hand) (i + 4),
            hperm.subset (cardAt_mem _ _ hi4),
            by simp [(hs1.trans (hs2.trans (hs3.trans hs4))).symm]; omega⟩
    · rintro ⟨h5, hp⟩
      rw [hasValueRunP, List.any_eq_true] at hp
      obtain ⟨c, hc, hall⟩ := hp
      rw [List.all_eq_true] at hall
      have hwit : ∀ t : ℕ, t < 5 → ∃ d ∈ sort_hand_by_card_id hand,
          d.suit = c.suit ∧ d.value = c.value + (t : ℤ) := by
        intro t ht
        have := hall t (List.mem_range.mpr ht)
        rw [List.any_eq_true] at this
        obtain ⟨d, hd, hdd⟩ := this
        rw [Bool.and_eq_true, beq_iff_eq, beq_iff_eq] at hdd
        exact ⟨d, hperm.mem_iff.mpr hd, hdd.1, hdd.2⟩
      obtain ⟨d0, hd0m, hd0s, hd0a⟩ := hwit 0 (by omega)
      obtain ⟨d1, hd1m, hd1s, hd1a⟩ := hwit 1 (by omega)
      obtain ⟨d2, hd2m, hd2s, hd2a⟩ := hwit 2 (by omega)
      obtain ⟨d3, hd3m, hd3s, hd3a⟩ := hwit 3 (by omega)
      obtain ⟨d4, hd4m, hd4s, hd4a⟩ := hwit 4 (by omega)
      obtain ⟨p0, hp0⟩ := List.mem_iff_get.mp hd0m
      have hq0 : cardAt (sort_hand_by_card_id hand) p0.1 = d0 := by
        rw [cardAt_eq_get _ _ p0.isLt, Fin.eta, hp0]
      obtain ⟨hb1, he1⟩ := card_id_sorted_next hnd hstd p0.isLt hd1m
        (by rw [hq0, hd1s, hd0s]) (by rw [hq0]; omega)
      obtain ⟨hb2, he2⟩ := card_id_sorted_next hnd hstd hb1 hd2m
        (by rw [he1, hd2s, hd1s]) (by rw [he1]; omega)
      obtain ⟨hb3, he3⟩ := card_id_sorted_next hnd hstd hb2 hd3m
        (by rw [he2, hd3s, hd2s]) (by rw [he2]; omega)
      obtain ⟨hb4, he4⟩ := card_id_sorted_next hnd hstd hb3 hd4m
        (by rw [he3, hd4s, hd3s]) (by rw [he3]; omega)
      have hw : sf_window (sort_hand_by_card_id hand) p0.1 = true := by
        rw [sf_window, decide_eq_true_eq]
        have e1 : p0.1 + 1 + 1 = p0.1 + 2 := by omega
        have e2 : p0.1 + 2 + 1 = p0.1 + 3 := by omega
        have e3 : p0.1 + 3 + 1 = p0.1 + 4 := by omega
        rw [hq0]
        rw [he1, e1, he2, e2, he3, e3, he4]
        refine ⟨by omega, by omega, by omega, by omega, ?_, ?_, ?_, ?_⟩
        · rw [hd0s, hd1s]
        · rw [hd1s, hd2s]
        · rw [hd2s, hd3s]
        · rw [hd3s, hd4s]
      have hfind : ((List.range ((sort_hand_by_card_id hand).length - 4)).find?
          (sf_window (sort_hand_by_card_id hand))).isSome := by
        rw [List.find?_isSome]
        refine ⟨p0.1, ?_, hw⟩
        rw [List.mem_range]
        omega
      obtain ⟨j, hj⟩ := Option.isSome_iff_exists.mp hfind
      rw [hj]
      rfl


/-- Erasing a nodup list of members splits the hand as a permutation. -/
lemma perm_eraseFold : ∀ (cards : List Card) (hand : List Card), hand.Nodup →
    cards.Nodup → (∀ c ∈ cards, c ∈ hand) →
    List.Perm hand (cards ++ cards.foldl List.erase hand) := by
  intro cards
  induction cards with
  | nil =>
    intro hand _ _ _
    simp
  | cons c cs ih =>
    intro hand hnd hcnd hmem
    have hc : c ∈ hand := hmem c (by simp)
    obtain ⟨hcn, hcsnd⟩ := List.nodup_cons.mp hcnd
    have h2 := ih (hand.erase c) (hnd.erase c) hcsnd ?_
    · have h1 : List.Perm hand (c :: hand.erase c) := List.perm_cons_erase hc
      have h3 : List.Perm (c :: hand.erase c)
          (c :: (cs ++ cs.foldl List.erase (hand.erase c))) := h2.cons c
      have h4 : (c :: cs) ++ (c :: cs).foldl List.erase hand =
          c :: (cs ++ cs.foldl List.erase (hand.erase c)) := by
        rw [List.cons_append, List.foldl_cons]
      rw [h4]
      exact h1.trans h3
    · intro d hd
      have hdc : d ≠ c := fun hx => hcn (hx ▸ hd)
      exact (List.mem_erase_of_ne hdc).mpr (hmem d (by simp [hd]))


lemma cardAt_ne {s : List Card} (hnd : s.Nodup) {a b : ℕ} (ha : a < s.length)
    (hb : b < s.length) (hab : a ≠ b) : cardAt s a ≠ cardAt s b := by
  rw [cardAt_eq_get _ _ ha, cardAt_eq_get _ _ hb]
  intro h
  have := List.nodup_iff_injective_get.mp hnd h
  simp only [Fin.mk.injEq] at this
  exact hab this

lemma realPart_cons_joker (l : List Card) :
    realPart (Card.joker :: l) = realPart l := by
  simp [realPart, Card.joker, SUIT_JOKER]

/-- Conservation package: removing the cards found at distinct positions of
a sorted copy splits the hand as a permutation, and those cards are all
real. -/
lemma eraseIdx_conservation (hand : List Card) (hnd : hand.Nodup)
    (hjf : ∀ c ∈ hand, c.suit ≠ SUIT_JOKER) (s : List Card)
    (hperm : List.Perm s hand) (idxs : List ℕ) (hidx : idxs.Nodup)
    (hb : ∀ i ∈ idxs, i < s.length) :
    List.Perm hand ((idxs.map (cardAt s)) ++
        (idxs.map (cardAt s)).foldl List.erase hand) ∧
      realPart (idxs.map (cardAt s)) = idxs.map (cardAt s) := by
  have hnd' : s.Nodup := hperm.nodup_iff.mpr hnd
  have hcards_nd : (idxs.map (cardAt s)).Nodup := by
    refine hidx.map_on ?_
    intro a ha b hb' heq
    by_contra hne
    exact cardAt_ne hnd' (hb a ha) (hb b hb') hne heq
  have hcards_mem : ∀ c ∈ idxs.map (cardAt s), c ∈ hand := by
    intro c hc
    obtain ⟨i, hi, rfl⟩ := List.mem_map.mp hc
    exact hperm.subset (cardAt_mem _ _ (hb i hi))
  refine ⟨perm_eraseFold _ hand hnd hcards_nd hcards_mem, ?_⟩
  exact realPart_eq_self (fun c hc => hjf c (hcards_mem c hc))

/-- Success structure of `extract_royal_flush`: the arranged buffer grows
by one 5-card block and the hand splits off exactly that block. -/
lemma extract_royal_flush_success (hand arranged : List Card)
    (hnd : hand.Nodup) (hjf : ∀ c ∈ hand, c.suit ≠ SUIT_JOKER)
    (h : (extract_royal_flush hand arranged).1 = true) :
    ∃ block hand2, extract_royal_flush hand arranged = (true, hand2, arranged ++ block) ∧
      block.length = 5 ∧ List.Perm hand (realPart block ++ hand2) := by
  unfold extract_royal_flush at h ⊢
  by_cases hlen : hand.length < 5
  · rw [if_pos hlen] at h
    exact absurd h (by simp)
  · rw [if_neg hlen] at h ⊢
    dsimp only at h ⊢
    cases hfind : (List.range ((sort_hand_by_suit hand).length - 4)).find?
        (rf_window (sort_hand_by_suit hand)) with
    | none => rw [hfind] at h; exact absurd h (by simp)
    | some i =>
      have hmem := List.mem_of_find?_eq_some hfind
      rw [List.mem_range] at hmem
      have hbd : ∀ t ∈ [i + 4, i + 3, i + 2, i + 1, i],
          t < (sort_hand_by_suit hand).length := by
        intro t ht
        simp only [List.mem_cons, List.not_mem_nil, or_false] at ht
        rcases ht with rfl | rfl | rfl | rfl | rfl <;> omega
      obtain ⟨hpp, hrp⟩ := eraseIdx_conservation hand hnd hjf
        (sort_hand_by_suit hand) (sort_by_suit_perm hand)
        [i + 4, i + 3, i + 2, i + 1, i] (by simp) hbd
      refine ⟨[i + 4, i + 3, i + 2, i + 1, i].map (cardAt (sort_hand_by_suit hand)),
        ([i + 4, i + 3, i + 2, i + 1, i].map (cardAt (sort_hand_by_suit hand))).foldl
          List.erase hand, rfl, by simp, ?_⟩
      rw [hrp]
      exact hpp

/-- Success structure of `extract_straight_flush`. -/
lemma extract_straight_flush_success (hand arranged : List Card)
    (hnd : hand.Nodup) (hjf : ∀ c ∈ hand, c.suit ≠ SUIT_JOKER)
    (h : (extract_straight_flush hand arranged).1 = true) :
    ∃ block hand2, extract_straight_flush hand arranged = (true, hand2, arranged ++ block) ∧
      block.length = 5 ∧ List.Perm hand (realPart block ++ hand2) := by
  unfold extract_straight_flush at h ⊢
  by_cases hlen : hand.length < 5
  · rw [if_pos hlen] at h
    exact absurd h (by simp)
  · rw [if_neg hlen] at h ⊢
    dsimp only at h ⊢
    cases hfind : (List.range ((sort_hand_by_card_id hand).length - 4)).find?
        (sf_window (sort_hand_by_card_id hand)) with
    | none => rw [hfind] at h; exact absurd h (by simp)
    | some i =>
      have hmem := List.mem_of_find?_eq_some hfind
      rw [List.mem_range] at hmem
      have hbd : ∀ t ∈ [i + 4, i + 3, i + 2, i + 1, i],
          t < (sort_hand_by_card_id hand).length := by
        intro t ht
        simp only [List.mem_cons, List.not_mem_nil, or_false] at ht
        rcases ht with rfl | rfl | rfl | rfl | rfl <;> omega
      obtain ⟨hpp, hrp⟩ := eraseIdx_conservation hand hnd hjf
        (sort_hand_by_card_id hand) (sort_by_card_id_perm hand)
        [i + 4, i + 3, i + 2, i + 1, i] (by simp) hbd
      refine ⟨[i + 4, i + 3, i + 2, i + 1, i].map (cardAt (sort_hand_by_card_id hand)),
        ([i + 4, i + 3, i + 2, i + 1, i].map (cardAt (sort_hand_by_card_id hand))).foldl
          List.erase hand, rfl, by simp, ?_⟩
      rw [hrp]
      exact hpp

/-- Success structure of `extract_straight`. -/
lemma extract_straight_success (hand arranged : List Card)
    (hnd : hand.Nodup) (hjf : ∀ c ∈ hand, c.suit ≠ SUIT_JOKER)
    (h : (extract_straight hand arranged).1 = true) :
    ∃ block hand2, extract_straight hand arranged = (true, hand2, arranged ++ block) ∧
      block.length = 5 ∧ List.Perm hand (realPart block ++ hand2) := by
  unfold extract_straight at h ⊢
  by_cases hlen : hand.length < 5
  · rw [if_pos hlen] at h
    exact absurd h (by simp)
  · rw [if_neg hlen] at h ⊢
    dsimp only at h ⊢
    cases hfind : (straight_tuples (sort_hand_by_value hand).length).find?
        (st_tuple_ok (sort_hand_by_value hand)) with
    | none => rw [hfind] at h; exact absurd h (by simp)
    | some p =>
      obtain ⟨i, j, k, m, nn⟩ := p
      have hmem := List.mem_of_find?_eq_some hfind
      rw [mem_straight_tuples] at hmem
      have hok := List.find?_some hfind
      rw [st_tuple_ok, Bool.and_eq_true] at hok
      obtain ⟨hnn, -⟩ := hok
      rw [decide_eq_true_eq] at hnn
      dsimp only at hnn
      have hbd : ∀ t ∈ [nn, m, k, j, i], t < (sort_hand_by_value hand).length := by
        intro t ht
        simp only [List.mem_cons, List.not_mem_nil, or_false] at ht
        rcases ht with rfl | rfl | rfl | rfl | rfl <;> omega
      obtain ⟨hpp, hrp⟩ := eraseIdx_conservation hand hnd hjf
        (sort_hand_by_value hand) (sort_by_value_perm hand)
        [nn, m, k, j, i] (by simp; omega) hbd
      refine ⟨[nn, m, k, j, i].map (cardAt (sort_hand_by_value hand)),
        ([nn, m, k, j, i].map (cardAt (sort_hand_by_value hand))).foldl
          List.erase hand, rfl, by simp, ?_⟩
      rw [hrp]
      exact hpp


/-- Conservation package for a single 5-card window extraction. -/
lemma extract_window5_package (hand arranged : List Card) (hnd : hand.Nodup)
    (hjf : ∀ c ∈ hand, c.suit ≠ SUIT_JOKER) (s : List Card)
    (hperm : List.Perm s hand) (w : ℕ) (hw : w + 4 < s.length) :
    ∃ block hand2, extract_window5 s w hand arranged = (true, hand2, arranged ++ block) ∧
      block.length = 5 ∧ List.Perm hand (realPart block ++ hand2) := by
  have hbd : ∀ t ∈ [w + 4, w + 3, w + 2, w + 1, w], t < s.length := by
    intro t ht
    simp only [List.mem_cons, List.not_mem_nil, or_false] at ht
    rcases ht with rfl | rfl | rfl | rfl | rfl <;> omega
  obtain ⟨hpp, hrp⟩ := eraseIdx_conservation hand hnd hjf s hperm
    [w + 4, w + 3, w + 2, w + 1, w] (by simp) hbd
  refine ⟨[w + 4, w + 3, w + 2, w + 1, w].map (cardAt s),
    ([w + 4, w + 3, w + 2, w + 1, w].map (cardAt s)).foldl List.erase hand,
    rfl, by simp, ?_⟩
  rw [hrp]
  exact hpp

/-- Success structure of `extract_flush`. -/
lemma extract_flush_success (hand arranged : List Card)
    (hnd : hand.Nodup) (hjf : ∀ c ∈ hand, c.suit ≠ SUIT_JOKER)
    (h : (extract_flush hand arranged).1 = true) :
    ∃ block hand2, extract_flush hand arranged = (true, hand2, arranged ++ block) ∧
      block.length = 5 ∧ List.Perm hand (realPart block ++ hand2) := by
  unfold extract_flush at h ⊢
  by_cases hlen : hand.length < 5
  · rw [if_pos hlen] at h
    exact absurd h (by simp)
  · rw [if_neg hlen] at h ⊢
    dsimp only at h ⊢
    have hlen' : (sort_hand_by_suit hand).length = hand.length :=
      sort_by_suit_length hand
    cases hfind : (downFrom ((sort_hand_by_suit hand).length - 5)).find?
        (fl_window (sort_hand_by_suit hand)) with
    | none => rw [hfind] at h; exact absurd h (by simp)
    | some i =>
      dsimp only
      have hmem := List.mem_of_find?_eq_some hfind
      rw [mem_downFrom] at hmem
      have hi : i + 4 < (sort_hand_by_suit hand).length := by omega
      by_cases hgt : i > 4
      · rw [if_pos hgt]
        cases hfind2 : (downFrom (i - 5)).find?
            (fl_window (sort_hand_by_suit hand)) with
        | none =>
          exact extract_window5_package hand arranged hnd hjf _
            (sort_by_suit_perm hand) i hi
        | some j =>
          dsimp only
          have hmem2 := List.mem_of_find?_eq_some hfind2
          rw [mem_downFrom] at hmem2
          have hj : j + 4 < (sort_hand_by_suit hand).length := by omega
          by_cases hcmp : (cardAt (sort_hand_by_suit hand) (i + 4)).altvalue ≥
              (cardAt (sort_hand_by_suit hand) (j + 4)).altvalue
          · rw [if_pos hcmp]
            exact extract_window5_package hand arranged hnd hjf _
              (sort_by_suit_perm hand) i hi
          · rw [if_neg hcmp]
            exact extract_window5_package hand arranged hnd hjf _
              (sort_by_suit_perm hand) j hj
      · rw [if_neg hgt]
        exact extract_window5_package hand arranged hnd hjf _
          (sort_by_suit_perm hand) i hi

/-- Success structure of `extract_four_of_a_kind`. -/
lemma extract_four_of_a_kind_success (hand arranged : List Card)
    (hnd : hand.Nodup) (hjf : ∀ c ∈ hand, c.suit ≠ SUIT_JOKER)
    (h : (extract_four_of_a_kind hand arranged).1 = true) :
    ∃ block hand2, extract_four_of_a_kind hand arranged = (true, hand2, arranged ++ block) ∧
      block.length = 5 ∧ List.Perm hand (realPart block ++ hand2) := by
  unfold extract_four_of_a_kind at h ⊢
  by_cases hlen : hand.length < 5
  · rw [if_pos hlen] at h
    exact absurd h (by simp)
  · rw [if_neg hlen] at h ⊢
    dsimp only at h ⊢
    have hlen' : (sort_hand_by_alt_value hand).length = hand.length :=
      sort_by_alt_length hand
    cases hfind : (downFrom ((sort_hand_by_alt_value hand).length - 4)).find?
        (fk_window (sort_hand_by_alt_value hand)) with
    | none => rw [hfind] at h; exact absurd h (by simp)
    | some i =>
      have hmem := List.mem_of_find?_eq_some hfind
      rw [mem_downFrom] at hmem
      have hbd : ∀ t ∈ [i + 3, i + 2, i + 1, i],
          t < (sort_hand_by_alt_value hand).length := by
        intro t ht
        simp only [List.mem_cons, List.not_mem_nil, or_false] at ht
        rcases ht with rfl | rfl | rfl | rfl <;> omega
      obtain ⟨hpp, hrp⟩ := eraseIdx_conservation hand hnd hjf
        (sort_hand_by_alt_value hand) (sort_by_alt_perm hand)
        [i + 3, i + 2, i + 1, i] (by simp) hbd
      refine ⟨Card.joker :: ([i + 3, i + 2, i + 1, i].map (cardAt (sort_hand_by_alt_value hand))),
        ([i + 3, i + 2, i + 1, i].map (cardAt (sort_hand_by_alt_value hand))).foldl
          List.erase hand, rfl, by simp, ?_⟩
      rw [realPart_cons_joker, hrp]
      exact hpp

/-- Success structure of `extract_three_of_a_kind`. -/
lemma extract_three_of_a_kind_success (hand arranged : List Card)
    (hnd : hand.Nodup) (hjf : ∀ c ∈ hand, c.suit ≠ SUIT_JOKER)
    (h : (extract_three_of_a_kind hand arranged).1 = true) :
    ∃ block hand2, extract_three_of_a_kind hand arranged = (true, hand2, arranged ++ block) ∧
      block.length = 5 ∧ List.Perm hand (realPart block ++ hand2) := by
  unfold extract_three_of_a_kind at h ⊢
  by_cases hlen : hand.length < 5
  · rw [if_pos hlen] at h
    exact absurd h (by simp)
  · rw [if_neg hlen] at h ⊢
    dsimp only at h ⊢
    have hlen' : (sort_hand_by_alt_value hand).length = hand.length :=
      sort_by_alt_length hand
    cases hfind : (downFrom ((sort_hand_by_alt_value hand).length - 3)).find?
        (tk_window (sort_hand_by_alt_value hand)) with
    | none => rw [hfind] at h; exact absurd h (by simp)
    | some i =>
      have hmem := List.mem_of_find?_eq_some hfind
      rw [mem_downFrom] at hmem
      have hbd : ∀ t ∈ [i + 2, i + 1, i],
          t < (sort_hand_by_alt_value hand).length := by
        intro t ht
        simp only [List.mem_cons, List.not_mem_nil, or_false] at ht
        rcases ht with rfl | rfl | rfl <;> omega
      obtain ⟨hpp, hrp⟩ := eraseIdx_conservation hand hnd hjf
        (sort_hand_by_alt_value hand) (sort_by_alt_perm hand)
        [i + 2, i + 1, i] (by simp) hbd
      refine ⟨Card.joker :: Card.joker ::
          ([i + 2, i + 1, i].map (cardAt (sort_hand_by_alt_value hand))),
        ([i + 2, i + 1, i].map (cardAt (sort_hand_by_alt_value hand))).foldl
          List.erase hand, rfl, by simp, ?_⟩
      rw [realPart_cons_joker, realPart_cons_joker, hrp]
      exact hpp

/-- Success structure of `extract_one_pair`. -/
lemma extract_one_pair_success (hand arranged : List Card)
    (hnd : hand.Nodup) (hjf : ∀ c ∈ hand, c.suit ≠ SUIT_JOKER)
    (h : (extract_one_pair hand arranged).1 = true) :
    ∃ block hand2, extract_one_pair hand arranged = (true, hand2, arranged ++ block) ∧
      block.length = 5 ∧ List.Perm hand (realPart block ++ hand2) := by
  unfold extract_one_pair at h ⊢
  by_cases hlen : hand.length < 5
  · rw [if_pos hlen] at h
    exact absurd h (by simp)
  · rw [if_neg hlen] at h ⊢
    dsimp only at h ⊢
    have hlen' : (sort_hand_by_alt_value hand).length = hand.length :=
      sort_by_alt_length hand
    cases hfind : (downFrom ((sort_hand_by_alt_value hand).length - 2)).find?
        (pr_window (sort_hand_by_alt_value hand)) with
    | none => rw [hfind] at h; exact absurd h (by simp)
    | some i =>
      have hmem := List.mem_of_find?_eq_some hfind
      rw [mem_downFrom] at hmem
      have hbd : ∀ t ∈ [i + 1, i],
          t < (sort_hand_by_alt_value hand).length := by
        intro t ht
        simp only [List.mem_cons, List.not_mem_nil, or_false] at ht
        rcases ht with rfl | rfl <;> omega
      obtain ⟨hpp, hrp⟩ := eraseIdx_conservation hand hnd hjf
        (sort_hand_by_alt_value hand) (sort_by_alt_perm hand)
        [i + 1, i] (by simp) hbd
      refine ⟨Card.joker :: Card.joker :: Card.joker ::
          ([i + 1, i].map (cardAt (sort_hand_by_alt_value hand))),
        ([i + 1, i].map (cardAt (sort_hand_by_alt_value hand))).foldl
          List.erase hand, rfl, by simp, ?_⟩
      rw [realPart_cons_joker, realPart_cons_joker, realPart_cons_joker, hrp]
      exact hpp

/-- Success structure of `extract_two_pair`. -/
lemma extract_two_pair_success (hand arranged : List Card)
    (hnd : hand.Nodup) (hjf : ∀ c ∈ hand, c.suit ≠ SUIT_JOKER)
    (h : (extract_two_pair hand arranged).1 = true) :
    ∃ block hand2, extract_two_pair hand arranged = (true, hand2, arranged ++ block) ∧
      block.length = 5 ∧ List.Perm hand (realPart block ++ hand2) := by
  unfold extract_two_pair at h ⊢
  by_cases hlen : hand.length < 5
  · rw [if_pos hlen] at h
    exact absurd h (by simp)
  · rw [if_neg hlen] at h ⊢
    dsimp only at h ⊢
    have hlen' : (sort_hand_by_alt_value hand).length = hand.length :=
      sort_by_alt_length hand
    cases hfind : (downFrom ((sort_hand_by_alt_value hand).length - 2)).findSome?
        (fun i => if pr_window (sort_hand_by_alt_value hand) i then
          ((List.range ((sort_hand_by_alt_value hand).length - 2)).find? (fun j =>
            decide (j > i + 1 ∨ j + 1 < i) &&
              decide (j < (sort_hand_by_alt_value hand).length - 1) &&
              pr_window (sort_hand_by_alt_value hand) j)).map (fun j => (i, j))
        else none) with
    | none => rw [hfind] at h; exact absurd h (by simp)
    | some p =>
      obtain ⟨i, j⟩ := p
      obtain ⟨i0, hi0mem, hsome⟩ := List.exists_of_findSome?_eq_some hfind
      rw [mem_downFrom] at hi0mem
      split at hsome
      case _ hpri =>
        rw [Option.map_eq_some'] at hsome
        obtain ⟨j0, hj0find, hj0eq⟩ := hsome
        have hij : i0 = i ∧ j0 = j := by
          rw [Prod.mk.injEq] at hj0eq
          exact hj0eq
        obtain ⟨rfl, rfl⟩ := hij
        have hj0cond := List.find?_some hj0find
        rw [Bool.and_eq_true, Bool.and_eq_true] at hj0cond
        obtain ⟨⟨hdisj, hjlt⟩, -⟩ := hj0cond
        rw [decide_eq_true_eq] at hdisj hjlt
        have hbd : ∀ t ∈ [i0, i0 + 1, j0, j0 + 1],
            t < (sort_hand_by_alt_value hand).length := by
          intro t ht
          simp only [List.mem_cons, List.not_mem_nil, or_false] at ht
          rcases ht with rfl | rfl | rfl | rfl <;> omega
        obtain ⟨hpp, hrp⟩ := eraseIdx_conservation hand hnd hjf
          (sort_hand_by_alt_value hand) (sort_by_alt_perm hand)
          [i0, i0 + 1, j0, j0 + 1] (by simp [Fin.ext_iff]; omega) hbd
        refine ⟨Card.joker ::
            ([i0, i0 + 1, j0, j0 + 1].map (cardAt (sort_hand_by_alt_value hand))),
          ([i0, i0 + 1, j0, j0 + 1].map (cardAt (sort_hand_by_alt_value hand))).foldl
            List.erase hand, rfl, by simp, ?_⟩
        rw [realPart_cons_joker, hrp]
        exact hpp
      case _ => exact absurd hsome (by simp)

/-- Success structure of `extract_full_house`. -/
lemma extract_full_house_success (hand arranged : List Card)
    (hnd : hand.Nodup) (hjf : ∀ c ∈ hand, c.suit ≠ SUIT_JOKER)
    (h : (extract_full_house hand arranged).1 = true) :
    ∃ block hand2, extract_full_house hand arranged = (true, hand2, arranged ++ block) ∧
      block.length = 5 ∧ List.Perm hand (realPart block ++ hand2) := by
  unfold extract_full_house at h ⊢
  by_cases hlen : hand.length < 5
  · rw [if_pos hlen] at h
    exact absurd h (by simp)
  · rw [if_neg hlen] at h ⊢
    dsimp only at h ⊢
    have hlen' : (sort_hand_by_alt_value hand).length = hand.length :=
      sort_by_alt_length hand
    cases hfind : (downFrom ((sort_hand_by_alt_value hand).length - 3)).findSome?
        (fun i => if fh_triple (sort_hand_by_alt_value hand) i then
          ((List.range ((sort_hand_by_alt_value hand).length - 1)).find? (fun j =>
            decide (j > i + 2 ∨ j + 1 < i) &&
              decide (j < (sort_hand_by_alt_value hand).length - 1) &&
              fh_pair (sort_hand_by_alt_value hand) j)).map (fun j => (i, j))
        else none) with
    | none => rw [hfind] at h; exact absurd h (by simp)
    | some p =>
      obtain ⟨i, j⟩ := p
      obtain ⟨i0, hi0mem, hsome⟩ := List.exists_of_findSome?_eq_some hfind
      rw [mem_downFrom] at hi0mem
      split at hsome
      case _ hpri =>
        rw [Option.map_eq_some'] at hsome
        obtain ⟨j0, hj0find, hj0eq⟩ := hsome
        have hij : i0 = i ∧ j0 = j := by
          rw [Prod.mk.injEq] at hj0eq
          exact hj0eq
        obtain ⟨rfl, rfl⟩ := hij
        have hj0cond := List.find?_some hj0find
        rw [Bool.and_eq_true, Bool.and_eq_true] at hj0cond
        obtain ⟨⟨hdisj, hjlt⟩, -⟩ := hj0cond
        rw [decide_eq_true_eq] at hdisj hjlt
        have hbd : ∀ t ∈ [j0 + 1, j0, i0 + 2, i0 + 1, i0],
            t < (sort_hand_by_alt_value hand).length := by
          intro t ht
          simp only [List.mem_cons, List.not_mem_nil, or_false] at ht
          rcases ht with rfl | rfl | rfl | rfl | rfl <;> omega
        obtain ⟨hpp, hrp⟩ := eraseIdx_conservation hand hnd hjf
          (sort_hand_by_alt_value hand) (sort_by_alt_perm hand)
          [j0 + 1, j0, i0 + 2, i0 + 1, i0] (by simp [Fin.ext_iff]; omega) hbd
        refine ⟨[j0 + 1, j0, i0 + 2, i0 + 1, i0].map (cardAt (sort_hand_by_alt_value hand)),
          ([j0 + 1, j0, i0 + 2, i0 + 1, i0].map (cardAt (sort_hand_by_alt_value hand))).foldl
            List.erase hand, rfl, by simp, ?_⟩
        rw [hrp]
        exact hpp
      case _ => exact absurd hsome (by simp)


/-- The order-free content matched by the extractor dispatched at each
hand-type level. -/
def levelProp (lvl : ℕ) (hand : List Card) : Bool :=
  if lvl = ROYAL_FLUSH then hasAltRunP hand
  else if lvl = STRAIGHT_FLUSH then hasValueRunP hand
  else if lvl = FOUR_OF_A_KIND then hasFourKindP hand
  else if lvl = FULL_HOUSE then hasFullHouseP hand
  else if lvl = FLUSH then hasFlushP hand
  else if lvl = STRAIGHT then hasStraightP hand
  else if lvl = THREE_OF_A_KIND then hasThreeKindP hand
  else if lvl = TWO_PAIR then hasTwoPairP hand
  else if lvl = ONE_PAIR then hasPairP hand
  else false

/-- Every level property is monotone under sub-permutations. -/
lemma levelProp_mono {S T : List Card} (h : List.Subperm S T) (lvl : ℕ)
    (hp : levelProp lvl S = true) : levelProp lvl T = true := by
  unfold levelProp at hp ⊢
  split_ifs at hp ⊢ with h1 h2 h3 h4 h5 h6 h7 h8 h9
  · exact hasAltRunP_mono h hp
  · exact hasValueRunP_mono h hp
  · exact hasFourKindP_mono h hp
  · exact hasFullHouseP_mono h hp
  · exact hasFlushP_mono h hp
  · exact hasStraightP_mono h hp
  · exact hasThreeKindP_mono h hp
  · exact hasTwoPairP_mono h hp
  · exact hasPairP_mono h hp

/-- Found-iff for the dispatcher at the nine extractor levels. -/
lemma extract_poker_hand_found_iff (lvl : ℕ) (h9 : ONE_PAIR ≤ lvl)
    (h17 : lvl ≤ ROYAL_FLUSH) (hand arranged : List Card) (hnd : hand.Nodup)
    (hstd : ∀ c ∈ hand, StandardCard c) :
    (extract_poker_hand lvl hand arranged).1 = true ↔
      5 ≤ hand.length ∧ levelProp lvl hand = true := by
  rw [ONE_PAIR] at h9
  rw [ROYAL_FLUSH] at h17
  interval_cases lvl
  · exact extract_one_pair_found_iff hand arranged hnd hstd
  · exact extract_two_pair_found_iff hand arranged hnd hstd
  · exact extract_three_of_a_kind_found_iff hand arranged hnd hstd
  · exact extract_straight_found_iff hand arranged hnd hstd
  · exact extract_flush_found_iff hand arranged hnd hstd
  · exact extract_full_house_found_iff hand arranged hnd hstd
  · exact extract_four_of_a_kind_found_iff hand arranged hnd hstd
  · exact extract_straight_flush_found_iff hand arranged hnd hstd
  · exact extract_royal_flush_found_iff hand arranged hnd hstd

/-- Success structure for the dispatcher at the nine extractor levels. -/
lemma extract_poker_hand_success (lvl : ℕ) (h9 : ONE_PAIR ≤ lvl)
    (h17 : lvl ≤ ROYAL_FLUSH) (hand arranged : List Card) (hnd : hand.Nodup)
    (hjf : ∀ c ∈ hand, c.suit ≠ SUIT_JOKER)
    (h : (extract_poker_hand lvl hand arranged).1 = true) :
    ∃ block hand2, extract_poker_hand lvl hand arranged = (true, hand2, arranged ++ block) ∧
      block.length = 5 ∧ List.Perm hand (realPart block ++ hand2) := by
  rw [ONE_PAIR] at h9
  rw [ROYAL_FLUSH] at h17
  interval_cases lvl
  · exact extract_one_pair_success hand arranged hnd hjf h
  · exact extract_two_pair_success hand arranged hnd hjf h
  · exact extract_three_of_a_kind_success hand arranged hnd hjf h
  · exact extract_straight_success hand arranged hnd hjf h
  · exact extract_flush_success hand arranged hnd hjf h
  · exact extract_full_house_success hand arranged hnd hjf h
  · exact extract_four_of_a_kind_success hand arranged hnd hjf h
  · exact extract_straight_flush_success hand arranged hnd hjf h
  · exact extract_royal_flush_success hand arranged hnd hjf h

/-- The dispatcher is atomic on failure at every level. -/
lemma extract_poker_hand_fail (lvl : ℕ) (hand arranged : List Card)
    (h : (extract_poker_hand lvl hand arranged).1 = false) :
    extract_poker_hand lvl hand arranged = (false, hand, arranged) := by
  unfold extract_poker_hand at h ⊢
  split_ifs at h ⊢
  · exact extract_fail_of_fst_false (extract_royal_flush_alt hand arranged) h
  · exact extract_fail_of_fst_false (extract_straight_flush_alt hand arranged) h
  · exact extract_fail_of_fst_false (extract_four_of_a_kind_alt hand arranged) h
  · exact extract_fail_of_fst_false (extract_full_house_alt hand arranged) h
  · exact extract_fail_of_fst_false (extract_flush_alt hand arranged) h
  · exact extract_fail_of_fst_false (extract_straight_alt hand arranged) h
  · exact extract_fail_of_fst_false (extract_three_of_a_kind_alt hand arranged) h
  · exact extract_fail_of_fst_false (extract_two_pair_alt hand arranged) h
  · exact extract_fail_of_fst_false (extract_one_pair_alt hand arranged) h


/-- Conservation through the inner extraction scan: the arranged buffer
grows by at most `5 * (2 - idx)` cards, and the working hand splits off
exactly the real cards of that growth. -/
lemma inner_scan_conservation : ∀ (fuel : ℕ), fuel ≤ 17 →
    ∀ (idx : ℕ) (temp : ℕ × ℕ) (mh ah : List Card),
    mh.Nodup → (∀ c ∈ mh, c.suit ≠ SUIT_JOKER) →
    ∃ block,
      (inner_scan idx fuel temp mh ah).2.2 = ah ++ block ∧
      block.length ≤ 5 * (2 - idx) ∧
      List.Perm mh (realPart block ++ (inner_scan idx fuel temp mh ah).2.1) := by
  intro fuel
  induction fuel with
  | zero =>
    intro _ idx temp mh ah hnd hjf
    refine ⟨[], by simp [inner_scan], by simp, ?_⟩
    simp [inner_scan, realPart]
  | succ n ih =>
    intro hle idx temp mh ah hnd hjf
    rw [inner_scan]
    split
    case isTrue hgate =>
      by_cases hr : (extract_poker_hand (n + 1) mh ah).1 = true
      · obtain ⟨block1, mh2, heq, hlen5, hperm1⟩ :=
          extract_poker_hand_success (n + 1)
            (by have h8 := hgate.2; rw [HIGH_CARD] at h8; rw [ONE_PAIR]; omega)
            (by rw [ROYAL_FLUSH]; omega)
            mh ah hnd hjf hr
        have hnd2 : mh2.Nodup := by
          refine subperm_nodup ?_ hnd
          refine List.Subperm.trans ?_ hperm1.symm.subperm
          exact (List.sublist_append_right _ _).subperm
        have hjf2 : ∀ c ∈ mh2, c.suit ≠ SUIT_JOKER := by
          intro c hc
          refine hjf c (hperm1.symm.subset ?_)
          exact List.mem_append_right _ hc
        obtain ⟨block2, heq2, hlen2, hperm2⟩ := ih (by omega) (idx + 1)
          (if idx = 0 then (n + 1, temp.2) else (temp.1, n + 1))
          mh2 (ah ++ block1) hnd2 hjf2
        rw [if_pos hr, heq]
        dsimp only
        refine ⟨block1 ++ block2, ?_, ?_, ?_⟩
        · rw [heq2, List.append_assoc]
        · rw [List.length_append]
          rcases hgate with ⟨hidx, -⟩
          omega
        · rw [realPart_append, List.append_assoc]
          exact hperm1.trans (List.Perm.append_left (realPart block1) hperm2)
      · rw [Bool.not_eq_true] at hr
        have hfail := extract_poker_hand_fail (n + 1) mh ah hr
        rw [if_neg (by rw [hr]; simp), hfail]
        dsimp only
        exact ih (by omega) idx temp mh ah hnd hjf
    case isFalse =>
      refine ⟨[], by simp, by simp, ?_⟩
      simp [realPart]

/-- The inner scan never touches the first recorded level once one success
has been taken. -/
lemma inner_scan_fst_of_pos : ∀ (fuel idx : ℕ) (temp : ℕ × ℕ) (mh ah : List Card),
    1 ≤ idx → (inner_scan idx fuel temp mh ah).1.1 = temp.1 := by
  intro fuel
  induction fuel with
  | zero =>
    intro idx temp mh ah _
    rfl
  | succ n ih =>
    intro idx temp mh ah hidx
    rw [inner_scan]
    split
    case isTrue hgate =>
      by_cases hr : (extract_poker_hand (n + 1) mh ah).1 = true
      · rw [if_pos hr]
        rw [if_neg (by omega)]
        exact ih (idx + 1) _ _ _ (by omega)
      · rw [if_neg hr]
        exact ih idx temp _ _ hidx
    case isFalse => rfl

/-- Outcome of a full scan pass started at `idx = 0`: either nothing at any
level of the pass matched and the state is untouched, or the pass recorded
the highest matching level. -/
lemma inner_scan_zero_spec : ∀ (fuel : ℕ) (temp : ℕ × ℕ) (mh ah : List Card),
    ( inner_scan 0 fuel temp mh ah = (temp, mh, ah) ∧
      (∀ lvl, HIGH_CARD < lvl → lvl ≤ fuel → (extract_poker_hand lvl mh ah).1 = false) )
    ∨ (∃ lvl, HIGH_CARD < lvl ∧ lvl ≤ fuel ∧ (extract_poker_hand lvl mh ah).1 = true ∧
        (inner_scan 0 fuel temp mh ah).1.1 = lvl ∧
        (∀ l2, lvl < l2 → l2 ≤ fuel → (extract_poker_hand l2 mh ah).1 = false)) := by
  intro fuel
  induction fuel with
  | zero =>
    intro temp mh ah
    left
    refine ⟨rfl, ?_⟩
    intro lvl h1 h2
    rw [HIGH_CARD] at h1
    omega
  | succ n ih =>
    intro temp mh ah
    by_cases hgate : (0 : ℕ) < 2 ∧ n + 1 > HIGH_CARD
    · by_cases hr : (extract_poker_hand (n + 1) mh ah).1 = true
      · right
        refine ⟨n + 1, hgate.2, le_refl _, hr, ?_, ?_⟩
        · rw [inner_scan]
          rw [if_pos hgate]
          dsimp only
          rw [if_pos hr]
          rw [if_pos rfl]
          exact inner_scan_fst_of_pos n 1 _ _ _ (by omega)
        · intro l2 hl2 hl2'
          omega
      · rw [Bool.not_eq_true] at hr
        have hfail := extract_poker_hand_fail (n + 1) mh ah hr
        have hstep : inner_scan 0 (n + 1) temp mh ah = inner_scan 0 n temp mh ah := by
          rw [inner_scan]
          rw [if_pos hgate]
          dsimp only
          rw [if_neg (by rw [hr]; simp), hfail]
        rcases ih temp mh ah with ⟨heq, hfails⟩ | ⟨lvl, h1, h2, h3, h4, h5⟩
        · left
          refine ⟨by rw [hstep]; exact heq, ?_⟩
          intro lvl hl1 hl2
          rcases Nat.lt_or_ge lvl (n + 1) with hlt | hge
          · exact hfails lvl hl1 (by omega)
          · have : lvl = n + 1 := by omega
            rw [this]
            exact hr
        · right
          refine ⟨lvl, h1, by omega, h3, by rw [hstep]; exact h4, ?_⟩
          intro l2 hl1 hl2
          rcases Nat.lt_or_ge l2 (n + 1) with hlt | hge
          · exact h5 l2 hl1 (by omega)
          · have : l2 = n + 1 := by omega
            rw [this]
            exact hr
    · left
      have : inner_scan 0 (n + 1) temp mh ah = (temp, mh, ah) := by
        rw [inner_scan]
        rw [if_neg hgate]
      refine ⟨this, ?_⟩
      intro lvl h1 h2
      rw [HIGH_CARD] at h1
      exfalso
      rcases Nat.lt_or_ge lvl (n + 1) with hlt | hge
      · exact hgate ⟨by omega, by rw [HIGH_CARD]; omega⟩
      · exact hgate ⟨by omega, by rw [HIGH_CARD]; omega⟩


lemma downTo_nil {x y : ℕ} (h : x ≤ y) : downTo x y = [] := by
  unfold downTo
  rw [Nat.sub_eq_zero_of_le h]
  rfl

lemma downTo_cons {x y : ℕ} (h : y < x) : downTo x y = x :: downTo (x - 1) y := by
  unfold downTo
  have h1 : x - y = (x - 1 - y) + 1 := by omega
  rw [h1, List.range'_concat, List.reverse_append]
  simp only [List.reverse_cons, List.reverse_nil, List.nil_append, List.singleton_append]
  congr 1
  omega

/-- Main loop invariant of `find_best_poker_play` on a 13-card standard
nodup hand: the final buffers conserve the hand as a permutation and the
arranged buffer holds at most ten cards, because the only pass that can
commit is one whose first recorded level beats every level recorded so
far, and level contents are monotone under taking sub-hands. -/
lemma fb_loop_inv (hand0 : List Card) (hnd0 : hand0.Nodup)
    (hstd0 : ∀ c ∈ hand0, StandardCard c) (hlen0 : hand0.length = 13) :
    ∀ (i : ℕ), i ≤ 17 → ∀ (ht temp : ℕ × ℕ) (best : ℕ) (hand arranged : List Card),
    ( (List.Perm hand0 (realPart arranged ++ hand) ∧ arranged.length ≤ 10 ∧
        temp.1 ≤ ht.1 ∧
        (∀ lvl, ht.1 < lvl → lvl ≤ 17 → levelProp lvl hand0 = false))
      ∨ (hand = hand0 ∧ arranged = [] ∧ temp = (HIGH_CARD, HIGH_CARD) ∧
          ht = (HIGH_CARD, HIGH_CARD) ∧
          (∀ lvl, i < lvl → lvl ≤ 17 → levelProp lvl hand0 = false)) ) →
    List.Perm hand0
      (realPart (fb_loop (downTo i HIGH_CARD) ht temp best hand arranged).2.2.2.2 ++
        (fb_loop (downTo i HIGH_CARD) ht temp best hand arranged).2.2.2.1) ∧
    (fb_loop (downTo i HIGH_CARD) ht temp best hand arranged).2.2.2.2.length ≤ 10 := by
  intro i
  induction i using Nat.strong_induction_on with
  | _ i ih =>
    intro hi17 ht temp best hand arranged hstate
    by_cases hi8 : i ≤ HIGH_CARD
    · rw [downTo_nil hi8]
      rw [fb_loop]
      rcases hstate with ⟨h1, h2, -, -⟩ | ⟨rfl, rfl, -, -, -⟩
      · exact ⟨h1, h2⟩
      · refine ⟨?_, by simp⟩
        simp [realPart]
    · rw [HIGH_CARD] at hi8
      rw [downTo_cons (show HIGH_CARD < i from by rw [HIGH_CARD]; omega)]
      rw [fb_loop]
      have hsub : List.Subperm hand hand0 := by
        rcases hstate with ⟨h1, -, -, -⟩ | ⟨rfl, -, -, -, -⟩
        · exact ((List.sublist_append_right _ _).subperm).trans h1.symm.subperm
        · exact List.Perm.refl hand |>.subperm
      have hnd_h : hand.Nodup := subperm_nodup hsub hnd0
      have hstd_h : ∀ c ∈ hand, StandardCard c := fun c hc => hstd0 c (hsub.subset hc)
      have hperm_mh := sort_by_value_perm hand
      have hnd_mh : (sort_hand_by_value hand).Nodup := hperm_mh.nodup_iff.mpr hnd_h
      have hstd_mh : ∀ c ∈ sort_hand_by_value hand, StandardCard c :=
        fun c hc => hstd_h c (hperm_mh.subset hc)
      have hjf_mh : ∀ c ∈ sort_hand_by_value hand, c.suit ≠ SUIT_JOKER :=
        fun c hc => std_suit_ne_joker (hstd_mh c hc)
      have hsub_mh : List.Subperm (sort_hand_by_value hand) hand0 :=
        hperm_mh.subperm.trans hsub
      rcases inner_scan_zero_spec i temp (sort_hand_by_value hand) [] with
        ⟨heq, hfails⟩ | ⟨lvl, h8, hle, hsucc, hfst, habove⟩
      · -- no level of this pass matched: the state is unchanged
        rw [heq]
        dsimp only
        rcases hstate with ⟨h1, h2, h3, h4⟩ | ⟨hh, ha, htmp, hht, hB⟩
        · by_cases hc1 : temp.1 > HIGH_CARD ∨ temp.2 > HIGH_CARD
          · rw [if_pos hc1, if_neg (show ¬ temp.1 > ht.1 from by omega)]
            exact ih (i - 1) (by omega) (by omega) ht temp best hand arranged
              (Or.inl ⟨h1, h2, h3, h4⟩)
          · rw [if_neg hc1, if_neg (show ¬ temp.1 > HIGH_CARD from by
              push_neg at hc1; exact by omega)]
            exact ih (i - 1) (by omega) (by omega) ht temp best hand arranged
              (Or.inl ⟨h1, h2, h3, h4⟩)
        · subst hh
          subst ha
          have hnewfail : ∀ lvl, i - 1 < lvl → lvl ≤ 17 → levelProp lvl hand = false := by
            intro lvl hl1 hl2
            rcases Nat.lt_or_ge i lvl with hgt | hge
            · exact hB lvl hgt hl2
            · have hli : lvl = i := by omega
              have hfail := hfails lvl (by rw [HIGH_CARD]; omega) hge
              have hiff := extract_poker_hand_found_iff lvl
                (by rw [ONE_PAIR]; omega) (by rw [ROYAL_FLUSH]; omega)
                (sort_hand_by_value hand) [] hnd_mh hstd_mh
              by_contra hcon
              rw [Bool.not_eq_false] at hcon
              have hmh : levelProp lvl (sort_hand_by_value hand) = true :=
                levelProp_mono hperm_mh.symm.subperm lvl hcon
              have : (extract_poker_hand lvl (sort_hand_by_value hand) []).1 = true :=
                hiff.mpr ⟨by rw [sort_by_value_length, hlen0]; omega, hmh⟩
              rw [this] at hfail
              exact absurd hfail (by simp)
          rw [htmp]
          rw [if_neg (show ¬ ((HIGH_CARD, HIGH_CARD).1 > HIGH_CARD ∨
              (HIGH_CARD, HIGH_CARD).2 > HIGH_CARD) from by dsimp only; omega)]
          rw [if_neg (show ¬ (HIGH_CARD, HIGH_CARD).1 > HIGH_CARD from by dsimp only; omega)]
          exact ih (i - 1) (by omega) (by omega) ht (HIGH_CARD, HIGH_CARD) best hand []
            (Or.inr ⟨rfl, rfl, rfl, hht, hnewfail⟩)
      · -- the pass recorded its highest matching level
        obtain ⟨block, hah, hblen, hpp⟩ := inner_scan_conservation i hi17 0 temp
          (sort_hand_by_value hand) [] hnd_mh hjf_mh
        have hlvl0 : levelProp lvl hand0 = true := by
          have hiff := extract_poker_hand_found_iff lvl
            (by rw [ONE_PAIR]; have := h8; rw [HIGH_CARD] at this; omega)
            (by rw [ROYAL_FLUSH]; omega)
            (sort_hand_by_value hand) [] hnd_mh hstd_mh
          exact levelProp_mono hsub_mh lvl (hiff.mp hsucc).2
        have hc1 : (inner_scan 0 i temp (sort_hand_by_value hand) []).1.1 > HIGH_CARD ∨
            (inner_scan 0 i temp (sort_hand_by_value hand) []).1.2 > HIGH_CARD := by
          left
          rw [hfst]
          exact h8
        rw [if_pos hc1]
        rcases hstate with ⟨h1, h2, h3, h4⟩ | ⟨hh, ha, htmp, hht, hB⟩
        · have hnotgt : ¬ (inner_scan 0 i temp (sort_hand_by_value hand) []).1.1 > ht.1 := by
            rw [hfst]
            intro hgt
            have := h4 lvl hgt (by omega)
            rw [hlvl0] at this
            exact absurd this (by simp)
          rw [if_neg hnotgt]
          exact ih (i - 1) (by omega) (by omega) ht _ best hand arranged
            (Or.inl ⟨h1, h2, by rw [hfst]; omega, h4⟩)
        · subst hh
          subst ha
          have hgt : (inner_scan 0 i temp (sort_hand_by_value hand) []).1.1 > ht.1 := by
            rw [hfst, hht]
            dsimp only
            exact h8
          rw [if_pos hgt]
          refine ih (i - 1) (by omega) (by omega) _ _ _ _ _ (Or.inl ⟨?_, ?_, ?_, ?_⟩)
          · rw [hah]
            simp only [List.nil_append]
            exact (hperm_mh.symm.trans hpp)
          · rw [hah]
            simpa using hblen
          · exact le_refl _
          · intro lvl2 hl1 hl2
            rw [hfst] at hl1
            rcases Nat.lt_or_ge i lvl2 with hgt2 | hge2
            · exact hB lvl2 hgt2 hl2
            · have hfail := habove lvl2 hl1 hge2
              have hiff := extract_poker_hand_found_iff lvl2
                (by rw [ONE_PAIR]; have := h8; rw [HIGH_CARD] at this; omega)
                (by rw [ROYAL_FLUSH]; omega)
                (sort_hand_by_value hand) [] hnd_mh hstd_mh
              by_contra hcon
              rw [Bool.not_eq_false] at hcon
              have hmh : levelProp lvl2 (sort_hand_by_value hand) = true :=
                levelProp_mono hperm_mh.symm.subperm lvl2 hcon
              have : (extract_poker_hand lvl2 (sort_hand_by_value hand) []).1 = true :=
                hiff.mpr ⟨by rw [sort_by_value_length, hlen0]; omega, hmh⟩
              rw [this] at hfail
              exact absurd hfail (by simp)


/-- The joker-replacement loop succeeds whenever enough leftover cards
remain, and the combined buffers keep the real content as a permutation. -/
lemma fillJokers_spec : ∀ (arr h : List Card), jokerCount arr ≤ h.length →
    (∀ c ∈ h, c.suit ≠ SUIT_JOKER) →
    ∃ arr2 h2, fillJokers arr h = some (arr2, h2) ∧
      List.Perm (arr2 ++ h2) (realPart arr ++ h) ∧
      (∀ c ∈ arr2, c.suit ≠ SUIT_JOKER) ∧ (∀ c ∈ h2, c.suit ≠ SUIT_JOKER) := by
  intro arr
  induction arr with
  | nil =>
    intro h hcnt hjf
    exact ⟨[], h, rfl, by simp [realPart], by simp, hjf⟩
  | cons c rest ih =>
    intro h hcnt hjf
    by_cases hcj : c.suit = SUIT_JOKER
    · have hcnt' : jokerCount (c :: rest) = jokerCount rest + 1 := by
        simp [jokerCount, List.countP_cons, hcj]
      cases h with
      | nil =>
        exfalso
        rw [hcnt'] at hcnt
        simp at hcnt
      | cons x hs =>
        obtain ⟨arr2, h2, hfill, hperm, hjf2, hjf3⟩ := ih hs
          (by rw [hcnt'] at hcnt; simpa using hcnt)
          (fun d hd => hjf d (by simp [hd]))
        refine ⟨x :: arr2, h2, ?_, ?_, ?_, hjf3⟩
        · rw [fillJokers.eq_def]
          dsimp only
          rw [if_pos hcj, hfill]
          rfl
        · have h1 : List.Perm ((x :: arr2) ++ h2) (x :: (realPart rest ++ hs)) := by
            rw [List.cons_append]
            exact (hperm.cons x)
          have h2p : realPart (c :: rest) ++ (x :: hs) =
              realPart rest ++ (x :: hs) := by
            simp [realPart, hcj]
          rw [h2p]
          exact h1.trans (List.perm_middle).symm
        · intro d hd
          rcases List.mem_cons.mp hd with rfl | hd
          · exact hjf d (by simp)
          · exact hjf2 d hd
    · have hcnt' : jokerCount (c :: rest) = jokerCount rest := by
        simp [jokerCount, List.countP_cons, hcj]
      obtain ⟨arr2, h2, hfill, hperm, hjf2, hjf3⟩ := ih h
        (by rw [hcnt'] at hcnt; exact hcnt) hjf
      refine ⟨c :: arr2, h2, ?_, ?_, ?_, hjf3⟩
      · rw [fillJokers.eq_def]
        dsimp only
        rw [if_neg hcj, hfill]
        rfl
      · have h2p : realPart (c :: rest) = c :: realPart rest := by
          simp [realPart, hcj]
        rw [h2p, List.cons_append, List.cons_append]
        exact hperm.cons c
      · intro d hd
        rcases List.mem_cons.mp hd with rfl | hd
        · exact hcj
        · exact hjf2 d hd

/-- The first-last swap is a permutation. -/
lemma swap_first_last_perm (l : List Card) :
    List.Perm (swap_first_last l) l := by
  cases l with
  | nil => exact List.Perm.refl _
  | cons a rest =>
    cases hlast : rest.getLast? with
    | none =>
      have hre : rest = [] := List.getLast?_eq_none_iff.mp hlast
      subst hre
      exact List.Perm.refl [a]
    | some b =>
      have hne : rest ≠ [] := by
        intro hx
        rw [hx] at hlast
        exact absurd hlast (by simp)
      have hb : rest.getLast hne = b := by
        have hgl := List.getLast?_eq_getLast rest hne
        rw [hlast] at hgl
        exact (Option.some_inj.mp hgl).symm
      have hdec : rest.dropLast ++ [b] = rest := by
        rw [hb.symm]
        exact List.dropLast_append_getLast hne
      have hswap : swap_first_last (a :: rest) = b :: (rest.dropLast ++ [a]) := by
        rw [swap_first_last.eq_def]
        dsimp only
        rw [hlast]
      rw [hswap]
      have h1 : List.Perm (rest.dropLast ++ [a]) (a :: rest.dropLast) :=
        List.perm_append_singleton a rest.dropLast
      have h2 : List.Perm (b :: (rest.dropLast ++ [a])) (a :: b :: rest.dropLast) :=
        (h1.cons b).trans (List.Perm.swap a b rest.dropLast)
      refine h2.trans (List.Perm.cons a ?_)
      exact (List.perm_append_singleton b rest.dropLast).symm.trans (by rw [hdec])


/-- C2: on thirteen distinct standard cards the greedy arranger always
terminates with a defined result: the arranged buffer holds exactly
thirteen cards, a permutation of the input with no Joker placeholder left,
and the hand buffer is cleared. -/
theorem claim_C2_find_best_poker_play (hand : List Card) (hlen : hand.length = 13)
    (hnd : hand.Nodup) (hstd : ∀ c ∈ hand, StandardCard c) :
    ∃ best arr, find_best_poker_play hand [] ROYAL_FLUSH = some (best, arr, []) ∧
      arr.length = 13 ∧ List.Perm arr hand ∧ ∀ c ∈ arr, c.suit ≠ SUIT_JOKER := by
  obtain ⟨hperm1, hlen1⟩ := fb_loop_inv hand hnd hstd hlen ROYAL_FLUSH
    (by rw [ROYAL_FLUSH]) (HIGH_CARD, HIGH_CARD) (HIGH_CARD, HIGH_CARD) HIGH_CARD hand []
    (Or.inr ⟨rfl, rfl, rfl, rfl, fun lvl h1 h2 => by rw [ROYAL_FLUSH] at h1; omega⟩)
  have hlen13 : (realPart (fb_loop (downTo ROYAL_FLUSH HIGH_CARD)
      (HIGH_CARD, HIGH_CARD) (HIGH_CARD, HIGH_CARD) HIGH_CARD hand []).2.2.2.2).length +
      (fb_loop (downTo ROYAL_FLUSH HIGH_CARD)
      (HIGH_CARD, HIGH_CARD) (HIGH_CARD, HIGH_CARD) HIGH_CARD hand []).2.2.2.1.length = 13 := by
    have := hperm1.length_eq
    rw [hlen] at this
    rw [List.length_append] at this
    omega
  have hjk := realPart_length_add_jokerCount (fb_loop (downTo ROYAL_FLUSH HIGH_CARD)
      (HIGH_CARD, HIGH_CARD) (HIGH_CARD, HIGH_CARD) HIGH_CARD hand []).2.2.2.2
  have hjf1 : ∀ c ∈ (fb_loop (downTo ROYAL_FLUSH HIGH_CARD)
      (HIGH_CARD, HIGH_CARD) (HIGH_CARD, HIGH_CARD) HIGH_CARD hand []).2.2.2.1,
      c.suit ≠ SUIT_JOKER := by
    intro c hc
    have : c ∈ hand := hperm1.symm.subset (List.mem_append_right _ hc)
    exact std_suit_ne_joker (hstd c this)
  obtain ⟨arr2, h2, hfill, hperm2, hjf2, hjf3⟩ := fillJokers_spec
    (fb_loop (downTo ROYAL_FLUSH HIGH_CARD)
      (HIGH_CARD, HIGH_CARD) (HIGH_CARD, HIGH_CARD) HIGH_CARD hand []).2.2.2.2
    (fb_loop (downTo ROYAL_FLUSH HIGH_CARD)
      (HIGH_CARD, HIGH_CARD) (HIGH_CARD, HIGH_CARD) HIGH_CARD hand []).2.2.2.1
    (by omega) hjf1
  unfold find_best_poker_play
  dsimp only
  rw [hfill]
  dsimp only
  have hfinal : ∀ hand3 : List Card, List.Perm hand3 h2 →
      ((arr2 ++ hand3).reverse.length = 13 ∧
        List.Perm (arr2 ++ hand3).reverse hand ∧
        ∀ c ∈ (arr2 ++ hand3).reverse, c.suit ≠ SUIT_JOKER) := by
    intro hand3 hp3
    have hps : List.Perm (arr2 ++ hand3) hand := by
      refine ((List.Perm.append_left arr2 hp3).trans hperm2).trans ?_
      exact hperm1.symm
    have hrev : List.Perm (arr2 ++ hand3).reverse hand :=
      (arr2 ++ hand3).reverse_perm.trans hps
    refine ⟨by rw [hrev.length_eq, hlen], hrev, ?_⟩
    intro c hc
    have hc2 := hrev.subset hc
    exact std_suit_ne_joker (hstd c hc2)
  split
  · obtain ⟨hl, hp, hj⟩ := hfinal (swap_first_last h2) (swap_first_last_perm h2)
    exact ⟨_, _, rfl, hl, hp, hj⟩
  · obtain ⟨hl, hp, hj⟩ := hfinal h2 (List.Perm.refl h2)
    exact ⟨_, _, rfl, hl, hp, hj⟩

/-- A full suit of clubs, ace low: thirteen distinct standard cards. -/
def c2_hand : List Card :=
  [⟨SUIT_CLUBS, 1⟩, ⟨SUIT_CLUBS, 2⟩, ⟨SUIT_CLUBS, 3⟩, ⟨SUIT_CLUBS, 4⟩,
   ⟨SUIT_CLUBS, 5⟩, ⟨SUIT_CLUBS, 6⟩, ⟨SUIT_CLUBS, 7⟩, ⟨SUIT_CLUBS, 8⟩,
   ⟨SUIT_CLUBS, 9⟩, ⟨SUIT_CLUBS, 10⟩, ⟨SUIT_CLUBS, 11⟩, ⟨SUIT_CLUBS, 12⟩,
   ⟨SUIT_CLUBS, 13⟩]

/-- Witness for C2: the full clubs suit. -/
theorem claim_C2_witness :
    ∃ best arr, find_best_poker_play c2_hand [] ROYAL_FLUSH = some (best, arr, []) ∧
      arr.length = 13 ∧ List.Perm arr c2_hand ∧ ∀ c ∈ arr, c.suit ≠ SUIT_JOKER :=
  claim_C2_find_best_poker_play c2_hand (by decide) (by decide) (by decide)

end Pusoy
